import Mathlib

/-!
Verification development for the coordinator meta-catalog core of
dingo-store (`CoordinatorControl`, file `coordinator_control_meta.cc`).

The data model and every operation below are shallow embeddings of the C++
source: protobuf messages become structures, the butil safe maps become
association lists, `butil::Status` becomes `Except Errno`, and the mutable
out-parameters (`meta_increment`, the returned ids, the response objects)
become explicit results.  Machine integers are modelled as `Nat` (ids,
counters; the source uses `uint64_t` and overflow is unreachable) and `Int`
(the `int32_t` replica field).  External collaborators that are not part of
the excerpt (the allocator `GetNextId`/`GetPresentId`, the region service
`CreateRegion`/`DropRegion`, the auto-increment service) are modelled from
the specification, each marked `Modelled from the spec:` in its doc comment.
-/

namespace Dingo

/-- Decidable equality of `Except` results, used to evaluate the closed
theorems below. -/
instance instDecEqExcept {ε α : Type} [DecidableEq ε] [DecidableEq α] :
    DecidableEq (Except ε α) := fun x y =>
  match x, y with
  | Except.ok a, Except.ok b =>
    if h : a = b then isTrue (by rw [h]) else
      isFalse (by intro hh; injection hh with h2; exact h h2)
  | Except.ok _, Except.error _ => isFalse (by intro hh; cases hh)
  | Except.error _, Except.ok _ => isFalse (by intro hh; cases hh)
  | Except.error a, Except.error b =>
    if h : a = b then isTrue (by rw [h]) else
      isFalse (by intro hh; injection hh with h2; exact h h2)

/-- Error codes of `pb::error::Errno` used by the catalog core. -/
inductive Errno
  | EILLEGAL_PARAMTETERS
  | ESCHEMA_EXISTS
  | ESCHEMA_NOT_FOUND
  | ESCHEMA_NOT_EMPTY
  | ETABLE_EXISTS
  | ETABLE_NOT_FOUND
  | ETABLE_DEFINITION_ILLEGAL
  | ETABLE_REGION_CREATE_FAILED
  | ETABLE_METRICS_FAILED
  | EINDEX_EXISTS
  | EINDEX_NOT_FOUND
  | EINDEX_DEFINITION_ILLEGAL
  | EINDEX_REGION_CREATE_FAILED
  | EINDEX_METRICS_FAILED
  | EAUTO_INCREMENT_WHILE_CREATING_TABLE
  | EINTERNAL
  deriving DecidableEq

/-- Kinds of the id/epoch counters (`pb::coordinator_internal::IdEpochType`). -/
inductive IdEpochType
  | ID_NEXT_SCHEMA
  | ID_NEXT_TABLE
  | ID_NEXT_REGION
  | EPOCH_SCHEMA
  | EPOCH_TABLE
  | EPOCH_INDEX
  | EPOCH_REGION
  | EPOCH_STORE
  deriving DecidableEq

/-- The id/epoch counter bank (`id_epoch_map_`), one `u64` per kind. -/
structure IdEpochs where
  idNextSchema : Nat
  idNextTable : Nat
  idNextRegion : Nat
  epochSchema : Nat
  epochTable : Nat
  epochIndex : Nat
  epochRegion : Nat
  epochStore : Nat
  deriving DecidableEq

def IdEpochs.get (e : IdEpochs) : IdEpochType → Nat
  | .ID_NEXT_SCHEMA => e.idNextSchema
  | .ID_NEXT_TABLE => e.idNextTable
  | .ID_NEXT_REGION => e.idNextRegion
  | .EPOCH_SCHEMA => e.epochSchema
  | .EPOCH_TABLE => e.epochTable
  | .EPOCH_INDEX => e.epochIndex
  | .EPOCH_REGION => e.epochRegion
  | .EPOCH_STORE => e.epochStore

def IdEpochs.set (e : IdEpochs) : IdEpochType → Nat → IdEpochs
  | .ID_NEXT_SCHEMA, v => { e with idNextSchema := v }
  | .ID_NEXT_TABLE, v => { e with idNextTable := v }
  | .ID_NEXT_REGION, v => { e with idNextRegion := v }
  | .EPOCH_SCHEMA, v => { e with epochSchema := v }
  | .EPOCH_TABLE, v => { e with epochTable := v }
  | .EPOCH_INDEX, v => { e with epochIndex := v }
  | .EPOCH_REGION, v => { e with epochRegion := v }
  | .EPOCH_STORE, v => { e with epochStore := v }

/-- Association-list lookup; models `DingoSafeMap::Get` / `seek`. -/
def aget {κ α : Type} [DecidableEq κ] : List (κ × α) → κ → Option α
  | [], _ => none
  | (k2, v) :: rest, k => if k2 = k then some v else aget rest k

/-- Key-presence test; models `DingoSafeMap::Exists`. -/
def aexists {κ α : Type} [DecidableEq κ] (m : List (κ × α)) (k : κ) : Bool :=
  (aget m k).isSome

/-- Upsert; models `DingoSafeMap::Put`. -/
def aput {κ α : Type} [DecidableEq κ] : List (κ × α) → κ → α → List (κ × α)
  | [], k, v => [(k, v)]
  | (k2, v2) :: rest, k, v => if k2 = k then (k, v) :: rest else (k2, v2) :: aput rest k v

/-- Erase every binding of the key; models `DingoSafeMap::Erase`. -/
def aerase {κ α : Type} [DecidableEq κ] : List (κ × α) → κ → List (κ × α)
  | [], _ => []
  | (k2, v) :: rest, k => if k2 = k then aerase rest k else (k2, v) :: aerase rest k

/-- Insert only when absent, `none` on conflict; models `PutIfAbsent` (which
returns `-1` when the key is already bound). -/
def aputIfAbsent {κ α : Type} [DecidableEq κ] (m : List (κ × α)) (k : κ) (v : α) :
    Option (List (κ × α)) :=
  if (aget m k).isSome then none else some (aput m k v)

/-- Overwrite only when present; models `PutIfExists`. -/
def aputIfExists {κ α : Type} [DecidableEq κ] (m : List (κ × α)) (k : κ) (v : α) :
    List (κ × α) :=
  if (aget m k).isSome then aput m k v else m

/-- Byte-wise three-way comparison of keys, the semantics of
`std::string::compare` on the (unsigned) key bytes. -/
def byteCompare : List Nat → List Nat → Ordering
  | [], [] => .eq
  | [], _ :: _ => .lt
  | _ :: _, [] => .gt
  | a :: as, b :: bs => if a < b then .lt else if b < a then .gt else byteCompare as bs

/-- A key range (`pb::common::Range`). -/
structure RangeT where
  startKey : List Nat
  endKey : List Nat
  deriving DecidableEq

/-- A server location (`pb::common::Location`). -/
structure Location where
  host : String
  port : Nat
  deriving DecidableEq

/-- Raft role of a peer (`pb::common::PeerRole`). -/
inductive PeerRole
  | VOTER
  | LEARNER
  deriving DecidableEq

/-- A region peer (`pb::common::Peer`): the fields this core reads. -/
structure Peer where
  storeId : Nat
  role : PeerRole
  serverLocation : Location
  deriving DecidableEq

/-- Region kind (`pb::common::RegionType`). -/
inductive RegionType
  | STORE_REGION
  | INDEX_REGION
  deriving DecidableEq

/-- Per-region telemetry (`pb::common::RegionMetrics`): the fields read by the
metrics aggregator. -/
structure RegionMetrics where
  rowCount : Nat
  minKey : List Nat
  maxKey : List Nat
  deriving DecidableEq

/-- The definition part of a region (`pb::common::RegionDefinition`): the
fields this core reads or fills. -/
structure RegionDefinition where
  name : String
  replicaNum : Int
  range : RangeT
  peers : List Peer
  schemaId : Nat
  tableId : Nat
  indexId : Nat
  deriving DecidableEq

/-- A region record (`pb::common::Region`): the fields this core reads.
`metrics` is `none` when `has_metrics()` is false. -/
structure Region where
  id : Nat
  regionType : RegionType
  definition : RegionDefinition
  leaderStoreId : Nat
  metrics : Option RegionMetrics
  deriving DecidableEq

/-- Internal schema record (`pb::coordinator_internal::SchemaInternal`). -/
structure SchemaInternal where
  id : Nat
  name : String
  tableIds : List Nat
  indexIds : List Nat
  deriving DecidableEq

/-- The partition rule declared by a table/index definition: the protobuf
one-of inside `table_partition`/`index_partition` as a tagged variant
(`unsetPartition` models the one-of having no case set). -/
inductive PartitionVariant
  | hashPartition
  | rangePartition (ranges : List RangeT)
  | unsetPartition
  deriving DecidableEq

/-- Table definition (`pb::meta::TableDefinition`): the fields this core
reads.  `hasAutoIncrementColumn` flattens the column scan performed by
`AutoIncrementControl::CheckAutoIncrementInTableDefinition`;
`tablePartition = none` models `has_table_partition() == false`. -/
structure TableDefinition where
  name : String
  replica : Int
  tablePartition : Option PartitionVariant
  hasAutoIncrementColumn : Bool
  autoIncrement : Nat
  deriving DecidableEq

/-- Internal table record (`pb::coordinator_internal::TableInternal`);
`partitions` keeps only the `region_id` of each `PartInternal`. -/
structure TableInternal where
  id : Nat
  schemaId : Nat
  definition : TableDefinition
  partitions : List Nat
  deriving DecidableEq

/-- Vector metric type (`pb::common::MetricType`). -/
inductive MetricType
  | METRIC_TYPE_NONE
  | METRIC_TYPE_L2
  | METRIC_TYPE_INNER_PRODUCT
  | METRIC_TYPE_COSINE
  deriving DecidableEq

/-- Vector index flavour (`pb::common::VectorIndexType`). -/
inductive VectorIndexType
  | VECTOR_INDEX_TYPE_NONE
  | VECTOR_INDEX_TYPE_FLAT
  | VECTOR_INDEX_TYPE_IVF_FLAT
  | VECTOR_INDEX_TYPE_IVF_PQ
  | VECTOR_INDEX_TYPE_HNSW
  | VECTOR_INDEX_TYPE_DISKANN
  deriving DecidableEq

/-- `pb::common::CreateHnswParam`, numeric fields as unsigned. -/
structure CreateHnswParam where
  dimension : Nat
  metricType : MetricType
  efconstruction : Nat
  maxElements : Nat
  nlinks : Nat
  deriving DecidableEq

/-- `pb::common::CreateFlatParam`. -/
structure CreateFlatParam where
  dimension : Nat
  metricType : MetricType
  deriving DecidableEq

/-- `pb::common::CreateIvfFlatParam`. -/
structure CreateIvfFlatParam where
  dimension : Nat
  metricType : MetricType
  ncentroids : Nat
  deriving DecidableEq

/-- `pb::common::CreateIvfPqParam`. -/
structure CreateIvfPqParam where
  dimension : Nat
  metricType : MetricType
  ncentroids : Nat
  nsubvector : Nat
  bucketInitSize : Nat
  bucketMaxSize : Nat
  deriving DecidableEq

/-- `pb::common::CreateDiskAnnParam`. -/
structure CreateDiskAnnParam where
  dimension : Nat
  metricType : MetricType
  numTrees : Nat
  numNeighbors : Nat
  numThreads : Nat
  deriving DecidableEq

/-- The protobuf one-of holding the per-flavour vector parameter block;
`has_hnsw_parameter()` etc. test which case is set. -/
inductive VectorParamVariant
  | flatParam (p : CreateFlatParam)
  | ivfFlatParam (p : CreateIvfFlatParam)
  | ivfPqParam (p : CreateIvfPqParam)
  | hnswParam (p : CreateHnswParam)
  | diskannParam (p : CreateDiskAnnParam)
  deriving DecidableEq

/-- `pb::common::VectorIndexParameter`: the flavour tag plus the one-of
parameter block (`none` when no case of the one-of is set). -/
structure VectorIndexParameter where
  vectorIndexType : VectorIndexType
  param : Option VectorParamVariant
  deriving DecidableEq

/-- Scalar index flavour (`pb::common::ScalarIndexType`). -/
inductive ScalarIndexType
  | SCALAR_INDEX_TYPE_NONE
  | SCALAR_INDEX_TYPE_LSM
  | SCALAR_INDEX_TYPE_BTREE
  deriving DecidableEq

/-- `pb::common::ScalarIndexParameter`. -/
structure ScalarIndexParameter where
  scalarIndexType : ScalarIndexType
  deriving DecidableEq

/-- Index kind (`pb::common::IndexType`). -/
inductive IndexType
  | INDEX_TYPE_NONE
  | INDEX_TYPE_VECTOR
  | INDEX_TYPE_SCALAR
  deriving DecidableEq

/-- `pb::common::IndexParameter`; the optional sub-messages model
`has_vector_index_parameter()` / `has_scalar_index_parameter()`. -/
structure IndexParameter where
  indexType : IndexType
  vectorIndexParameter : Option VectorIndexParameter
  scalarIndexParameter : Option ScalarIndexParameter
  deriving DecidableEq

/-- Index definition (`pb::meta::IndexDefinition`): the fields this core
reads. -/
structure IndexDefinition where
  name : String
  replica : Int
  indexParameter : IndexParameter
  indexPartition : Option PartitionVariant
  withAutoIncrement : Bool
  autoIncrement : Nat
  deriving DecidableEq

/-- Internal index record (`pb::coordinator_internal::IndexInternal`). -/
structure IndexInternal where
  id : Nat
  schemaId : Nat
  definition : IndexDefinition
  partitions : List Nat
  deriving DecidableEq

/-- Aggregated table metrics (`pb::meta::TableMetrics`). -/
structure TableMetrics where
  rowsCount : Nat
  minKey : List Nat
  maxKey : List Nat
  partCount : Nat
  deriving DecidableEq

/-- Cache entry (`pb::coordinator_internal::TableMetricsInternal`). -/
structure TableMetricsInternal where
  id : Nat
  tableMetrics : TableMetrics
  deriving DecidableEq

/-- Aggregated index metrics (`pb::meta::IndexMetrics`). -/
structure IndexMetrics where
  rowsCount : Nat
  minKey : List Nat
  maxKey : List Nat
  partCount : Nat
  deriving DecidableEq

/-- Cache entry (`pb::coordinator_internal::IndexMetricsInternal`). -/
structure IndexMetricsInternal where
  id : Nat
  indexMetrics : IndexMetrics
  deriving DecidableEq

/-- `pb::meta::EntityType`. -/
inductive EntityType
  | ENTITY_TYPE_SCHEMA
  | ENTITY_TYPE_TABLE
  | ENTITY_TYPE_INDEX
  | ENTITY_TYPE_PART
  deriving DecidableEq

/-- `pb::meta::DingoCommonId`. -/
structure DingoCommonId where
  entityType : EntityType
  entityId : Nat
  parentEntityId : Nat
  deriving DecidableEq

/-- Read view of a schema (`pb::meta::Schema`), as assembled by
`GetSchemas`/`GetSchema`. -/
structure MetaSchema where
  id : DingoCommonId
  name : String
  tableIds : List DingoCommonId
  deriving DecidableEq

/-- `pb::meta::TableDefinitionWithId`. -/
structure TableDefinitionWithId where
  tableId : DingoCommonId
  tableDefinition : TableDefinition
  deriving DecidableEq

/-- `pb::meta::IndexDefinitionWithId`. -/
structure IndexDefinitionWithId where
  indexId : DingoCommonId
  indexDefinition : IndexDefinition
  deriving DecidableEq

/-- One `pb::meta::RangeDistribution` of a `TableRange`/`IndexRange`
response. -/
structure RangeDistribution where
  id : DingoCommonId
  range : RangeT
  leader : Location
  voters : List Location
  learners : List Location
  regionmapEpoch : Nat
  storemapEpoch : Nat
  deriving DecidableEq

/-- `pb::meta::TableMetricsWithId`. -/
structure TableMetricsWithId where
  id : DingoCommonId
  tableMetrics : TableMetrics
  deriving DecidableEq

/-- `pb::meta::IndexMetricsWithId`. -/
structure IndexMetricsWithId where
  id : DingoCommonId
  indexMetrics : IndexMetrics
  deriving DecidableEq

/-- `pb::coordinator_internal::MetaIncrementOpType`. -/
inductive MetaIncrementOpType
  | CREATE
  | UPDATE
  | DELETE
  deriving DecidableEq

/-- One entry of `MetaIncrement.schemas`. -/
structure SchemaIncrement where
  id : Nat
  opType : MetaIncrementOpType
  schemaId : Nat
  schemaInternal : SchemaInternal
  deriving DecidableEq

/-- One entry of `MetaIncrement.tables`. -/
structure TableIncrement where
  id : Nat
  opType : MetaIncrementOpType
  table : TableInternal
  deriving DecidableEq

/-- One entry of `MetaIncrement.indexes`. -/
structure IndexIncrement where
  id : Nat
  opType : MetaIncrementOpType
  index : IndexInternal
  deriving DecidableEq

/-- One entry of `MetaIncrement.regions`; the payload is `none` for the
`DELETE` entries appended by the modelled `DropRegion`. -/
structure RegionIncrement where
  id : Nat
  opType : MetaIncrementOpType
  region : Option Region
  deriving DecidableEq

/-- One entry of `MetaIncrement.id_epochs`: the counter kind touched and the
value it reaches on apply. -/
structure IdEpochIncrement where
  kind : IdEpochType
  value : Nat
  deriving DecidableEq

/-- The atomic change-set (`pb::coordinator_internal::MetaIncrement`). -/
structure MetaIncrement where
  schemas : List SchemaIncrement
  tables : List TableIncrement
  indexes : List IndexIncrement
  regions : List RegionIncrement
  idEpochs : List IdEpochIncrement
  deriving DecidableEq

def MetaIncrement.empty : MetaIncrement :=
  { schemas := [], tables := [], indexes := [], regions := [], idEpochs := [] }

/-- The coordinator's catalog state: the primary stores, the metrics caches,
the leader-local name indexes (`*_name_map_safe_temp_`) and the id/epoch
counter bank. -/
structure CState where
  schemaMap : List (Nat × SchemaInternal)
  tableMap : List (Nat × TableInternal)
  indexMap : List (Nat × IndexInternal)
  regionMap : List (Nat × Region)
  tableMetricsMap : List (Nat × TableMetricsInternal)
  indexMetricsMap : List (Nat × IndexMetricsInternal)
  schemaNameMap : List (String × Nat)
  tableNameMap : List (String × Nat)
  indexNameMap : List (String × Nat)
  idEpochs : IdEpochs
  deriving DecidableEq

/-- `pb::meta::ReservedSchemaIds::ROOT_SCHEMA` (the root schema has id 0:
`GetSchemas` accepts exactly `schema_id == 0`). -/
def ROOT_SCHEMA : Nat := 0

/-- Modelled from the spec: the reserved-id upper bound that guards
`DropSchema` (`COORDINATOR_ID_OF_MAP_MIN`, defined outside the excerpt).  The
five reserved schemas have ids at or below this bound and user ids are
allocated above it. -/
def COORDINATOR_ID_OF_MAP_MIN : Nat := 1000

/-- Modelled from the spec: the allocator's `next(kind, meta_increment)`
(§4.1).  It loads-and-adds 1 to the counter named by `kind`, appends the
matching `id_epochs` sub-increment, and returns the new value. -/
def getNextId (k : IdEpochType) (s : CState) (inc : MetaIncrement) :
    Nat × CState × MetaIncrement :=
  let v := s.idEpochs.get k + 1
  (v, { s with idEpochs := s.idEpochs.set k v },
    { inc with idEpochs := inc.idEpochs ++ [{ kind := k, value := v }] })

/-- Modelled from the spec: the allocator's non-authoritative `present(kind)`
snapshot (§4.1), used to fill the range-distribution epoch cookies. -/
def getPresentId (k : IdEpochType) (s : CState) : Nat :=
  s.idEpochs.get k

/-- `ValidateSchema`: key presence in `schema_map_`. -/
def validateSchema (s : CState) (schemaId : Nat) : Bool :=
  aexists s.schemaMap schemaId

/-- The region record a successful `CreateRegion` call contributes to the
meta-increment (peers and leader are chosen later by the placement engine and
unknown to this core at build time). -/
def newRegionRecord (rtype : RegionType) (regionName : String) (replicaNum : Int)
    (range : RangeT) (schemaId tableId indexId rid : Nat) : Region :=
  { id := rid, regionType := rtype,
    definition :=
      { name := regionName, replicaNum := replicaNum, range := range,
        peers := [], schemaId := schemaId, tableId := tableId, indexId := indexId },
    leaderStoreId := 0, metrics := none }

/-- Modelled from the spec: the region service's `CreateRegion` (§4.8), whose
implementation is outside the excerpt.  On success it draws a fresh region id
from the allocator and appends the region `CREATE` sub-increment carrying the
requested name, type, replica count, range and owner ids; `okFlag` injects the
external outcome of the RPC (a failed call leaves state and increment
untouched).  The builder itself bumps `EPOCH_REGION`, so the adapter does
not. -/
def createRegion (regionName : String) (rtype : RegionType) (_resourceTag : String)
    (replicaNum : Int) (range : RangeT) (schemaId tableId indexId : Nat)
    (okFlag : Bool) (s : CState) (inc : MetaIncrement) :
    Except Errno Nat × CState × MetaIncrement :=
  if okFlag then
    let r := getNextId .ID_NEXT_REGION s inc
    (Except.ok r.1, r.2.1,
      { r.2.2 with regions := r.2.2.regions ++
          [{ id := r.1, opType := .CREATE,
             region := some (newRegionRecord rtype regionName replicaNum range
               schemaId tableId indexId r.1) }] })
  else (Except.error .EINTERNAL, s, inc)

/-- Modelled from the spec: the region service's `DropRegion` (§4.8).  It
appends the region `DELETE` sub-increment for the id; the catalog state is not
touched pre-apply.  The spec attributes no epoch bump to the adapter. -/
def dropRegion (regionId : Nat) (s : CState) (inc : MetaIncrement) :
    Except Errno Unit × CState × MetaIncrement :=
  (Except.ok (), s,
    { inc with regions := inc.regions ++ [{ id := regionId, opType := .DELETE, region := none }] })

/-- Modelled from the spec: the auto-increment adapter's column check invoked
by `CreateTable`/`DropTable` (§4.5 step 1); it reports whether the definition
declares an auto-increment column. -/
def checkAutoIncrementInTableDefinition (d : TableDefinition) : Except Errno Bool :=
  Except.ok d.hasAutoIncrementColumn

/-- Modelled from the spec: the auto-increment service's synchronous
`SyncCreate` (§4.8); `okFlag` injects the external outcome. -/
def syncSendCreateAutoIncrementInternal (_entityId : Nat) (_initial : Nat)
    (okFlag : Bool) : Except Errno Unit :=
  if okFlag then Except.ok () else Except.error .EINTERNAL

/-- `CreateSchema`: only the root schema parents user schemas; the name is
reserved in `schema_name_map_safe_temp_`; the schema `CREATE` sub-increment is
appended and `EPOCH_SCHEMA` bumped. -/
def createSchema (parentSchemaId : Nat) (schemaName : String) (s : CState)
    (inc : MetaIncrement) : Except Errno Nat × CState × MetaIncrement :=
  if parentSchemaId ≠ ROOT_SCHEMA then (Except.error .EILLEGAL_PARAMTETERS, s, inc)
  else if schemaName = "" then (Except.error .EILLEGAL_PARAMTETERS, s, inc)
  else if ((aget s.schemaNameMap schemaName).getD 0) ≠ 0 then
    (Except.error .ESCHEMA_EXISTS, s, inc)
  else
    let r := getNextId .ID_NEXT_SCHEMA s inc
    match aputIfAbsent r.2.1.schemaNameMap schemaName r.1 with
    | none => (Except.error .ESCHEMA_EXISTS, r.2.1, r.2.2)
    | some nm =>
      let s2 := { r.2.1 with schemaNameMap := nm }
      let newSchema : SchemaInternal :=
        { id := r.1, name := schemaName, tableIds := [], indexIds := [] }
      let inc2 :=
        { r.2.2 with schemas := r.2.2.schemas ++
            [{ id := r.1, opType := .CREATE, schemaId := parentSchemaId, schemaInternal := newSchema }] }
      let r2 := getNextId .EPOCH_SCHEMA s2 inc2
      (Except.ok r.1, r2.2.1, r2.2.2)

/-- `DropSchema`: reserved ids are rejected; emptiness is tested on
`table_ids_size()`; the epoch is bumped, the schema `DELETE` sub-increment
appended and the name erased from the name index. -/
def dropSchema (parentSchemaId schemaId : Nat) (s : CState) (inc : MetaIncrement) :
    Except Errno Unit × CState × MetaIncrement :=
  if schemaId ≤ COORDINATOR_ID_OF_MAP_MIN then (Except.error .EILLEGAL_PARAMTETERS, s, inc)
  else
    match aget s.schemaMap schemaId with
    | none => (Except.error .ESCHEMA_NOT_FOUND, s, inc)
    | some schemaToDelete =>
      if schemaToDelete.tableIds.length > 0 then (Except.error .ESCHEMA_NOT_EMPTY, s, inc)
      else
        let r := getNextId .EPOCH_SCHEMA s inc
        let inc2 :=
          { r.2.2 with schemas := r.2.2.schemas ++
              [{ id := schemaId, opType := .DELETE, schemaId := parentSchemaId,
                 schemaInternal := schemaToDelete }] }
        let s2 := { r.2.1 with schemaNameMap := aerase r.2.1.schemaNameMap schemaToDelete.name }
        (Except.ok (), s2, inc2)

/-- View of one schema-map entry as assembled by `GetSchemas`. -/
def schemaEntryView (parentId : Nat) (p : Nat × SchemaInternal) : MetaSchema :=
  { id := { entityType := .ENTITY_TYPE_SCHEMA, entityId := p.1, parentEntityId := parentId },
    name := p.2.name,
    tableIds := p.2.tableIds.map (fun t =>
      { entityType := .ENTITY_TYPE_TABLE, entityId := t, parentEntityId := p.1 }) }

/-- `GetSchemas`: accepts only the root schema id and an empty output vector,
then appends a view of every schema (with its child table ids). -/
def getSchemas (schemaId : Nat) (schemas : List MetaSchema) (s : CState) :
    Except Errno (List MetaSchema) :=
  if schemaId ≠ 0 then Except.error .EILLEGAL_PARAMTETERS
  else if schemas ≠ [] then Except.error .EILLEGAL_PARAMTETERS
  else Except.ok (schemas ++ s.schemaMap.map (schemaEntryView schemaId))

/-- `CreateTableId`: validates the schema then allocates from
`ID_NEXT_TABLE`. -/
def createTableId (schemaId : Nat) (s : CState) (inc : MetaIncrement) :
    Except Errno Nat × CState × MetaIncrement :=
  if ¬ aexists s.schemaMap schemaId then (Except.error .EILLEGAL_PARAMTETERS, s, inc)
  else
    let r := getNextId .ID_NEXT_TABLE s inc
    (Except.ok r.1, r.2.1, r.2.2)

/-- `CreateIndexId`: validates the schema then allocates from `ID_NEXT_TABLE`
(the `ID_NEXT_INDEX` call is commented out in the source). -/
def createIndexId (schemaId : Nat) (s : CState) (inc : MetaIncrement) :
    Except Errno Nat × CState × MetaIncrement :=
  if ¬ aexists s.schemaMap schemaId then (Except.error .EILLEGAL_PARAMTETERS, s, inc)
  else
    let r := getNextId .ID_NEXT_TABLE s inc
    (Except.ok r.1, r.2.1, r.2.2)

/-- Key of the table/index name maps: the source concatenates
`std::to_string(schema_id)` with the entity name. -/
def nameKey (schemaId : Nat) (name : String) : String :=
  toString schemaId ++ name

/-- The id step shared by `CreateTable` and `CreateIndex`: a caller-supplied
positive id is used as-is, otherwise a fresh id is drawn from
`ID_NEXT_TABLE`. -/
def tableIdAlloc (newIdIn : Nat) (s : CState) (inc : MetaIncrement) :
    Nat × CState × MetaIncrement :=
  if newIdIn = 0 then getNextId .ID_NEXT_TABLE s inc else (newIdIn, s, inc)

/-- Region name for the i-th partition of a table:
`T_<schema_id>_<table_name>_part_<i>`. -/
def tableRegionName (schemaId : Nat) (tableName : String) (i : Nat) : String :=
  "T_" ++ toString schemaId ++ "_" ++ tableName ++ "_part_" ++ toString i

/-- Region name for the i-th partition of an index:
`I_<schema_id>_<index_name>_part_<i>`. -/
def indexRegionName (schemaId : Nat) (indexName : String) (i : Nat) : String :=
  "I_" ++ toString schemaId ++ "_" ++ indexName ++ "_part_" ++ toString i

/-- The region-creation loop shared by `CreateTable` and `CreateIndex`: one
`CreateRegion` per declared range, breaking at the first failure, collecting
the created region ids in order. -/
def createRegionsForRanges (rtype : RegionType) (mkName : Nat → String)
    (replica : Int) (schemaId tableId indexId : Nat) (regionOk : Nat → Bool) :
    List RangeT → Nat → CState → MetaIncrement → CState × MetaIncrement × List Nat
  | [], _, s, inc => (s, inc, [])
  | range :: rest, i, s, inc =>
    match createRegion (mkName i) rtype "" replica range schemaId tableId indexId
        (regionOk i) s inc with
    | (Except.ok rid, s1, inc1) =>
      let r := createRegionsForRanges rtype mkName replica schemaId tableId indexId
        regionOk rest (i + 1) s1 inc1
      (r.1, r.2.1, rid :: r.2.2)
    | (Except.error _, s1, inc1) => (s1, inc1, [])

/-- The compensation / drop loop: one `DropRegion` per region id. -/
def dropRegionsList : List Nat → CState → MetaIncrement → CState × MetaIncrement
  | [], s, inc => (s, inc)
  | rid :: rest, s, inc =>
    let r := dropRegion rid s inc
    dropRegionsList rest r.2.1 r.2.2

/-- `CreateTable`.  Checks, in source order: schema is not root and exists;
the auto-increment column scan; partition validation (`table_partition`
present, `hash_partition` rejected, `range_partition` present and non-empty);
name free in `table_name_map_safe_temp_`; id allocation when the caller
passed none; synchronous auto-increment creation; name reservation; one
region per range with compensation (drop created regions, erase the name)
when fewer regions than ranges were created; then `EPOCH_REGION` and
`EPOCH_TABLE` bumps and the table `CREATE` sub-increment.  `autoIncOk` and
`regionOk` inject the outcomes of the external services. -/
def createTable (schemaId : Nat) (tableDefinition : TableDefinition)
    (newTableIdIn : Nat) (autoIncOk : Bool) (regionOk : Nat → Bool)
    (s : CState) (inc : MetaIncrement) : Except Errno Nat × CState × MetaIncrement :=
  if schemaId = ROOT_SCHEMA then (Except.error .EILLEGAL_PARAMTETERS, s, inc)
  else if ¬ aexists s.schemaMap schemaId then (Except.error .EILLEGAL_PARAMTETERS, s, inc)
  else
    match checkAutoIncrementInTableDefinition tableDefinition with
    | Except.error e => (Except.error e, s, inc)
    | Except.ok hasAutoIncrementColumn =>
      match tableDefinition.tablePartition with
      | none => (Except.error .ETABLE_DEFINITION_ILLEGAL, s, inc)
      | some PartitionVariant.hashPartition => (Except.error .ETABLE_DEFINITION_ILLEGAL, s, inc)
      | some PartitionVariant.unsetPartition => (Except.error .ETABLE_DEFINITION_ILLEGAL, s, inc)
      | some (PartitionVariant.rangePartition ranges) =>
        if ranges.length = 0 then (Except.error .ETABLE_DEFINITION_ILLEGAL, s, inc)
        else if ((aget s.tableNameMap (nameKey schemaId tableDefinition.name)).getD 0) ≠ 0 then
          (Except.error .ETABLE_EXISTS, s, inc)
        else
          let ra := tableIdAlloc newTableIdIn s inc
          let newTableId := ra.1
          let s1 := ra.2.1
          let inc1 := ra.2.2
          let autoStep : Except Errno Unit :=
            if hasAutoIncrementColumn then
              match syncSendCreateAutoIncrementInternal newTableId
                  tableDefinition.autoIncrement autoIncOk with
              | Except.ok _ => Except.ok ()
              | Except.error _ => Except.error .EAUTO_INCREMENT_WHILE_CREATING_TABLE
            else Except.ok ()
          match autoStep with
          | Except.error e => (Except.error e, s1, inc1)
          | Except.ok _ =>
            match aputIfAbsent s1.tableNameMap
                (nameKey schemaId tableDefinition.name) newTableId with
            | none => (Except.error .ETABLE_EXISTS, s1, inc1)
            | some nm =>
              let s2 := { s1 with tableNameMap := nm }
              let replica : Int :=
                if tableDefinition.replica < 1 then 3 else tableDefinition.replica
              let rl := createRegionsForRanges .STORE_REGION
                (tableRegionName schemaId tableDefinition.name) replica schemaId
                newTableId 0 regionOk ranges 0 s2 inc1
              let s3 := rl.1
              let inc2 := rl.2.1
              let newRegionIds := rl.2.2
              if newRegionIds.length < ranges.length then
                let rd := dropRegionsList newRegionIds s3 inc2
                let s5 :=
                  { rd.1 with
                    tableNameMap :=
                      aerase rd.1.tableNameMap (nameKey schemaId tableDefinition.name) }
                (Except.error .ETABLE_REGION_CREATE_FAILED, s5, rd.2)
              else
                let re := getNextId .EPOCH_REGION s3 inc2
                let tableInternal : TableInternal :=
                  { id := newTableId, schemaId := schemaId,
                    definition := tableDefinition, partitions := newRegionIds }
                let rt := getNextId .EPOCH_TABLE re.2.1 re.2.2
                let inc5 :=
                  { rt.2.2 with tables := rt.2.2.tables ++
                      [{ id := newTableId, opType := .CREATE, table := tableInternal }] }
                (Except.ok newTableId, rt.2.1, inc5)

/-- `DropTable`: validates the schema, loads the table, issues one
`DropRegion` per partition, appends the table `DELETE` sub-increment, bumps
`EPOCH_TABLE` and erases the name reservation.  (The asynchronous
auto-increment deletion has no catalog effect.) -/
def dropTable (schemaId tableId : Nat) (s : CState) (inc : MetaIncrement) :
    Except Errno Unit × CState × MetaIncrement :=
  if ¬ validateSchema s schemaId then (Except.error .EILLEGAL_PARAMTETERS, s, inc)
  else
    match aget s.tableMap tableId with
    | none => (Except.error .ETABLE_NOT_FOUND, s, inc)
    | some tableInternal =>
      let rd := dropRegionsList tableInternal.partitions s inc
      let inc2 :=
        { rd.2 with tables := rd.2.tables ++
            [{ id := tableId, opType := .DELETE, table := tableInternal }] }
      let rt := getNextId .EPOCH_TABLE rd.1 inc2
      let s3 :=
        { rt.2.1 with
          tableNameMap :=
            aerase rt.2.1.tableNameMap (nameKey schemaId tableInternal.definition.name) }
      (Except.ok (), s3, rt.2.2)

/-- `ValidateIndexDefinition`.  Source order: non-empty name; `index_type` not
`NONE`; for `VECTOR`, the `vector_index_parameter` must be present, its
`vector_index_type` not `NONE`, and the parameter block of the one-of must
match the declared flavour with every numeric constraint (`x <= 0` on the
unsigned protobuf fields is `x = 0` here); for `SCALAR`, the
`scalar_index_parameter` must be present with a non-`NONE`
`scalar_index_type`. -/
def validateIndexDefinition (indexDefinition : IndexDefinition) : Except Errno Unit :=
  if indexDefinition.name = "" then Except.error .EILLEGAL_PARAMTETERS
  else
    let indexParameter := indexDefinition.indexParameter
    if indexParameter.indexType = .INDEX_TYPE_NONE then Except.error .EILLEGAL_PARAMTETERS
    else if indexParameter.indexType = .INDEX_TYPE_VECTOR then
      match indexParameter.vectorIndexParameter with
      | none => Except.error .EILLEGAL_PARAMTETERS
      | some vp =>
        match vp.vectorIndexType with
        | .VECTOR_INDEX_TYPE_NONE => Except.error .EILLEGAL_PARAMTETERS
        | .VECTOR_INDEX_TYPE_HNSW =>
          match vp.param with
          | some (VectorParamVariant.hnswParam p) =>
            if p.dimension = 0 then Except.error .EILLEGAL_PARAMTETERS
            else if p.metricType = .METRIC_TYPE_NONE then Except.error .EILLEGAL_PARAMTETERS
            else if p.efconstruction = 0 then Except.error .EILLEGAL_PARAMTETERS
            else if p.maxElements = 0 then Except.error .EILLEGAL_PARAMTETERS
            else if p.nlinks = 0 then Except.error .EILLEGAL_PARAMTETERS
            else Except.ok ()
          | _ => Except.error .EILLEGAL_PARAMTETERS
        | .VECTOR_INDEX_TYPE_FLAT =>
          match vp.param with
          | some (VectorParamVariant.flatParam p) =>
            if p.dimension = 0 then Except.error .EILLEGAL_PARAMTETERS
            else if p.metricType = .METRIC_TYPE_NONE then Except.error .EILLEGAL_PARAMTETERS
            else Except.ok ()
          | _ => Except.error .EILLEGAL_PARAMTETERS
        | .VECTOR_INDEX_TYPE_IVF_FLAT =>
          match vp.param with
          | some (VectorParamVariant.ivfFlatParam p) =>
            if p.dimension = 0 then Except.error .EILLEGAL_PARAMTETERS
            else if p.metricType = .METRIC_TYPE_NONE then Except.error .EILLEGAL_PARAMTETERS
            else if p.ncentroids = 0 then Except.error .EILLEGAL_PARAMTETERS
            else Except.ok ()
          | _ => Except.error .EILLEGAL_PARAMTETERS
        | .VECTOR_INDEX_TYPE_IVF_PQ =>
          match vp.param with
          | some (VectorParamVariant.ivfPqParam p) =>
            if p.dimension = 0 then Except.error .EILLEGAL_PARAMTETERS
            else if p.metricType = .METRIC_TYPE_NONE then Except.error .EILLEGAL_PARAMTETERS
            else if p.ncentroids = 0 then Except.error .EILLEGAL_PARAMTETERS
            else if p.nsubvector = 0 then Except.error .EILLEGAL_PARAMTETERS
            else if p.bucketInitSize = 0 then Except.error .EILLEGAL_PARAMTETERS
            else if p.bucketMaxSize = 0 then Except.error .EILLEGAL_PARAMTETERS
            else Except.ok ()
          | _ => Except.error .EILLEGAL_PARAMTETERS
        | .VECTOR_INDEX_TYPE_DISKANN =>
          match vp.param with
          | some (VectorParamVariant.diskannParam p) =>
            if p.dimension = 0 then Except.error .EILLEGAL_PARAMTETERS
            else if p.metricType = .METRIC_TYPE_NONE then Except.error .EILLEGAL_PARAMTETERS
            else if p.numTrees = 0 then Except.error .EILLEGAL_PARAMTETERS
            else if p.numNeighbors = 0 then Except.error .EILLEGAL_PARAMTETERS
            else if p.numThreads = 0 then Except.error .EILLEGAL_PARAMTETERS
            else Except.ok ()
          | _ => Except.error .EILLEGAL_PARAMTETERS
    else if indexParameter.indexType = .INDEX_TYPE_SCALAR then
      match indexParameter.scalarIndexParameter with
      | none => Except.error .EILLEGAL_PARAMTETERS
      | some sp =>
        if sp.scalarIndexType = .SCALAR_INDEX_TYPE_NONE then Except.error .EILLEGAL_PARAMTETERS
        else Except.ok ()
    else Except.ok ()

/-- `CreateIndex`: isomorphic to `CreateTable` with `ValidateIndexDefinition`
up front, `index_partition`, `INDEX_REGION` regions named `I_...`, ids drawn
from `ID_NEXT_TABLE`, the auto-increment step gated on
`with_auto_incrment()`, `EINDEX_*` errors and an `EPOCH_INDEX` bump. -/
def createIndex (schemaId : Nat) (indexDefinition : IndexDefinition)
    (newIndexIdIn : Nat) (autoIncOk : Bool) (regionOk : Nat → Bool)
    (s : CState) (inc : MetaIncrement) : Except Errno Nat × CState × MetaIncrement :=
  if schemaId = ROOT_SCHEMA then (Except.error .EILLEGAL_PARAMTETERS, s, inc)
  else if ¬ aexists s.schemaMap schemaId then (Except.error .EILLEGAL_PARAMTETERS, s, inc)
  else
    match validateIndexDefinition indexDefinition with
    | Except.error e => (Except.error e, s, inc)
    | Except.ok _ =>
      match indexDefinition.indexPartition with
      | none => (Except.error .EINDEX_DEFINITION_ILLEGAL, s, inc)
      | some PartitionVariant.hashPartition => (Except.error .EINDEX_DEFINITION_ILLEGAL, s, inc)
      | some PartitionVariant.unsetPartition => (Except.error .EINDEX_DEFINITION_ILLEGAL, s, inc)
      | some (PartitionVariant.rangePartition ranges) =>
        if ranges.length = 0 then (Except.error .EINDEX_DEFINITION_ILLEGAL, s, inc)
        else if ((aget s.indexNameMap (nameKey schemaId indexDefinition.name)).getD 0) ≠ 0 then
          (Except.error .EINDEX_EXISTS, s, inc)
        else
          let ra := tableIdAlloc newIndexIdIn s inc
          let newIndexId := ra.1
          let s1 := ra.2.1
          let inc1 := ra.2.2
          let autoStep : Except Errno Unit :=
            if indexDefinition.withAutoIncrement then
              match syncSendCreateAutoIncrementInternal newIndexId
                  indexDefinition.autoIncrement autoIncOk with
              | Except.ok _ => Except.ok ()
              | Except.error _ => Except.error .EAUTO_INCREMENT_WHILE_CREATING_TABLE
            else Except.ok ()
          match autoStep with
          | Except.error e => (Except.error e, s1, inc1)
          | Except.ok _ =>
            match aputIfAbsent s1.indexNameMap
                (nameKey schemaId indexDefinition.name) newIndexId with
            | none => (Except.error .EINDEX_EXISTS, s1, inc1)
            | some nm =>
              let s2 := { s1 with indexNameMap := nm }
              let replica : Int :=
                if indexDefinition.replica < 1 then 3 else indexDefinition.replica
              let rl := createRegionsForRanges .INDEX_REGION
                (indexRegionName schemaId indexDefinition.name) replica schemaId
                0 newIndexId regionOk ranges 0 s2 inc1
              let s3 := rl.1
              let inc2 := rl.2.1
              let newRegionIds := rl.2.2
              if newRegionIds.length < ranges.length then
                let rd := dropRegionsList newRegionIds s3 inc2
                let s5 :=
                  { rd.1 with
                    indexNameMap :=
                      aerase rd.1.indexNameMap (nameKey schemaId indexDefinition.name) }
                (Except.error .EINDEX_REGION_CREATE_FAILED, s5, rd.2)
              else
                let re := getNextId .EPOCH_REGION s3 inc2
                let indexInternal : IndexInternal :=
                  { id := newIndexId, schemaId := schemaId,
                    definition := indexDefinition, partitions := newRegionIds }
                let rt := getNextId .EPOCH_INDEX re.2.1 re.2.2
                let inc5 :=
                  { rt.2.2 with indexes := rt.2.2.indexes ++
                      [{ id := newIndexId, opType := .CREATE, index := indexInternal }] }
                (Except.ok newIndexId, rt.2.1, inc5)

/-- `DropIndex`: mirror of `DropTable` with `EPOCH_INDEX` and the index name
map. -/
def dropIndex (schemaId indexId : Nat) (s : CState) (inc : MetaIncrement) :
    Except Errno Unit × CState × MetaIncrement :=
  if ¬ validateSchema s schemaId then (Except.error .EILLEGAL_PARAMTETERS, s, inc)
  else
    match aget s.indexMap indexId with
    | none => (Except.error .EINDEX_NOT_FOUND, s, inc)
    | some indexInternal =>
      let rd := dropRegionsList indexInternal.partitions s inc
      let inc2 :=
        { rd.2 with indexes := rd.2.indexes ++
            [{ id := indexId, opType := .DELETE, index := indexInternal }] }
      let rt := getNextId .EPOCH_INDEX rd.1 inc2
      let s3 :=
        { rt.2.1 with
          indexNameMap :=
            aerase rt.2.1.indexNameMap (nameKey schemaId indexInternal.definition.name) }
      (Except.ok (), s3, rt.2.2)

/-- `GetTables`: requires an empty output vector; walks the schema's
`table_ids`, skipping ids missing from the table store. -/
def getTables (schemaId : Nat) (tableDefinitionWithIds : List TableDefinitionWithId)
    (s : CState) : Except Errno (List TableDefinitionWithId) :=
  if tableDefinitionWithIds ≠ [] then Except.error .EILLEGAL_PARAMTETERS
  else
    match aget s.schemaMap schemaId with
    | none => Except.error .ESCHEMA_NOT_FOUND
    | some schemaInternal =>
      Except.ok (schemaInternal.tableIds.foldl (fun out tid =>
        match aget s.tableMap tid with
        | none => out
        | some t =>
          out ++ [{ tableId := { entityType := .ENTITY_TYPE_TABLE, entityId := tid,
                                 parentEntityId := schemaId },
                    tableDefinition := t.definition }]) tableDefinitionWithIds)

/-- `GetIndexs`: requires an empty output vector; walks the schema's
`index_ids`, skipping ids missing from the index store. -/
def getIndexs (schemaId : Nat) (indexDefinitionWithIds : List IndexDefinitionWithId)
    (s : CState) : Except Errno (List IndexDefinitionWithId) :=
  if indexDefinitionWithIds ≠ [] then Except.error .EILLEGAL_PARAMTETERS
  else
    match aget s.schemaMap schemaId with
    | none => Except.error .ESCHEMA_NOT_FOUND
    | some schemaInternal =>
      Except.ok (schemaInternal.indexIds.foldl (fun out iid =>
        match aget s.indexMap iid with
        | none => out
        | some ix =>
          out ++ [{ indexId := { entityType := .ENTITY_TYPE_INDEX, entityId := iid,
                                 parentEntityId := schemaId },
                    indexDefinition := ix.definition }]) indexDefinitionWithIds)

/-- Leader location extraction: every peer whose `store_id` equals the
region's `leader_store_id` overwrites the leader field, so the last match
wins and a region without a matching peer keeps the default location. -/
def leaderOfPeers (peers : List Peer) (leaderStoreId : Nat) : Location :=
  peers.foldl
    (fun acc p => if p.storeId = leaderStoreId then p.serverLocation else acc)
    { host := "", port := 0 }

/-- The `RangeDistribution` assembled for one partition: the entry is added
to the response first (carrying the region/part id), and only then is the
region looked up — a missing region leaves every other field at its default.
A present region contributes its record's range (not the partition's), the
leader/voter/learner locations and the present `EPOCH_REGION` / `EPOCH_STORE`
snapshots. -/
def rangeDistributionFor (s : CState) (parentId regionId : Nat) : RangeDistribution :=
  let base : RangeDistribution :=
    { id := { entityType := .ENTITY_TYPE_PART, entityId := regionId, parentEntityId := parentId },
      range := { startKey := [], endKey := [] },
      leader := { host := "", port := 0 },
      voters := [], learners := [], regionmapEpoch := 0, storemapEpoch := 0 }
  match aget s.regionMap regionId with
  | none => base
  | some partRegion =>
    { base with
      range := partRegion.definition.range,
      leader := leaderOfPeers partRegion.definition.peers partRegion.leaderStoreId,
      voters := (partRegion.definition.peers.filter
        (fun p => decide (p.role = PeerRole.VOTER))).map Peer.serverLocation,
      learners := (partRegion.definition.peers.filter
        (fun p => decide (p.role = PeerRole.LEARNER))).map Peer.serverLocation,
      regionmapEpoch := getPresentId .EPOCH_REGION s,
      storemapEpoch := getPresentId .EPOCH_STORE s }

/-- `GetTableRange`: one `RangeDistribution` per partition of the table. -/
def getTableRange (schemaId tableId : Nat) (s : CState) :
    Except Errno (List RangeDistribution) :=
  if ¬ validateSchema s schemaId then Except.error .ESCHEMA_NOT_FOUND
  else
    match aget s.tableMap tableId with
    | none => Except.error .ETABLE_NOT_FOUND
    | some tableInternal =>
      Except.ok (tableInternal.partitions.map (rangeDistributionFor s tableId))

/-- `GetIndexRange`: one `RangeDistribution` per partition of the index. -/
def getIndexRange (schemaId indexId : Nat) (s : CState) :
    Except Errno (List RangeDistribution) :=
  if ¬ validateSchema s schemaId then Except.error .ESCHEMA_NOT_FOUND
  else
    match aget s.indexMap indexId with
    | none => Except.error .EINDEX_NOT_FOUND
    | some indexInternal =>
      Except.ok (indexInternal.partitions.map (rangeDistributionFor s indexId))

/-- One step of the metrics aggregation fold over a table's/index's
partitions: a region missing from the region map, or one without metrics, is
skipped; otherwise its `row_count` is added and the running min/max keys are
compared byte-lexicographically (the `empty()` branches of the source are kept
although the seeds make them unreachable). -/
def metricsFoldStep (s : CState) (acc : Nat × List Nat × List Nat) (regionId : Nat) :
    Nat × List Nat × List Nat :=
  match aget s.regionMap regionId with
  | none => acc
  | some partRegion =>
    match partRegion.metrics with
    | none => acc
    | some m =>
      let rowCount := acc.1 + m.rowCount
      let minKey :=
        if acc.2.1 = [] then m.minKey
        else if byteCompare acc.2.1 m.minKey = Ordering.gt then m.minKey else acc.2.1
      let maxKey :=
        if acc.2.2 = [] then m.maxKey
        else if byteCompare acc.2.2 m.maxKey = Ordering.lt then m.maxKey else acc.2.2
      (rowCount, minKey, maxKey)

/-- `CalculateTableMetricsSingle`: `none` models the `-1` return when the
table id is unknown; the min/max accumulators are seeded with ten `0x00`
bytes and ten `0xFF` bytes respectively. -/
def calculateTableMetricsSingle (tableId : Nat) (s : CState) : Option TableMetrics :=
  match aget s.tableMap tableId with
  | none => none
  | some tableInternal =>
    let r := tableInternal.partitions.foldl (metricsFoldStep s)
      (0, List.replicate 10 0, List.replicate 10 255)
    some { rowsCount := r.1, minKey := r.2.1, maxKey := r.2.2,
           partCount := tableInternal.partitions.length }

/-- `CalculateIndexMetricsSingle`: mirror of the table case. -/
def calculateIndexMetricsSingle (indexId : Nat) (s : CState) : Option IndexMetrics :=
  match aget s.indexMap indexId with
  | none => none
  | some indexInternal =>
    let r := indexInternal.partitions.foldl (metricsFoldStep s)
      (0, List.replicate 10 0, List.replicate 10 255)
    some { rowsCount := r.1, minKey := r.2.1, maxKey := r.2.2,
           partCount := indexInternal.partitions.length }

/-- `GetTableMetrics`: the supplied response object must be empty (zero
entity id); the schema and table must exist; the cached entry is returned
when present, otherwise the metrics are computed, inserted into
`table_metrics_map_` and returned. -/
def getTableMetrics (schemaId tableId : Nat) (tableMetricsIn : TableMetricsWithId)
    (s : CState) : Except Errno TableMetricsWithId × CState :=
  if tableMetricsIn.id.entityId ≠ 0 then (Except.error .EILLEGAL_PARAMTETERS, s)
  else if ¬ validateSchema s schemaId then (Except.error .ESCHEMA_NOT_FOUND, s)
  else if ¬ aexists s.tableMap tableId then (Except.error .ETABLE_NOT_FOUND, s)
  else
    match aget s.tableMetricsMap tableId with
    | some tmi =>
      (Except.ok { id := { entityType := .ENTITY_TYPE_TABLE, entityId := tableId,
                           parentEntityId := schemaId },
                   tableMetrics := tmi.tableMetrics }, s)
    | none =>
      match calculateTableMetricsSingle tableId s with
      | none => (Except.error .ETABLE_METRICS_FAILED, s)
      | some tm =>
        let tmi : TableMetricsInternal := { id := tableId, tableMetrics := tm }
        (Except.ok { id := { entityType := .ENTITY_TYPE_TABLE, entityId := tableId,
                             parentEntityId := schemaId },
                     tableMetrics := tm },
          { s with tableMetricsMap := aput s.tableMetricsMap tableId tmi })

/-- `GetIndexMetrics`: mirror of `GetTableMetrics`. -/
def getIndexMetrics (schemaId indexId : Nat) (indexMetricsIn : IndexMetricsWithId)
    (s : CState) : Except Errno IndexMetricsWithId × CState :=
  if indexMetricsIn.id.entityId ≠ 0 then (Except.error .EILLEGAL_PARAMTETERS, s)
  else if ¬ validateSchema s schemaId then (Except.error .ESCHEMA_NOT_FOUND, s)
  else if ¬ aexists s.indexMap indexId then (Except.error .EINDEX_NOT_FOUND, s)
  else
    match aget s.indexMetricsMap indexId with
    | some imi =>
      (Except.ok { id := { entityType := .ENTITY_TYPE_INDEX, entityId := indexId,
                           parentEntityId := schemaId },
                   indexMetrics := imi.indexMetrics }, s)
    | none =>
      match calculateIndexMetricsSingle indexId s with
      | none => (Except.error .EINDEX_METRICS_FAILED, s)
      | some im =>
        let imi : IndexMetricsInternal := { id := indexId, indexMetrics := im }
        (Except.ok { id := { entityType := .ENTITY_TYPE_INDEX, entityId := indexId,
                             parentEntityId := schemaId },
                     indexMetrics := im },
          { s with indexMetricsMap := aput s.indexMetricsMap indexId imi })

/-- `CalculateTableMetrics`, the periodic sweep: it walks a copy of the
metrics cache; an entry whose table vanished is erased, every other entry is
recomputed and rewritten with `PutIfExists`. -/
def calculateTableMetrics (s : CState) : CState :=
  s.tableMetricsMap.foldl
    (fun st p =>
      match calculateTableMetricsSingle p.1 st with
      | none => { st with tableMetricsMap := aerase st.tableMetricsMap p.1 }
      | some tm =>
        { st with tableMetricsMap :=
            aputIfExists st.tableMetricsMap p.1 { id := p.2.id, tableMetrics := tm } })
    s

/-- `CalculateIndexMetrics`: mirror of the table sweep. -/
def calculateIndexMetrics (s : CState) : CState :=
  s.indexMetricsMap.foldl
    (fun st p =>
      match calculateIndexMetricsSingle p.1 st with
      | none => { st with indexMetricsMap := aerase st.indexMetricsMap p.1 }
      | some im =>
        { st with indexMetricsMap :=
            aputIfExists st.indexMetricsMap p.1 { id := p.2.id, indexMetrics := im } })
    s

/-- The loop body of `CalculateTableMetrics`, named so the sweep can be
reasoned about step by step. -/
def tmSweepStep (st : CState) (p : Nat × TableMetricsInternal) : CState :=
  match calculateTableMetricsSingle p.1 st with
  | none => { st with tableMetricsMap := aerase st.tableMetricsMap p.1 }
  | some tm =>
    { st with tableMetricsMap :=
        aputIfExists st.tableMetricsMap p.1 { id := p.2.id, tableMetrics := tm } }

/-! Concrete fixtures used by the closed theorems below. -/

/-- Counter bank of the sample states: user ids allocated above 1000. -/
def idEpochs1 : IdEpochs :=
  { idNextSchema := 1001, idNextTable := 2000, idNextRegion := 77000,
    epochSchema := 3, epochTable := 4, epochIndex := 5, epochRegion := 6, epochStore := 7 }

/-- A user schema `sales` (id 1001) holding table 2001. -/
def salesSchema : SchemaInternal :=
  { id := 1001, name := "sales", tableIds := [2001], indexIds := [] }

/-- A two-range table definition named `orders`. -/
def ordersDefinition : TableDefinition :=
  { name := "orders", replica := 0,
    tablePartition := some (PartitionVariant.rangePartition
      [{ startKey := [97], endKey := [109] }, { startKey := [109], endKey := [122] }]),
    hasAutoIncrementColumn := false, autoIncrement := 0 }

/-- The existing table `orders` (id 2001) with one partition on region 5001. -/
def ordersTable : TableInternal :=
  { id := 2001, schemaId := 1001, definition := ordersDefinition, partitions := [5001] }

/-- Sample state: schema `sales` with table `orders` present in every map the
write path consults (the region of the table is deliberately absent from the
region map, which `GetTableRange` tolerates). -/
def state1 : CState :=
  { schemaMap := [(0, { id := 0, name := "root", tableIds := [], indexIds := [] }),
                  (1001, salesSchema)],
    tableMap := [(2001, ordersTable)],
    indexMap := [], regionMap := [],
    tableMetricsMap := [], indexMetricsMap := [],
    schemaNameMap := [("sales", 1001)],
    tableNameMap := [("1001orders", 2001)],
    indexNameMap := [],
    idEpochs := idEpochs1 }

/-- A schema holding an index but no table (id 1002). -/
def indexOnlySchema : SchemaInternal :=
  { id := 1002, name := "vectors", tableIds := [], indexIds := [7] }

/-- A scalar index definition named `emb`. -/
def embIndexDefinition : IndexDefinition :=
  { name := "emb", replica := 3,
    indexParameter :=
      { indexType := .INDEX_TYPE_SCALAR,
        vectorIndexParameter := none,
        scalarIndexParameter := some { scalarIndexType := .SCALAR_INDEX_TYPE_LSM } },
    indexPartition := some (PartitionVariant.rangePartition
      [{ startKey := [], endKey := [255] }]),
    withAutoIncrement := false, autoIncrement := 0 }

/-- The index record of `emb` (id 7, one partition on region 8001). -/
def embIndex : IndexInternal :=
  { id := 7, schemaId := 1002, definition := embIndexDefinition, partitions := [8001] }

/-- Sample state for `DropSchema`: schema 1002 has index 7 and no tables. -/
def state2 : CState :=
  { schemaMap := [(1002, indexOnlySchema)],
    tableMap := [],
    indexMap := [(7, embIndex)],
    regionMap := [],
    tableMetricsMap := [], indexMetricsMap := [],
    schemaNameMap := [("vectors", 1002)],
    tableNameMap := [], indexNameMap := [("1002emb", 7)],
    idEpochs := idEpochs1 }

/-- A region with metrics, used by the aggregation fixture. -/
def mkMetricRegion (rid : Nat) (rows : Nat) (lo hi : Nat) : Region :=
  { id := rid, regionType := .STORE_REGION,
    definition := { name := "", replicaNum := 3, range := { startKey := [lo], endKey := [hi] },
                    peers := [], schemaId := 1001, tableId := 3001, indexId := 0 },
    leaderStoreId := 0,
    metrics := some { rowCount := rows, minKey := [lo], maxKey := [hi] } }

/-- The definition of the metrics-scenario table. -/
def metricsTableDefinition : TableDefinition :=
  { name := "m", replica := 3,
    tablePartition := some (PartitionVariant.rangePartition
      [{ startKey := [97], endKey := [99] }, { startKey := [99], endKey := [102] },
       { startKey := [102], endKey := [122] }]),
    hasAutoIncrementColumn := false, autoIncrement := 0 }

/-- Table 3001 with three partitions whose regions carry row counts 10/20/30
and key ranges (a,c), (c,f), (f,z). -/
def metricsTable : TableInternal :=
  { id := 3001, schemaId := 1001, definition := metricsTableDefinition,
    partitions := [6001, 6002, 6003] }

/-- Sample state for the metrics-aggregation scenario of the spec (§8,
scenario 8). -/
def state3 : CState :=
  { schemaMap := [(1001, { id := 1001, name := "sales", tableIds := [3001], indexIds := [] })],
    tableMap := [(3001, metricsTable)],
    indexMap := [],
    regionMap := [(6001, mkMetricRegion 6001 10 97 99),
                  (6002, mkMetricRegion 6002 20 99 102),
                  (6003, mkMetricRegion 6003 30 102 122)],
    tableMetricsMap := [], indexMetricsMap := [],
    schemaNameMap := [("sales", 1001)],
    tableNameMap := [("1001m", 3001)], indexNameMap := [],
    idEpochs := idEpochs1 }

/-- An empty `TableMetricsWithId` response object (zero entity id). -/
def emptyTableMetricsWithId : TableMetricsWithId :=
  { id := { entityType := .ENTITY_TYPE_TABLE, entityId := 0, parentEntityId := 0 },
    tableMetrics := { rowsCount := 0, minKey := [], maxKey := [], partCount := 0 } }

/-- An empty `IndexMetricsWithId` response object (zero entity id). -/
def emptyIndexMetricsWithId : IndexMetricsWithId :=
  { id := { entityType := .ENTITY_TYPE_INDEX, entityId := 0, parentEntityId := 0 },
    indexMetrics := { rowsCount := 0, minKey := [], maxKey := [], partCount := 0 } }

/-- A fully valid HNSW parameter block. -/
def goodHnswParam : CreateHnswParam :=
  { dimension := 128, metricType := .METRIC_TYPE_L2, efconstruction := 200,
    maxElements := 100000, nlinks := 32 }

/-- A valid HNSW vector-index parameter. -/
def goodHnswIndexParameter : IndexParameter :=
  { indexType := .INDEX_TYPE_VECTOR,
    vectorIndexParameter := some
      { vectorIndexType := .VECTOR_INDEX_TYPE_HNSW,
        param := some (VectorParamVariant.hnswParam goodHnswParam) },
    scalarIndexParameter := none }

/-- A valid HNSW vector-index definition with an empty name. -/
def hnswNoNameDefinition : IndexDefinition :=
  { name := "", replica := 3,
    indexParameter := goodHnswIndexParameter,
    indexPartition := some (PartitionVariant.rangePartition
      [{ startKey := [], endKey := [255] }]),
    withAutoIncrement := false, autoIncrement := 0 }

/-- The region-creation loop of `CreateTable`, with its inputs filled in. -/
def ctLoop (schemaId : Nat) (d : TableDefinition) (newId : Nat) (regionOk : Nat → Bool)
    (ranges : List RangeT) (s2 : CState) (inc1 : MetaIncrement) :
    CState × MetaIncrement × List Nat :=
  createRegionsForRanges .STORE_REGION (tableRegionName schemaId d.name)
    (if d.replica < 1 then 3 else d.replica) schemaId newId 0 regionOk ranges 0 s2 inc1

/-- The result of `CreateTable`'s compensation branch, given the loop
outcome. -/
def ctCompResult (schemaId : Nat) (d : TableDefinition)
    (L : CState × MetaIncrement × List Nat) : Except Errno Nat × CState × MetaIncrement :=
  let rd := dropRegionsList L.2.2 L.1 L.2.1
  (Except.error .ETABLE_REGION_CREATE_FAILED,
    { rd.1 with tableNameMap := aerase rd.1.tableNameMap (nameKey schemaId d.name) },
    rd.2)

/-- The result of `CreateTable`'s success branch, given the loop outcome. -/
def ctCommitResult (schemaId : Nat) (d : TableDefinition) (newId : Nat)
    (L : CState × MetaIncrement × List Nat) : Except Errno Nat × CState × MetaIncrement :=
  let re := getNextId .EPOCH_REGION L.1 L.2.1
  let rt := getNextId .EPOCH_TABLE re.2.1 re.2.2
  (Except.ok newId, rt.2.1,
    { rt.2.2 with tables := rt.2.2.tables ++
        [{ id := newId, opType := .CREATE,
           table := { id := newId, schemaId := schemaId, definition := d,
                      partitions := L.2.2 } }] })

/-- The region-creation loop of `CreateIndex`, with its inputs filled in. -/
def ciLoop (schemaId : Nat) (d : IndexDefinition) (newId : Nat) (regionOk : Nat → Bool)
    (ranges : List RangeT) (s2 : CState) (inc1 : MetaIncrement) :
    CState × MetaIncrement × List Nat :=
  createRegionsForRanges .INDEX_REGION (indexRegionName schemaId d.name)
    (if d.replica < 1 then 3 else d.replica) schemaId 0 newId regionOk ranges 0 s2 inc1

/-- The result of `CreateIndex`'s compensation branch, given the loop
outcome. -/
def ciCompResult (schemaId : Nat) (d : IndexDefinition)
    (L : CState × MetaIncrement × List Nat) : Except Errno Nat × CState × MetaIncrement :=
  let rd := dropRegionsList L.2.2 L.1 L.2.1
  (Except.error .EINDEX_REGION_CREATE_FAILED,
    { rd.1 with indexNameMap := aerase rd.1.indexNameMap (nameKey schemaId d.name) },
    rd.2)

/-- The result of `CreateIndex`'s success branch, given the loop outcome. -/
def ciCommitResult (schemaId : Nat) (d : IndexDefinition) (newId : Nat)
    (L : CState × MetaIncrement × List Nat) : Except Errno Nat × CState × MetaIncrement :=
  let re := getNextId .EPOCH_REGION L.1 L.2.1
  let rt := getNextId .EPOCH_INDEX re.2.1 re.2.2
  (Except.ok newId, rt.2.1,
    { rt.2.2 with indexes := rt.2.2.indexes ++
        [{ id := newId, opType := .CREATE,
           index := { id := newId, schemaId := schemaId, definition := d,
                      partitions := L.2.2 } }] })

/-- Number of `id_epochs` sub-increments for a given counter kind in a
meta-increment. -/
def epochEntryCount (inc : MetaIncrement) (k : IdEpochType) : Nat :=
  (inc.idEpochs.filter (fun e => decide (e.kind = k))).length

/-- The numeric constraints of the claim's validation table (C6), spelled per
vector-index flavour: the parameter block must be the one matching the
declared flavour and its counters positive. -/
def vectorVariantOk (vp : VectorIndexParameter) : Bool :=
  match vp.vectorIndexType, vp.param with
  | .VECTOR_INDEX_TYPE_HNSW, some (VectorParamVariant.hnswParam p) =>
    decide (0 < p.dimension) && decide (p.metricType ≠ .METRIC_TYPE_NONE) &&
    decide (0 < p.efconstruction) && decide (0 < p.maxElements) && decide (0 < p.nlinks)
  | .VECTOR_INDEX_TYPE_FLAT, some (VectorParamVariant.flatParam p) =>
    decide (0 < p.dimension) && decide (p.metricType ≠ .METRIC_TYPE_NONE)
  | .VECTOR_INDEX_TYPE_IVF_FLAT, some (VectorParamVariant.ivfFlatParam p) =>
    decide (0 < p.dimension) && decide (p.metricType ≠ .METRIC_TYPE_NONE) &&
    decide (0 < p.ncentroids)
  | .VECTOR_INDEX_TYPE_IVF_PQ, some (VectorParamVariant.ivfPqParam p) =>
    decide (0 < p.dimension) && decide (p.metricType ≠ .METRIC_TYPE_NONE) &&
    decide (0 < p.ncentroids) && decide (0 < p.nsubvector) &&
    decide (0 < p.bucketInitSize) && decide (0 < p.bucketMaxSize)
  | .VECTOR_INDEX_TYPE_DISKANN, some (VectorParamVariant.diskannParam p) =>
    decide (0 < p.dimension) && decide (p.metricType ≠ .METRIC_TYPE_NONE) &&
    decide (0 < p.numTrees) && decide (0 < p.numNeighbors) && decide (0 < p.numThreads)
  | _, _ => false

/-- The acceptance predicate of claim C6, written from the claim's words:
`index_type` not `NONE`; a `VECTOR` definition carries exactly one parameter
sub-variant, matching `vector_index_type`, with the numeric constraints of
the table; a `SCALAR` definition carries a `scalar_index_parameter` whose
`scalar_index_type` is not `NONE`. -/
def claimIndexDefOk (d : IndexDefinition) : Bool :=
  match d.indexParameter.indexType with
  | .INDEX_TYPE_NONE => false
  | .INDEX_TYPE_VECTOR =>
    match d.indexParameter.vectorIndexParameter with
    | none => false
    | some vp => vectorVariantOk vp
  | .INDEX_TYPE_SCALAR =>
    match d.indexParameter.scalarIndexParameter with
    | none => false
    | some sp => decide (sp.scalarIndexType ≠ .SCALAR_INDEX_TYPE_NONE)

/-- A builder operation with its request payload and the injected outcomes of
the external services, used to state properties over arbitrary operation
sequences. -/
inductive MetaOp
  | opCreateSchema (parentId : Nat) (name : String)
  | opDropSchema (parentId schemaId : Nat)
  | opCreateTableId (schemaId : Nat)
  | opCreateTable (schemaId : Nat) (d : TableDefinition) (newTableId : Nat)
      (autoIncOk : Bool) (regionOk : Nat → Bool)
  | opDropTable (schemaId tableId : Nat)
  | opCreateIndexId (schemaId : Nat)
  | opCreateIndex (schemaId : Nat) (d : IndexDefinition) (newIndexId : Nat)
      (autoIncOk : Bool) (regionOk : Nat → Bool)
  | opDropIndex (schemaId indexId : Nat)

/-- Execute one builder operation against a state, each proposing its own
meta-increment (the write path is serialized). -/
def execOp (s : CState) : MetaOp → CState
  | .opCreateSchema p n => (createSchema p n s MetaIncrement.empty).2.1
  | .opDropSchema p i => (dropSchema p i s MetaIncrement.empty).2.1
  | .opCreateTableId i => (createTableId i s MetaIncrement.empty).2.1
  | .opCreateTable i d n a r => (createTable i d n a r s MetaIncrement.empty).2.1
  | .opDropTable i t => (dropTable i t s MetaIncrement.empty).2.1
  | .opCreateIndexId i => (createIndexId i s MetaIncrement.empty).2.1
  | .opCreateIndex i d n a r => (createIndex i d n a r s MetaIncrement.empty).2.1
  | .opDropIndex i x => (dropIndex i x s MetaIncrement.empty).2.1

/-- Execute a sequence of builder operations. -/
def execOps (s : CState) (ops : List MetaOp) : CState :=
  ops.foldl execOp s

/-- The state after one successful `CreateRegion` step of the loop. -/
def crfrStepState (s : CState) : CState :=
  { s with idEpochs := s.idEpochs.set .ID_NEXT_REGION (s.idEpochs.get .ID_NEXT_REGION + 1) }

/-- The region sub-increment entry of one successful `CreateRegion` step. -/
def crfrStepEntry (rt : RegionType) (mkName : Nat → String) (rep : Int)
    (sid tid iid : Nat) (r : RangeT) (i : Nat) (s : CState) : RegionIncrement :=
  { id := s.idEpochs.get .ID_NEXT_REGION + 1, opType := .CREATE,
    region := some (newRegionRecord rt (mkName i) rep r sid tid iid
      (s.idEpochs.get .ID_NEXT_REGION + 1)) }

/-- The increment after one successful `CreateRegion` step of the loop. -/
def crfrStepInc (rt : RegionType) (mkName : Nat → String) (rep : Int)
    (sid tid iid : Nat) (r : RangeT) (i : Nat) (s : CState) (inc : MetaIncrement) :
    MetaIncrement :=
  { inc with
    idEpochs := inc.idEpochs ++
      [{ kind := .ID_NEXT_REGION, value := s.idEpochs.get .ID_NEXT_REGION + 1 }],
    regions := inc.regions ++ [crfrStepEntry rt mkName rep sid tid iid r i s] }

/-- A table definition declaring a hash partition. -/
def hashDefinition : TableDefinition :=
  { name := "h", replica := 3, tablePartition := some PartitionVariant.hashPartition,
    hasAutoIncrementColumn := false, autoIncrement := 0 }

/-- The two-range definition `neworders`, used for compensation scenarios. -/
def newOrdersDefinition : TableDefinition :=
  { ordersDefinition with name := "neworders" }

/-- A sample peer used by the range-assembly witness. -/
def samplePeer : Peer :=
  { storeId := 42, role := .VOTER, serverLocation := { host := "h1", port := 20160 } }

/-! Helper lemmas about the association-list map operations. -/

theorem aget_aput_self {κ α : Type} [DecidableEq κ] (m : List (κ × α)) (k : κ) (v : α) :
    aget (aput m k v) k = some v := by
  induction m with
  | nil => simp [aput, aget]
  | cons p rest ih =>
    cases p with
    | mk k2 v2 =>
      by_cases h2 : k2 = k
      · subst h2; simp [aput, aget]
      · simp [aput, aget, h2, ih]

theorem aget_aput_ne {κ α : Type} [DecidableEq κ] (m : List (κ × α)) (k k2 : κ) (v : α)
    (h : k2 ≠ k) : aget (aput m k v) k2 = aget m k2 := by
  induction m with
  | nil => simp [aput, aget, Ne.symm h]
  | cons p rest ih =>
    cases p with
    | mk k3 v3 =>
      by_cases h3 : k3 = k
      · subst h3; simp [aput, aget, Ne.symm h]
      · by_cases h4 : k3 = k2 <;> simp [aput, aget, h3, h4, ih, h]

theorem aerase_of_absent {κ α : Type} [DecidableEq κ] (m : List (κ × α)) (k : κ)
    (h : aget m k = none) : aerase m k = m := by
  induction m with
  | nil => rfl
  | cons p rest ih =>
    cases p with
    | mk k2 v2 =>
      by_cases h2 : k2 = k
      · subst h2; simp [aget] at h
      · simp [aget, h2] at h
        simp [aerase, h2, ih h]

theorem aerase_aput {κ α : Type} [DecidableEq κ] (m : List (κ × α)) (k : κ) (v : α) :
    aerase (aput m k v) k = aerase m k := by
  induction m with
  | nil => simp [aput, aerase]
  | cons p rest ih =>
    cases p with
    | mk k2 v2 =>
      by_cases h2 : k2 = k
      · subst h2; simp [aput, aerase, ih]
      · simp [aput, h2, aerase, ih]

theorem aputIfAbsent_some {κ α : Type} [DecidableEq κ] (m m2 : List (κ × α)) (k : κ) (v : α)
    (h : aputIfAbsent m k v = some m2) : aget m k = none ∧ m2 = aput m k v := by
  unfold aputIfAbsent at h
  by_cases h2 : (aget m k).isSome
  · simp [h2] at h
  · simp [h2] at h
    exact ⟨Option.not_isSome_iff_eq_none.mp h2, h.symm⟩

theorem aget_aerase_ne {κ α : Type} [DecidableEq κ] (m : List (κ × α)) (k k2 : κ)
    (h : k2 ≠ k) : aget (aerase m k) k2 = aget m k2 := by
  induction m with
  | nil => rfl
  | cons p rest ih =>
    cases p with
    | mk k3 v3 =>
      by_cases h3 : k3 = k
      · subst h3; simp [aerase, aget, Ne.symm h, ih]
      · by_cases h4 : k3 = k2 <;> simp [aerase, aget, h3, h4, ih, h]

theorem aget_aerase_self {κ α : Type} [DecidableEq κ] (m : List (κ × α)) (k : κ) :
    aget (aerase m k) k = none := by
  induction m with
  | nil => rfl
  | cons p rest ih =>
    cases p with
    | mk k2 v2 =>
      by_cases h2 : k2 = k
      · simpa [aerase, h2] using ih
      · simpa [aerase, aget, h2] using ih

theorem aget_aputIfExists_ne {κ α : Type} [DecidableEq κ] (m : List (κ × α)) (k k2 : κ)
    (v : α) (h : k2 ≠ k) : aget (aputIfExists m k v) k2 = aget m k2 := by
  unfold aputIfExists
  by_cases h2 : (aget m k).isSome <;> simp [h2, aget_aput_ne m k k2 v h]

/-! Helper lemmas about the counter bank. -/

theorem idEpochs_get_set_self (e : IdEpochs) (k : IdEpochType) (v : Nat) :
    (e.set k v).get k = v := by
  cases k <;> rfl

theorem idEpochs_get_set_le (e : IdEpochs) (k k2 : IdEpochType) :
    e.get k2 ≤ (e.set k (e.get k + 1)).get k2 := by
  cases k <;> cases k2 <;> first
    | exact Nat.le_succ _
    | exact Nat.le_refl _

/-! Shape lemmas for the modelled allocator and region-service adapters. -/

theorem getNextId_state (k : IdEpochType) (s : CState) (inc : MetaIncrement) :
    (getNextId k s inc).2.1 = { s with idEpochs := (getNextId k s inc).2.1.idEpochs } := rfl

theorem getNextId_inc (k : IdEpochType) (s : CState) (inc : MetaIncrement) :
    (getNextId k s inc).2.2 =
      { inc with idEpochs := inc.idEpochs ++ [{ kind := k, value := s.idEpochs.get k + 1 }] } := rfl

theorem dropRegionsList_state (ids : List Nat) (s : CState) (inc : MetaIncrement) :
    (dropRegionsList ids s inc).1 = s := by
  induction ids generalizing inc with
  | nil => rfl
  | cons rid rest ih => simpa [dropRegionsList, dropRegion] using ih _

theorem dropRegionsList_inc (ids : List Nat) (s : CState) (inc : MetaIncrement) :
    (dropRegionsList ids s inc).2 =
      { inc with regions := inc.regions ++
          ids.map (fun rid => { id := rid, opType := .DELETE, region := none }) } := by
  induction ids generalizing inc with
  | nil => simp [dropRegionsList]
  | cons rid rest ih =>
    simp [dropRegionsList, dropRegion, ih]

theorem crfr_step (rt : RegionType) (mkName : Nat → String) (rep : Int)
    (sid tid iid : Nat) (ok : Nat → Bool) (r : RangeT) (rest : List RangeT)
    (i : Nat) (s : CState) (inc : MetaIncrement) (h : ok i = true) :
    createRegionsForRanges rt mkName rep sid tid iid ok (r :: rest) i s inc =
      (let rec2 := createRegionsForRanges rt mkName rep sid tid iid ok rest (i + 1)
        (crfrStepState s) (crfrStepInc rt mkName rep sid tid iid r i s inc)
      (rec2.1, rec2.2.1, (s.idEpochs.get .ID_NEXT_REGION + 1) :: rec2.2.2)) := by
  simp only [createRegionsForRanges, createRegion, h, if_true, getNextId,
    crfrStepState, crfrStepInc, crfrStepEntry]

theorem crfr_step_fail (rt : RegionType) (mkName : Nat → String) (rep : Int)
    (sid tid iid : Nat) (ok : Nat → Bool) (r : RangeT) (rest : List RangeT)
    (i : Nat) (s : CState) (inc : MetaIncrement) (h : ¬ ok i = true) :
    createRegionsForRanges rt mkName rep sid tid iid ok (r :: rest) i s inc =
      (s, inc, []) := by
  simp [createRegionsForRanges, createRegion, h]

theorem crfr_state (rt : RegionType) (mkName : Nat → String) (rep : Int)
    (sid tid iid : Nat) (ok : Nat → Bool) (rs : List RangeT) (i : Nat)
    (s : CState) (inc : MetaIncrement) :
    (createRegionsForRanges rt mkName rep sid tid iid ok rs i s inc).1 =
      { s with idEpochs :=
          (createRegionsForRanges rt mkName rep sid tid iid ok rs i s inc).1.idEpochs } := by
  induction rs generalizing i s inc with
  | nil => rfl
  | cons r rest ih =>
    by_cases h : ok i
    · rw [crfr_step rt mkName rep sid tid iid ok r rest i s inc h]
      exact ih (i + 1) (crfrStepState s) (crfrStepInc rt mkName rep sid tid iid r i s inc)
    · rw [crfr_step_fail rt mkName rep sid tid iid ok r rest i s inc h]

theorem crfr_inc (rt : RegionType) (mkName : Nat → String) (rep : Int)
    (sid tid iid : Nat) (ok : Nat → Bool) (rs : List RangeT) (i : Nat)
    (s : CState) (inc : MetaIncrement) :
    (createRegionsForRanges rt mkName rep sid tid iid ok rs i s inc).2.1 =
      { inc with
        regions := (createRegionsForRanges rt mkName rep sid tid iid ok rs i s inc).2.1.regions,
        idEpochs := (createRegionsForRanges rt mkName rep sid tid iid ok rs i s inc).2.1.idEpochs } := by
  induction rs generalizing i s inc with
  | nil => rfl
  | cons r rest ih =>
    by_cases h : ok i
    · rw [crfr_step rt mkName rep sid tid iid ok r rest i s inc h]
      exact ih (i + 1) (crfrStepState s) (crfrStepInc rt mkName rep sid tid iid r i s inc)
    · rw [crfr_step_fail rt mkName rep sid tid iid ok r rest i s inc h]

theorem crfr_counters_le (rt : RegionType) (mkName : Nat → String) (rep : Int)
    (sid tid iid : Nat) (ok : Nat → Bool) (rs : List RangeT) (i : Nat)
    (s : CState) (inc : MetaIncrement) (k : IdEpochType) :
    s.idEpochs.get k ≤
      (createRegionsForRanges rt mkName rep sid tid iid ok rs i s inc).1.idEpochs.get k := by
  induction rs generalizing i s inc with
  | nil => exact Nat.le_refl _
  | cons r rest ih =>
    by_cases h : ok i
    · rw [crfr_step rt mkName rep sid tid iid ok r rest i s inc h]
      exact Nat.le_trans (idEpochs_get_set_le s.idEpochs .ID_NEXT_REGION k)
        (ih (i + 1) (crfrStepState s) (crfrStepInc rt mkName rep sid tid iid r i s inc))
    · rw [crfr_step_fail rt mkName rep sid tid iid ok r rest i s inc h]

theorem crfr_regions (rt : RegionType) (mkName : Nat → String) (rep : Int)
    (sid tid iid : Nat) (ok : Nat → Bool) (rs : List RangeT) (i : Nat)
    (s : CState) (inc : MetaIncrement) :
    ∃ es, (createRegionsForRanges rt mkName rep sid tid iid ok rs i s inc).2.1.regions =
        inc.regions ++ es ∧
      es.map RegionIncrement.id =
        (createRegionsForRanges rt mkName rep sid tid iid ok rs i s inc).2.2 ∧
      ∀ e ∈ es, e.opType = .CREATE ∧ ∃ reg, e.region = some reg ∧ reg.id = e.id ∧
        reg.regionType = rt ∧ reg.definition.replicaNum = rep ∧
        reg.definition.schemaId = sid ∧ reg.definition.tableId = tid ∧
        reg.definition.indexId = iid := by
  induction rs generalizing i s inc with
  | nil => exact ⟨[], by simp [createRegionsForRanges]⟩
  | cons r rest ih =>
    by_cases h : ok i
    · rw [crfr_step rt mkName rep sid tid iid ok r rest i s inc h]
      obtain ⟨es, h1, h2, h3⟩ := ih (i + 1) (crfrStepState s)
        (crfrStepInc rt mkName rep sid tid iid r i s inc)
      refine ⟨crfrStepEntry rt mkName rep sid tid iid r i s :: es, ?_, ?_, ?_⟩
      · simpa [crfrStepInc] using h1
      · simpa [crfrStepEntry, newRegionRecord] using h2
      · intro e he
        rcases List.mem_cons.mp he with he | he
        · subst he
          exact ⟨rfl, _, rfl, rfl, rfl, rfl, rfl, rfl, rfl⟩
        · exact h3 e he
    · rw [crfr_step_fail rt mkName rep sid tid iid ok r rest i s inc h]
      exact ⟨[], by simp⟩

theorem crfr_idEntries (rt : RegionType) (mkName : Nat → String) (rep : Int)
    (sid tid iid : Nat) (ok : Nat → Bool) (rs : List RangeT) (i : Nat)
    (s : CState) (inc : MetaIncrement) :
    ∃ es, (createRegionsForRanges rt mkName rep sid tid iid ok rs i s inc).2.1.idEpochs =
        inc.idEpochs ++ es ∧ ∀ e ∈ es, e.kind = .ID_NEXT_REGION := by
  induction rs generalizing i s inc with
  | nil => exact ⟨[], by simp [createRegionsForRanges]⟩
  | cons r rest ih =>
    by_cases h : ok i
    · rw [crfr_step rt mkName rep sid tid iid ok r rest i s inc h]
      obtain ⟨es, h1, h2⟩ := ih (i + 1) (crfrStepState s)
        (crfrStepInc rt mkName rep sid tid iid r i s inc)
      refine ⟨{ kind := .ID_NEXT_REGION, value := s.idEpochs.get .ID_NEXT_REGION + 1 } :: es,
        ?_, ?_⟩
      · simpa [crfrStepInc] using h1
      · intro e he
        rcases List.mem_cons.mp he with he | he
        · subst he; rfl
        · exact h2 e he
    · rw [crfr_step_fail rt mkName rep sid tid iid ok r rest i s inc h]
      exact ⟨[], by simp⟩

/-! Projection corollaries for the allocation step and the loops. -/

theorem tableIdAlloc_state (n : Nat) (s : CState) (inc : MetaIncrement) :
    (tableIdAlloc n s inc).2.1 =
      { s with idEpochs := (tableIdAlloc n s inc).2.1.idEpochs } := by
  unfold tableIdAlloc; split <;> rfl

theorem tableIdAlloc_inc (n : Nat) (s : CState) (inc : MetaIncrement) :
    (tableIdAlloc n s inc).2.2 =
      { inc with idEpochs := (tableIdAlloc n s inc).2.2.idEpochs } := by
  unfold tableIdAlloc; split <;> rfl

theorem tableIdAlloc_val (n : Nat) (s : CState) (inc : MetaIncrement) :
    (tableIdAlloc n s inc).1 =
      if n = 0 then s.idEpochs.get .ID_NEXT_TABLE + 1 else n := by
  unfold tableIdAlloc; split <;> simp [getNextId, *]

theorem tableIdAlloc_counters_le (n : Nat) (s : CState) (inc : MetaIncrement)
    (k : IdEpochType) :
    s.idEpochs.get k ≤ (tableIdAlloc n s inc).2.1.idEpochs.get k := by
  unfold tableIdAlloc
  split
  · exact idEpochs_get_set_le s.idEpochs .ID_NEXT_TABLE k
  · exact Nat.le_refl _

theorem tableIdAlloc_idEntries (n : Nat) (s : CState) (inc : MetaIncrement) :
    ∃ es, (tableIdAlloc n s inc).2.2.idEpochs = inc.idEpochs ++ es ∧
      ∀ e ∈ es, e.kind = .ID_NEXT_TABLE := by
  unfold tableIdAlloc
  split
  · refine ⟨[{ kind := .ID_NEXT_TABLE, value := s.idEpochs.get .ID_NEXT_TABLE + 1 }], rfl, ?_⟩
    intro e he
    rw [List.mem_singleton] at he
    subst he
    rfl
  · exact ⟨[], by simp⟩

theorem dropRegionsList_inc_tables (ids : List Nat) (s : CState) (inc : MetaIncrement) :
    (dropRegionsList ids s inc).2.tables = inc.tables := by
  rw [dropRegionsList_inc]

theorem dropRegionsList_inc_indexes (ids : List Nat) (s : CState) (inc : MetaIncrement) :
    (dropRegionsList ids s inc).2.indexes = inc.indexes := by
  rw [dropRegionsList_inc]

/-! Claim theorems. -/

/-- C1 (counterexample).  The claim "whenever CreateTable returns an error,
no table catalog entry and no name reservation for that table's name exist
afterwards" is false as stated: when `CreateTable` fails with `EtableExists`
because a table of that name already exists, the pre-existing name
reservation and catalog entry for that name survive the call. -/
theorem createTable_error_keeps_old_reservation :
    (createTable 1001 ordersDefinition 0 true (fun _ => true) state1
        MetaIncrement.empty).1 = Except.error .ETABLE_EXISTS ∧
    aget (createTable 1001 ordersDefinition 0 true (fun _ => true) state1
        MetaIncrement.empty).2.1.tableNameMap ("1001" ++ ordersDefinition.name) = some 2001 ∧
    aget (createTable 1001 ordersDefinition 0 true (fun _ => true) state1
        MetaIncrement.empty).2.1.tableMap 2001 = some ordersTable := by
  decide

/-- C2 (failing input).  `DropSchema` tests emptiness only on `table_ids`:
schema 1002 holds index 7 and no tables, yet `DropSchema` succeeds, appends
the schema `DELETE` sub-increment and erases the name — where the claim (and
the spec) require `EschemaNotEmpty`. -/
theorem dropSchema_ignores_indexes :
    indexOnlySchema.indexIds = [7] ∧
    (dropSchema 0 1002 state2 MetaIncrement.empty).1 = Except.ok () ∧
    (dropSchema 0 1002 state2 MetaIncrement.empty).2.2.schemas =
      [{ id := 1002, opType := .DELETE, schemaId := 0, schemaInternal := indexOnlySchema }] ∧
    aget (dropSchema 0 1002 state2 MetaIncrement.empty).2.1.schemaNameMap "vectors" = none := by
  decide

/-- C3 (counterexample).  `DropTable` (dropping the table's region 5001, as
witnessed by the region `DELETE` sub-increment) bumps `EPOCH_TABLE` once but
bumps `EPOCH_REGION` zero times, not once as the claim states. -/
theorem dropTable_does_not_bump_epoch_region :
    (dropTable 1001 2001 state1 MetaIncrement.empty).1 = Except.ok () ∧
    (dropTable 1001 2001 state1 MetaIncrement.empty).2.2.regions =
      [{ id := 5001, opType := .DELETE, region := none }] ∧
    epochEntryCount (dropTable 1001 2001 state1 MetaIncrement.empty).2.2 .EPOCH_TABLE = 1 ∧
    epochEntryCount (dropTable 1001 2001 state1 MetaIncrement.empty).2.2 .EPOCH_REGION = 0 := by
  decide

/-- C4 (failing input).  For the table with three regions of row counts
{10,20,30} and key ranges (a,c), (c,f), (f,z), `GetTableMetrics` returns
rows_count 60 and part_count 3 as claimed, but the min/max keys remain the
seed values (ten 0x00 bytes and ten 0xFF bytes) instead of the claimed
`min = a`, `max = z`: the seeds are byte-lex extrema, so no region key ever
replaces them and the dead `empty()` branches betray the intended
empty-string seeding. -/
theorem tableMetrics_stuck_at_seeds :
    (getTableMetrics 1001 3001 emptyTableMetricsWithId state3).1 =
      Except.ok
        { id := { entityType := .ENTITY_TYPE_TABLE, entityId := 3001, parentEntityId := 1001 },
          tableMetrics :=
            { rowsCount := 60, minKey := List.replicate 10 0,
              maxKey := List.replicate 10 255, partCount := 3 } } ∧
    List.replicate 10 0 ≠ [97] ∧ List.replicate 10 255 ≠ [122] := by
  decide

/-- C5 (counterexample).  A partition whose region is missing from the region
map still contributes a `RangeDistribution` to the response: the entry is
appended before the region lookup, so the response for table 2001 (one
partition, region 5001 absent) has one entry — a stub carrying only the
region/part id — not zero entries as the claim states. -/
theorem getTableRange_missing_region_stub :
    aget state1.regionMap 5001 = none ∧
    getTableRange 1001 2001 state1 =
      Except.ok
        [{ id := { entityType := .ENTITY_TYPE_PART, entityId := 5001, parentEntityId := 2001 },
           range := { startKey := [], endKey := [] },
           leader := { host := "", port := 0 },
           voters := [], learners := [], regionmapEpoch := 0, storemapEpoch := 0 }] := by
  decide

/-- C6 (counterexample).  A definition that satisfies every constraint of its
variant (a fully valid HNSW vector index) is still rejected when its name is
empty, contradicting "every definition satisfying the constraints of its
variant is accepted". -/
theorem validateIndexDefinition_rejects_empty_name :
    claimIndexDefOk hnswNoNameDefinition = true ∧
    hnswNoNameDefinition.name = "" ∧
    validateIndexDefinition hnswNoNameDefinition = Except.error .EILLEGAL_PARAMTETERS := by
  decide

/-- Exhaustive branch analysis of `CreateTable`: every claim about it is
proved by supplying one handler per control-flow exit. -/
theorem ct_branches (sid : Nat) (d : TableDefinition) (ntid : Nat) (aok : Bool)
    (rok : Nat → Bool) (s : CState) (inc : MetaIncrement)
    (P : Except Errno Nat × CState × MetaIncrement → Prop)
    (hRoot : sid = ROOT_SCHEMA → P (Except.error .EILLEGAL_PARAMTETERS, s, inc))
    (hNoSchema : sid ≠ ROOT_SCHEMA → aexists s.schemaMap sid = false →
      P (Except.error .EILLEGAL_PARAMTETERS, s, inc))
    (hPart : sid ≠ ROOT_SCHEMA → aexists s.schemaMap sid = true →
      (d.tablePartition = none ∨ d.tablePartition = some PartitionVariant.hashPartition ∨
        d.tablePartition = some PartitionVariant.unsetPartition) →
      P (Except.error .ETABLE_DEFINITION_ILLEGAL, s, inc))
    (hRanges0 : ∀ ranges, d.tablePartition = some (PartitionVariant.rangePartition ranges) →
      ranges.length = 0 → P (Except.error .ETABLE_DEFINITION_ILLEGAL, s, inc))
    (hNameTaken : ∀ ranges, d.tablePartition = some (PartitionVariant.rangePartition ranges) →
      ranges.length ≠ 0 → ((aget s.tableNameMap (nameKey sid d.name)).getD 0) ≠ 0 →
      P (Except.error .ETABLE_EXISTS, s, inc))
    (hAutoFail : ∀ ranges, d.tablePartition = some (PartitionVariant.rangePartition ranges) →
      ranges.length ≠ 0 → ((aget s.tableNameMap (nameKey sid d.name)).getD 0) = 0 →
      d.hasAutoIncrementColumn = true → aok = false →
      P (Except.error .EAUTO_INCREMENT_WHILE_CREATING_TABLE,
        (tableIdAlloc ntid s inc).2.1, (tableIdAlloc ntid s inc).2.2))
    (hPutConflict : ∀ ranges, d.tablePartition = some (PartitionVariant.rangePartition ranges) →
      ranges.length ≠ 0 → ((aget s.tableNameMap (nameKey sid d.name)).getD 0) = 0 →
      aputIfAbsent (tableIdAlloc ntid s inc).2.1.tableNameMap (nameKey sid d.name)
        (tableIdAlloc ntid s inc).1 = none →
      P (Except.error .ETABLE_EXISTS, (tableIdAlloc ntid s inc).2.1, (tableIdAlloc ntid s inc).2.2))
    (hComp : ∀ ranges nm, d.tablePartition = some (PartitionVariant.rangePartition ranges) →
      ranges.length ≠ 0 → ((aget s.tableNameMap (nameKey sid d.name)).getD 0) = 0 →
      aputIfAbsent (tableIdAlloc ntid s inc).2.1.tableNameMap (nameKey sid d.name)
        (tableIdAlloc ntid s inc).1 = some nm →
      (ctLoop sid d (tableIdAlloc ntid s inc).1 rok ranges
        { (tableIdAlloc ntid s inc).2.1 with tableNameMap := nm }
        (tableIdAlloc ntid s inc).2.2).2.2.length < ranges.length →
      P (ctCompResult sid d (ctLoop sid d (tableIdAlloc ntid s inc).1 rok ranges
        { (tableIdAlloc ntid s inc).2.1 with tableNameMap := nm }
        (tableIdAlloc ntid s inc).2.2)))
    (hCommit : ∀ ranges nm, d.tablePartition = some (PartitionVariant.rangePartition ranges) →
      ranges.length ≠ 0 → ((aget s.tableNameMap (nameKey sid d.name)).getD 0) = 0 →
      aputIfAbsent (tableIdAlloc ntid s inc).2.1.tableNameMap (nameKey sid d.name)
        (tableIdAlloc ntid s inc).1 = some nm →
      ¬ (ctLoop sid d (tableIdAlloc ntid s inc).1 rok ranges
        { (tableIdAlloc ntid s inc).2.1 with tableNameMap := nm }
        (tableIdAlloc ntid s inc).2.2).2.2.length < ranges.length →
      P (ctCommitResult sid d (tableIdAlloc ntid s inc).1
        (ctLoop sid d (tableIdAlloc ntid s inc).1 rok ranges
          { (tableIdAlloc ntid s inc).2.1 with tableNameMap := nm }
          (tableIdAlloc ntid s inc).2.2))) :
    P (createTable sid d ntid aok rok s inc) := by
  by_cases h1 : sid = ROOT_SCHEMA
  · have e : createTable sid d ntid aok rok s inc =
        (Except.error .EILLEGAL_PARAMTETERS, s, inc) := by simp [createTable, h1]
    rw [e]; exact hRoot h1
  · by_cases h2 : aexists s.schemaMap sid
    · rcases hp : d.tablePartition with _ | pv
      · have e : createTable sid d ntid aok rok s inc =
            (Except.error .ETABLE_DEFINITION_ILLEGAL, s, inc) := by
          simp [createTable, checkAutoIncrementInTableDefinition, h1, h2, hp]
        rw [e]; exact hPart h1 h2 (Or.inl hp)
      · cases pv with
        | hashPartition =>
          have e : createTable sid d ntid aok rok s inc =
              (Except.error .ETABLE_DEFINITION_ILLEGAL, s, inc) := by
            simp [createTable, checkAutoIncrementInTableDefinition, h1, h2, hp]
          rw [e]; exact hPart h1 h2 (Or.inr (Or.inl hp))
        | unsetPartition =>
          have e : createTable sid d ntid aok rok s inc =
              (Except.error .ETABLE_DEFINITION_ILLEGAL, s, inc) := by
            simp [createTable, checkAutoIncrementInTableDefinition, h1, h2, hp]
          rw [e]; exact hPart h1 h2 (Or.inr (Or.inr hp))
        | rangePartition ranges =>
          by_cases h4 : ranges.length = 0
          · have e : createTable sid d ntid aok rok s inc =
                (Except.error .ETABLE_DEFINITION_ILLEGAL, s, inc) := by
              simp [createTable, checkAutoIncrementInTableDefinition, h1, h2, hp, h4]
            rw [e]; exact hRanges0 ranges hp h4
          · by_cases h5 : ((aget s.tableNameMap (nameKey sid d.name)).getD 0) = 0
            · by_cases hAF : (d.hasAutoIncrementColumn = true ∧ aok = false)
              · obtain ⟨h6, h7⟩ := hAF
                have e : createTable sid d ntid aok rok s inc =
                    (Except.error .EAUTO_INCREMENT_WHILE_CREATING_TABLE,
                      (tableIdAlloc ntid s inc).2.1, (tableIdAlloc ntid s inc).2.2) := by
                  simp [createTable, checkAutoIncrementInTableDefinition,
                    syncSendCreateAutoIncrementInternal, h1, h2, hp, h4, h5, h6, h7]
                rw [e]; exact hAutoFail ranges hp h4 h5 h6 h7
              · have hOk : d.hasAutoIncrementColumn = false ∨ aok = true := by
                  rcases Bool.eq_false_or_eq_true d.hasAutoIncrementColumn with h | h
                  · right
                    rcases Bool.eq_false_or_eq_true aok with h9 | h9
                    · exact h9
                    · exact absurd ⟨h, h9⟩ hAF
                  · exact Or.inl h
                rcases h8 : aputIfAbsent (tableIdAlloc ntid s inc).2.1.tableNameMap
                    (nameKey sid d.name) (tableIdAlloc ntid s inc).1 with _ | nm
                · have e : createTable sid d ntid aok rok s inc =
                      (Except.error .ETABLE_EXISTS,
                        (tableIdAlloc ntid s inc).2.1, (tableIdAlloc ntid s inc).2.2) := by
                    rcases hOk with h | h <;>
                      simp [createTable, checkAutoIncrementInTableDefinition,
                        syncSendCreateAutoIncrementInternal, h1, h2, hp, h4, h5, h, h8]
                  rw [e]; exact hPutConflict ranges hp h4 h5 h8
                · by_cases h9 : (ctLoop sid d (tableIdAlloc ntid s inc).1 rok ranges
                      { (tableIdAlloc ntid s inc).2.1 with tableNameMap := nm }
                      (tableIdAlloc ntid s inc).2.2).2.2.length < ranges.length
                  · have e : createTable sid d ntid aok rok s inc =
                        ctCompResult sid d (ctLoop sid d (tableIdAlloc ntid s inc).1 rok ranges
                          { (tableIdAlloc ntid s inc).2.1 with tableNameMap := nm }
                          (tableIdAlloc ntid s inc).2.2) := by
                      rcases hOk with h | h <;>
                        simp [createTable, checkAutoIncrementInTableDefinition,
                          syncSendCreateAutoIncrementInternal, ctLoop, ctCompResult,
                          h1, h2, hp, h4, h5, h, h8, h9] <;>
                        simp_all [ctLoop]
                    rw [e]; exact hComp ranges nm hp h4 h5 h8 h9
                  · have e : createTable sid d ntid aok rok s inc =
                        ctCommitResult sid d (tableIdAlloc ntid s inc).1
                          (ctLoop sid d (tableIdAlloc ntid s inc).1 rok ranges
                            { (tableIdAlloc ntid s inc).2.1 with tableNameMap := nm }
                            (tableIdAlloc ntid s inc).2.2) := by
                      rcases hOk with h | h <;>
                        simp [createTable, checkAutoIncrementInTableDefinition,
                          syncSendCreateAutoIncrementInternal, ctLoop, ctCommitResult,
                          h1, h2, hp, h4, h5, h, h8, h9] <;>
                        simp_all [ctLoop]
                    rw [e]; exact hCommit ranges nm hp h4 h5 h8 h9
            · have e : createTable sid d ntid aok rok s inc =
                  (Except.error .ETABLE_EXISTS, s, inc) := by
                simp [createTable, checkAutoIncrementInTableDefinition, h1, h2, hp, h4, h5]
              rw [e]; exact hNameTaken ranges hp h4 h5
    · have e : createTable sid d ntid aok rok s inc =
          (Except.error .EILLEGAL_PARAMTETERS, s, inc) := by
        simp [createTable, h1, h2]
      rw [e]; exact hNoSchema h1 (by simpa using h2)

/-- Exhaustive branch analysis of `CreateIndex`, mirror of `ct_branches` with
the `ValidateIndexDefinition` step. -/
theorem ci_branches (sid : Nat) (d : IndexDefinition) (ntid : Nat) (aok : Bool)
    (rok : Nat → Bool) (s : CState) (inc : MetaIncrement)
    (P : Except Errno Nat × CState × MetaIncrement → Prop)
    (hRoot : sid = ROOT_SCHEMA → P (Except.error .EILLEGAL_PARAMTETERS, s, inc))
    (hNoSchema : sid ≠ ROOT_SCHEMA → aexists s.schemaMap sid = false →
      P (Except.error .EILLEGAL_PARAMTETERS, s, inc))
    (hValErr : ∀ e, sid ≠ ROOT_SCHEMA → aexists s.schemaMap sid = true →
      validateIndexDefinition d = Except.error e →
      P (Except.error e, s, inc))
    (hPart : sid ≠ ROOT_SCHEMA → aexists s.schemaMap sid = true →
      (d.indexPartition = none ∨ d.indexPartition = some PartitionVariant.hashPartition ∨
        d.indexPartition = some PartitionVariant.unsetPartition) →
      P (Except.error .EINDEX_DEFINITION_ILLEGAL, s, inc))
    (hRanges0 : ∀ ranges, d.indexPartition = some (PartitionVariant.rangePartition ranges) →
      ranges.length = 0 → P (Except.error .EINDEX_DEFINITION_ILLEGAL, s, inc))
    (hNameTaken : ∀ ranges, d.indexPartition = some (PartitionVariant.rangePartition ranges) →
      ranges.length ≠ 0 → ((aget s.indexNameMap (nameKey sid d.name)).getD 0) ≠ 0 →
      P (Except.error .EINDEX_EXISTS, s, inc))
    (hAutoFail : ∀ ranges, d.indexPartition = some (PartitionVariant.rangePartition ranges) →
      ranges.length ≠ 0 → ((aget s.indexNameMap (nameKey sid d.name)).getD 0) = 0 →
      d.withAutoIncrement = true → aok = false →
      P (Except.error .EAUTO_INCREMENT_WHILE_CREATING_TABLE,
        (tableIdAlloc ntid s inc).2.1, (tableIdAlloc ntid s inc).2.2))
    (hPutConflict : ∀ ranges, d.indexPartition = some (PartitionVariant.rangePartition ranges) →
      ranges.length ≠ 0 → ((aget s.indexNameMap (nameKey sid d.name)).getD 0) = 0 →
      aputIfAbsent (tableIdAlloc ntid s inc).2.1.indexNameMap (nameKey sid d.name)
        (tableIdAlloc ntid s inc).1 = none →
      P (Except.error .EINDEX_EXISTS, (tableIdAlloc ntid s inc).2.1, (tableIdAlloc ntid s inc).2.2))
    (hComp : ∀ ranges nm, d.indexPartition = some (PartitionVariant.rangePartition ranges) →
      ranges.length ≠ 0 → ((aget s.indexNameMap (nameKey sid d.name)).getD 0) = 0 →
      aputIfAbsent (tableIdAlloc ntid s inc).2.1.indexNameMap (nameKey sid d.name)
        (tableIdAlloc ntid s inc).1 = some nm →
      (ciLoop sid d (tableIdAlloc ntid s inc).1 rok ranges
        { (tableIdAlloc ntid s inc).2.1 with indexNameMap := nm }
        (tableIdAlloc ntid s inc).2.2).2.2.length < ranges.length →
      P (ciCompResult sid d (ciLoop sid d (tableIdAlloc ntid s inc).1 rok ranges
        { (tableIdAlloc ntid s inc).2.1 with indexNameMap := nm }
        (tableIdAlloc ntid s inc).2.2)))
    (hCommit : ∀ ranges nm, d.indexPartition = some (PartitionVariant.rangePartition ranges) →
      ranges.length ≠ 0 → ((aget s.indexNameMap (nameKey sid d.name)).getD 0) = 0 →
      aputIfAbsent (tableIdAlloc ntid s inc).2.1.indexNameMap (nameKey sid d.name)
        (tableIdAlloc ntid s inc).1 = some nm →
      ¬ (ciLoop sid d (tableIdAlloc ntid s inc).1 rok ranges
        { (tableIdAlloc ntid s inc).2.1 with indexNameMap := nm }
        (tableIdAlloc ntid s inc).2.2).2.2.length < ranges.length →
      P (ciCommitResult sid d (tableIdAlloc ntid s inc).1
        (ciLoop sid d (tableIdAlloc ntid s inc).1 rok ranges
          { (tableIdAlloc ntid s inc).2.1 with indexNameMap := nm }
          (tableIdAlloc ntid s inc).2.2))) :
    P (createIndex sid d ntid aok rok s inc) := by
  by_cases h1 : sid = ROOT_SCHEMA
  · have e : createIndex sid d ntid aok rok s inc =
        (Except.error .EILLEGAL_PARAMTETERS, s, inc) := by simp [createIndex, h1]
    rw [e]; exact hRoot h1
  · by_cases h2 : aexists s.schemaMap sid
    · cases hval : validateIndexDefinition d with
      | error ev =>
        have e : createIndex sid d ntid aok rok s inc = (Except.error ev, s, inc) := by
          simp [createIndex, h1, h2, hval]
        rw [e]; exact hValErr ev h1 h2 hval
      | ok uv =>
        rcases hp : d.indexPartition with _ | pv
        · have e : createIndex sid d ntid aok rok s inc =
              (Except.error .EINDEX_DEFINITION_ILLEGAL, s, inc) := by
            simp [createIndex, h1, h2, hval, hp]
          rw [e]; exact hPart h1 h2 (Or.inl hp)
        · cases pv with
          | hashPartition =>
            have e : createIndex sid d ntid aok rok s inc =
                (Except.error .EINDEX_DEFINITION_ILLEGAL, s, inc) := by
              simp [createIndex, h1, h2, hval, hp]
            rw [e]; exact hPart h1 h2 (Or.inr (Or.inl hp))
          | unsetPartition =>
            have e : createIndex sid d ntid aok rok s inc =
                (Except.error .EINDEX_DEFINITION_ILLEGAL, s, inc) := by
              simp [createIndex, h1, h2, hval, hp]
            rw [e]; exact hPart h1 h2 (Or.inr (Or.inr hp))
          | rangePartition ranges =>
            by_cases h4 : ranges.length = 0
            · have e : createIndex sid d ntid aok rok s inc =
                  (Except.error .EINDEX_DEFINITION_ILLEGAL, s, inc) := by
                simp [createIndex, h1, h2, hval, hp, h4]
              rw [e]; exact hRanges0 ranges hp h4
            · by_cases h5 : ((aget s.indexNameMap (nameKey sid d.name)).getD 0) = 0
              · by_cases hAF : (d.withAutoIncrement = true ∧ aok = false)
                · obtain ⟨h6, h7⟩ := hAF
                  have e : createIndex sid d ntid aok rok s inc =
                      (Except.error .EAUTO_INCREMENT_WHILE_CREATING_TABLE,
                        (tableIdAlloc ntid s inc).2.1, (tableIdAlloc ntid s inc).2.2) := by
                    simp [createIndex, syncSendCreateAutoIncrementInternal, h1, h2, hval, hp, h4, h5, h6, h7]
                  rw [e]; exact hAutoFail ranges hp h4 h5 h6 h7
                · have hOk : d.withAutoIncrement = false ∨ aok = true := by
                    rcases Bool.eq_false_or_eq_true d.withAutoIncrement with h | h
                    · right
                      rcases Bool.eq_false_or_eq_true aok with h9 | h9
                      · exact h9
                      · exact absurd ⟨h, h9⟩ hAF
                    · exact Or.inl h
                  rcases h8 : aputIfAbsent (tableIdAlloc ntid s inc).2.1.indexNameMap
                      (nameKey sid d.name) (tableIdAlloc ntid s inc).1 with _ | nm
                  · have e : createIndex sid d ntid aok rok s inc =
                        (Except.error .EINDEX_EXISTS,
                          (tableIdAlloc ntid s inc).2.1, (tableIdAlloc ntid s inc).2.2) := by
                      rcases hOk with h | h <;>
                        simp [createIndex, syncSendCreateAutoIncrementInternal, h1, h2, hval, hp, h4, h5, h, h8]
                    rw [e]; exact hPutConflict ranges hp h4 h5 h8
                  · by_cases h9 : (ciLoop sid d (tableIdAlloc ntid s inc).1 rok ranges
                        { (tableIdAlloc ntid s inc).2.1 with indexNameMap := nm }
                        (tableIdAlloc ntid s inc).2.2).2.2.length < ranges.length
                    · have e : createIndex sid d ntid aok rok s inc =
                          ciCompResult sid d (ciLoop sid d (tableIdAlloc ntid s inc).1 rok ranges
                            { (tableIdAlloc ntid s inc).2.1 with indexNameMap := nm }
                            (tableIdAlloc ntid s inc).2.2) := by
                        rcases hOk with h | h <;>
                          simp [createIndex, syncSendCreateAutoIncrementInternal, ciLoop, ciCompResult,
                            h1, h2, hp, h4, h5, h, h8, h9] <;>
                          simp_all [ciLoop]
                      rw [e]; exact hComp ranges nm hp h4 h5 h8 h9
                    · have e : createIndex sid d ntid aok rok s inc =
                          ciCommitResult sid d (tableIdAlloc ntid s inc).1
                            (ciLoop sid d (tableIdAlloc ntid s inc).1 rok ranges
                              { (tableIdAlloc ntid s inc).2.1 with indexNameMap := nm }
                              (tableIdAlloc ntid s inc).2.2) := by
                        rcases hOk with h | h <;>
                          simp [createIndex, syncSendCreateAutoIncrementInternal, ciLoop, ciCommitResult,
                            h1, h2, hp, h4, h5, h, h8, h9] <;>
                          simp_all [ciLoop]
                      rw [e]; exact hCommit ranges nm hp h4 h5 h8 h9
              · have e : createIndex sid d ntid aok rok s inc =
                    (Except.error .EINDEX_EXISTS, s, inc) := by
                  simp [createIndex, h1, h2, hval, hp, h4, h5]
                rw [e]; exact hNameTaken ranges hp h4 h5
    · have e : createIndex sid d ntid aok rok s inc =
          (Except.error .EILLEGAL_PARAMTETERS, s, inc) := by
        simp [createIndex, h1, h2]
      rw [e]; exact hNoSchema h1 (by simpa using h2)


/-- C7.  `CreateTable` rejects with `EtableDefIllegal`, leaving state and
increment untouched, every definition that lacks a `table_partition`,
declares a `hash_partition`, or whose `range_partition` has zero ranges (for
a request that passed the schema checks); and on success every region it
created carries replica count 3 when the declared replica is below 1, and
the declared replica count otherwise. -/
theorem createTable_partition_validation_and_replica (s : CState) (sid : Nat) (d : TableDefinition) (ntid : Nat)
    (aok : Bool) (rok : Nat → Bool)
    (hroot : sid ≠ ROOT_SCHEMA) (hex : aexists s.schemaMap sid = true) :
    (∀ inc : MetaIncrement,
      (d.tablePartition = none ∨ d.tablePartition = some PartitionVariant.hashPartition ∨
        d.tablePartition = some (PartitionVariant.rangePartition [])) →
      createTable sid d ntid aok rok s inc =
        (Except.error .ETABLE_DEFINITION_ILLEGAL, s, inc)) ∧
    (∀ v, (createTable sid d ntid aok rok s MetaIncrement.empty).1 = Except.ok v →
      ∀ e ∈ (createTable sid d ntid aok rok s MetaIncrement.empty).2.2.regions,
        ∃ reg, e.region = some reg ∧
          reg.definition.replicaNum = (if d.replica < 1 then 3 else d.replica)) := by
  constructor
  · intro inc htrig
    have contra : ∀ rs : List RangeT,
        d.tablePartition = some (PartitionVariant.rangePartition rs) →
        rs.length ≠ 0 → False := by
      intro rs hp hl
      rcases htrig with h | h | h <;> rw [h] at hp <;> simp_all
    refine ct_branches sid d ntid aok rok s inc
      (fun r => r = (Except.error .ETABLE_DEFINITION_ILLEGAL, s, inc))
      ?_ ?_ ?_ ?_ ?_ ?_ ?_ ?_ ?_
    · intro h1; exact absurd h1 hroot
    · intro _ h2; rw [hex] at h2; cases h2
    · intro _ _ _; rfl
    · intro _ _ _; rfl
    · intro ranges hp hl _; exact (contra ranges hp hl).elim
    · intro ranges hp hl _ _ _; exact (contra ranges hp hl).elim
    · intro ranges hp hl _ _; exact (contra ranges hp hl).elim
    · intro ranges nm hp hl _ _ _; exact (contra ranges hp hl).elim
    · intro ranges nm hp hl _ _ _; exact (contra ranges hp hl).elim
  · intro v
    refine ct_branches sid d ntid aok rok s MetaIncrement.empty
      (fun r => r.1 = Except.ok v → ∀ e ∈ r.2.2.regions,
        ∃ reg, e.region = some reg ∧
          reg.definition.replicaNum = (if d.replica < 1 then 3 else d.replica))
      ?_ ?_ ?_ ?_ ?_ ?_ ?_ ?_ ?_
    · intro _ hok; simp at hok
    · intro _ _ hok; simp at hok
    · intro _ _ _ hok; simp at hok
    · intro _ _ _ hok; simp at hok
    · intro _ _ _ _ hok; simp at hok
    · intro _ _ _ _ _ _ hok; simp at hok
    · intro _ _ _ _ _ hok; simp at hok
    · intro ranges nm hp hl hg hput hlt hok; simp [ctCompResult] at hok
    · intro ranges nm hp hl hg hput hge hok e he
      obtain ⟨es, h1, h2, h3⟩ := crfr_regions .STORE_REGION
        (tableRegionName sid d.name) (if d.replica < 1 then 3 else d.replica)
        sid (tableIdAlloc ntid s MetaIncrement.empty).1 0 rok ranges 0
        { (tableIdAlloc ntid s MetaIncrement.empty).2.1 with tableNameMap := nm }
        (tableIdAlloc ntid s MetaIncrement.empty).2.2
      -- regions of the commit result are the loop's regions
      have hreg : (ctCommitResult sid d (tableIdAlloc ntid s MetaIncrement.empty).1
          (ctLoop sid d (tableIdAlloc ntid s MetaIncrement.empty).1 rok ranges
            { (tableIdAlloc ntid s MetaIncrement.empty).2.1 with tableNameMap := nm }
            (tableIdAlloc ntid s MetaIncrement.empty).2.2)).2.2.regions =
          (ctLoop sid d (tableIdAlloc ntid s MetaIncrement.empty).1 rok ranges
            { (tableIdAlloc ntid s MetaIncrement.empty).2.1 with tableNameMap := nm }
            (tableIdAlloc ntid s MetaIncrement.empty).2.2).2.1.regions := by
        simp [ctCommitResult, getNextId]
      rw [hreg] at he
      rw [show (ctLoop sid d (tableIdAlloc ntid s MetaIncrement.empty).1 rok ranges
            { (tableIdAlloc ntid s MetaIncrement.empty).2.1 with tableNameMap := nm }
            (tableIdAlloc ntid s MetaIncrement.empty).2.2).2.1.regions =
          (tableIdAlloc ntid s MetaIncrement.empty).2.2.regions ++ es from h1] at he
      have hempty : (tableIdAlloc ntid s MetaIncrement.empty).2.2.regions = [] := by
        rw [tableIdAlloc_inc]; rfl
      rw [hempty] at he
      simp at he
      obtain ⟨_, reg, hr1, _, _, hrep, _⟩ := h3 e he
      exact ⟨reg, hr1, hrep⟩

/-- Witness for C7: the hash-partition definition is rejected against the
sample state with `EtableDefIllegal` and no state change. -/
theorem createTable_partition_validation_and_replica_witness :
    createTable 1001 hashDefinition 0 true (fun _ => true) state1 MetaIncrement.empty =
      (Except.error .ETABLE_DEFINITION_ILLEGAL, state1, MetaIncrement.empty) :=
  (createTable_partition_validation_and_replica state1 1001 hashDefinition 0 true
    (fun _ => true) (by decide) (by decide)).1 MetaIncrement.empty (Or.inr (Or.inl rfl))

/-- C10.  Every read that fills a caller-supplied output requires it to be
empty on entry and otherwise fails with `EIllegalParameters` without touching
state: `GetSchemas`, `GetTables` and `GetIndexs` reject a non-empty output
vector; `GetTableMetrics` and `GetIndexMetrics` reject a metrics object whose
entity id is non-zero (and return the state unchanged). -/
theorem read_ops_require_empty_outputs :
    (∀ (s : CState) (sid : Nat) (out : List MetaSchema), out ≠ [] →
      getSchemas sid out s = Except.error .EILLEGAL_PARAMTETERS) ∧
    (∀ (s : CState) (sid : Nat) (out : List TableDefinitionWithId), out ≠ [] →
      getTables sid out s = Except.error .EILLEGAL_PARAMTETERS) ∧
    (∀ (s : CState) (sid : Nat) (out : List IndexDefinitionWithId), out ≠ [] →
      getIndexs sid out s = Except.error .EILLEGAL_PARAMTETERS) ∧
    (∀ (s : CState) (sid tid : Nat) (out : TableMetricsWithId), out.id.entityId ≠ 0 →
      getTableMetrics sid tid out s = (Except.error .EILLEGAL_PARAMTETERS, s)) ∧
    (∀ (s : CState) (sid iid : Nat) (out : IndexMetricsWithId), out.id.entityId ≠ 0 →
      getIndexMetrics sid iid out s = (Except.error .EILLEGAL_PARAMTETERS, s)) := by
  refine ⟨?_, ?_, ?_, ?_, ?_⟩
  · intro s sid out hout
    by_cases h : sid = 0 <;> simp [getSchemas, h, hout]
  · intro s sid out hout
    simp [getTables, hout]
  · intro s sid out hout
    simp [getIndexs, hout]
  · intro s sid tid out hout
    simp [getTableMetrics, hout]
  · intro s sid iid out hout
    simp [getIndexMetrics, hout]

/-- Witness for C10: each reader rejects a non-empty output object against
the sample state. -/
theorem read_ops_require_empty_outputs_witness :
    getSchemas 0 [schemaEntryView 0 (1001, salesSchema)] state1 =
      Except.error .EILLEGAL_PARAMTETERS ∧
    getTables 1001
      [{ tableId := { entityType := .ENTITY_TYPE_TABLE, entityId := 2001, parentEntityId := 1001 },
         tableDefinition := ordersDefinition }] state1 = Except.error .EILLEGAL_PARAMTETERS ∧
    getIndexs 1002
      [{ indexId := { entityType := .ENTITY_TYPE_INDEX, entityId := 7, parentEntityId := 1002 },
         indexDefinition := embIndexDefinition }] state2 = Except.error .EILLEGAL_PARAMTETERS ∧
    getTableMetrics 1001 3001
      { emptyTableMetricsWithId with
        id := { entityType := .ENTITY_TYPE_TABLE, entityId := 3001, parentEntityId := 1001 } }
      state3 = (Except.error .EILLEGAL_PARAMTETERS, state3) ∧
    getIndexMetrics 1002 7
      { emptyIndexMetricsWithId with
        id := { entityType := .ENTITY_TYPE_INDEX, entityId := 7, parentEntityId := 1002 } }
      state2 = (Except.error .EILLEGAL_PARAMTETERS, state2) :=
  ⟨read_ops_require_empty_outputs.1 state1 0 _ (by decide),
   read_ops_require_empty_outputs.2.1 state1 1001 _ (by decide),
   read_ops_require_empty_outputs.2.2.1 state2 1002 _ (by decide),
   read_ops_require_empty_outputs.2.2.2.1 state3 1001 3001 _ (by decide),
   read_ops_require_empty_outputs.2.2.2.2 state2 1002 7 _ (by decide)⟩

/-- C6 (amended).  `ValidateIndexDefinition` accepts a definition exactly
when its name is non-empty and it satisfies the claim's variant table:
`index_type` is not `NONE`; a `VECTOR` definition has the matching parameter
sub-variant set with `dimension > 0`, `metric_type ≠ NONE` and the
variant-specific counters positive (HNSW: efconstruction, max_elements,
nlinks; IVF_FLAT: ncentroids; IVF_PQ: ncentroids, nsubvector,
bucket_init_size, bucket_max_size; DISKANN: num_trees, num_neighbors,
num_threads); a `SCALAR` definition has a `scalar_index_parameter` whose
`scalar_index_type` is not `NONE`. -/
theorem validateIndexDefinition_characterization (d : IndexDefinition) :
    validateIndexDefinition d = Except.ok () ↔ d.name ≠ "" ∧ claimIndexDefOk d = true := by
  obtain ⟨name, replica, ip, part, wai, ai⟩ := d
  obtain ⟨it, vip, sip⟩ := ip
  by_cases hn : name = ""
  · cases it <;> simp [validateIndexDefinition, claimIndexDefOk, hn]
  · cases it with
    | INDEX_TYPE_NONE => simp [validateIndexDefinition, claimIndexDefOk, hn]
    | INDEX_TYPE_SCALAR =>
      rcases sip with _ | sp
      · simp [validateIndexDefinition, claimIndexDefOk, hn]
      · by_cases hs : sp.scalarIndexType = ScalarIndexType.SCALAR_INDEX_TYPE_NONE <;>
          simp [validateIndexDefinition, claimIndexDefOk, hn, hs]
    | INDEX_TYPE_VECTOR =>
      rcases vip with _ | ⟨vt, pv⟩
      · simp [validateIndexDefinition, claimIndexDefOk, hn]
      · rcases pv with _ | pv
        · cases vt <;> simp [validateIndexDefinition, claimIndexDefOk, vectorVariantOk, hn]
        · cases vt <;> cases pv <;>
            simp [validateIndexDefinition, claimIndexDefOk, vectorVariantOk, hn,
              Nat.pos_iff_ne_zero] <;>
            (try split_ifs) <;> simp_all

/-- Branch analysis behind claim C1, table half. -/
theorem createTable_failure_atomicity_aux (s : CState) (sid : Nat) (d : TableDefinition) (ntid : Nat)
    (aok : Bool) (rok : Nat → Bool) (e : Errno)
    (herr : (createTable sid d ntid aok rok s MetaIncrement.empty).1 = Except.error e) :
    (createTable sid d ntid aok rok s MetaIncrement.empty).2.2.tables = [] ∧
    (createTable sid d ntid aok rok s MetaIncrement.empty).2.1.tableMap = s.tableMap ∧
    (createTable sid d ntid aok rok s MetaIncrement.empty).2.1.tableNameMap = s.tableNameMap ∧
    (e = .ETABLE_REGION_CREATE_FAILED →
      ∀ en ∈ (createTable sid d ntid aok rok s MetaIncrement.empty).2.2.regions,
        en.opType = .CREATE →
        ({ id := en.id, opType := .DELETE, region := none } : RegionIncrement) ∈
          (createTable sid d ntid aok rok s MetaIncrement.empty).2.2.regions) := by
  revert herr
  refine ct_branches sid d ntid aok rok s MetaIncrement.empty
    (fun r => r.1 = Except.error e →
      r.2.2.tables = [] ∧ r.2.1.tableMap = s.tableMap ∧
      r.2.1.tableNameMap = s.tableNameMap ∧
      (e = .ETABLE_REGION_CREATE_FAILED →
        ∀ en ∈ r.2.2.regions, en.opType = .CREATE →
          ({ id := en.id, opType := .DELETE, region := none } : RegionIncrement) ∈ r.2.2.regions))
    ?_ ?_ ?_ ?_ ?_ ?_ ?_ ?_ ?_
  -- trivial early-error branches: state and increment untouched
  · intro _ _
    exact ⟨rfl, rfl, rfl, fun _ en hen _ => by simp [MetaIncrement.empty] at hen⟩
  · intro _ _ _
    exact ⟨rfl, rfl, rfl, fun _ en hen _ => by simp [MetaIncrement.empty] at hen⟩
  · intro _ _ _ _
    exact ⟨rfl, rfl, rfl, fun _ en hen _ => by simp [MetaIncrement.empty] at hen⟩
  · intro _ _ _ _
    exact ⟨rfl, rfl, rfl, fun _ en hen _ => by simp [MetaIncrement.empty] at hen⟩
  · intro _ _ _ _ _
    exact ⟨rfl, rfl, rfl, fun _ en hen _ => by simp [MetaIncrement.empty] at hen⟩
  -- auto-increment failure: only the allocator ran
  · intro ranges hp hl hg hauto haok hok
    refine ⟨?_, ?_, ?_, ?_⟩
    · rw [tableIdAlloc_inc]; rfl
    · rw [tableIdAlloc_state]
    · rw [tableIdAlloc_state]
    · intro hf
      rw [hf] at hok
      simp at hok
  -- name-reservation conflict: only the allocator ran
  · intro ranges hp hl hg hput hok
    refine ⟨?_, ?_, ?_, ?_⟩
    · rw [tableIdAlloc_inc]; rfl
    · rw [tableIdAlloc_state]
    · rw [tableIdAlloc_state]
    · intro hf
      rw [hf] at hok
      simp at hok
  -- compensation: created regions dropped, reservation erased
  · intro ranges nm hp hl hg hput hlt hok
    obtain ⟨habs, hnm⟩ := aputIfAbsent_some _ _ _ _ hput
    obtain ⟨es, hR1, hR2, hR3⟩ := crfr_regions .STORE_REGION
      (tableRegionName sid d.name) (if d.replica < 1 then 3 else d.replica)
      sid (tableIdAlloc ntid s MetaIncrement.empty).1 0 rok ranges 0
      { (tableIdAlloc ntid s MetaIncrement.empty).2.1 with tableNameMap := nm }
      (tableIdAlloc ntid s MetaIncrement.empty).2.2
    -- notation
    set A := tableIdAlloc ntid s MetaIncrement.empty with hA
    set L := ctLoop sid d A.1 rok ranges { A.2.1 with tableNameMap := nm } A.2.2 with hL
    have hLregions : L.2.1.regions = A.2.2.regions ++ es := hR1
    have hLids : es.map RegionIncrement.id = L.2.2 := hR2
    have hAincEmpty : A.2.2.regions = ([] : List RegionIncrement) := by
      rw [hA, tableIdAlloc_inc]; rfl
    have hLState : L.1 = { { A.2.1 with tableNameMap := nm } with idEpochs := L.1.idEpochs } := by
      rw [hL]; exact crfr_state _ _ _ _ _ _ _ _ _ _ _
    have hLInc : L.2.1 = { A.2.2 with regions := L.2.1.regions, idEpochs := L.2.1.idEpochs } := by
      rw [hL]; exact crfr_inc _ _ _ _ _ _ _ _ _ _ _
    refine ⟨?_, ?_, ?_, ?_⟩
    · -- tables of the compensation increment
      show (dropRegionsList L.2.2 L.1 L.2.1).2.tables = []
      rw [dropRegionsList_inc_tables, hLInc]
      show A.2.2.tables = []
      rw [hA, tableIdAlloc_inc]; rfl
    · -- table map untouched
      show (dropRegionsList L.2.2 L.1 L.2.1).1.tableMap = s.tableMap
      rw [dropRegionsList_state, hLState]
      show A.2.1.tableMap = s.tableMap
      rw [hA, tableIdAlloc_state]
    · -- the reservation made by this call is erased again
      show aerase (dropRegionsList L.2.2 L.1 L.2.1).1.tableNameMap (nameKey sid d.name) =
        s.tableNameMap
      rw [dropRegionsList_state, hLState]
      show aerase nm (nameKey sid d.name) = s.tableNameMap
      rw [hnm, aerase_aput, aerase_of_absent _ _ habs]
      show A.2.1.tableNameMap = s.tableNameMap
      rw [hA, tableIdAlloc_state]
    · -- every created region has a matching DELETE sub-increment
      intro _ en hen hcr
      show ({ id := en.id, opType := .DELETE, region := none } : RegionIncrement) ∈
        (dropRegionsList L.2.2 L.1 L.2.1).2.regions
      have hmem : en ∈ (dropRegionsList L.2.2 L.1 L.2.1).2.regions := hen
      rw [dropRegionsList_inc] at hmem ⊢
      simp only [List.mem_append] at hmem ⊢
      rcases hmem with hmem | hmem
      · -- en came from the loop
        rw [hLInc] at hmem
        simp only at hmem
        rw [hLregions, hAincEmpty] at hmem
        simp only [List.nil_append] at hmem
        right
        have : en.id ∈ L.2.2 := by
          rw [← hLids]
          exact List.mem_map_of_mem RegionIncrement.id hmem
        exact List.mem_map_of_mem _ this
      · -- en is itself one of the DELETE entries: contradiction with CREATE
        rcases List.mem_map.mp hmem with ⟨rid, _, hrid⟩
        rw [← hrid] at hcr
        simp at hcr
  -- success branch contradicts the error assumption
  · intro ranges nm hp hl hg hput hge hok
    simp [ctCommitResult] at hok

/-- Branch analysis behind claim C1, index half. -/
theorem createIndex_failure_atomicity_aux (s : CState) (sid : Nat) (d : IndexDefinition) (ntid : Nat)
    (aok : Bool) (rok : Nat → Bool) (e : Errno)
    (herr : (createIndex sid d ntid aok rok s MetaIncrement.empty).1 = Except.error e) :
    (createIndex sid d ntid aok rok s MetaIncrement.empty).2.2.indexes = [] ∧
    (createIndex sid d ntid aok rok s MetaIncrement.empty).2.1.indexMap = s.indexMap ∧
    (createIndex sid d ntid aok rok s MetaIncrement.empty).2.1.indexNameMap = s.indexNameMap ∧
    (e = .EINDEX_REGION_CREATE_FAILED →
      ∀ en ∈ (createIndex sid d ntid aok rok s MetaIncrement.empty).2.2.regions,
        en.opType = .CREATE →
        ({ id := en.id, opType := .DELETE, region := none } : RegionIncrement) ∈
          (createIndex sid d ntid aok rok s MetaIncrement.empty).2.2.regions) := by
  revert herr
  refine ci_branches sid d ntid aok rok s MetaIncrement.empty
    (fun r => r.1 = Except.error e →
      r.2.2.indexes = [] ∧ r.2.1.indexMap = s.indexMap ∧
      r.2.1.indexNameMap = s.indexNameMap ∧
      (e = .EINDEX_REGION_CREATE_FAILED →
        ∀ en ∈ r.2.2.regions, en.opType = .CREATE →
          ({ id := en.id, opType := .DELETE, region := none } : RegionIncrement) ∈ r.2.2.regions))
    ?_ ?_ ?_ ?_ ?_ ?_ ?_ ?_ ?_ ?_
  -- trivial early-error branches: state and increment untouched
  · intro _ _
    exact ⟨rfl, rfl, rfl, fun _ en hen _ => by simp [MetaIncrement.empty] at hen⟩
  · intro _ _ _
    exact ⟨rfl, rfl, rfl, fun _ en hen _ => by simp [MetaIncrement.empty] at hen⟩
  · intro _ _ _ _ _
    exact ⟨rfl, rfl, rfl, fun _ en hen _ => by simp [MetaIncrement.empty] at hen⟩
  · intro _ _ _ _
    exact ⟨rfl, rfl, rfl, fun _ en hen _ => by simp [MetaIncrement.empty] at hen⟩
  · intro _ _ _ _
    exact ⟨rfl, rfl, rfl, fun _ en hen _ => by simp [MetaIncrement.empty] at hen⟩
  · intro _ _ _ _ _
    exact ⟨rfl, rfl, rfl, fun _ en hen _ => by simp [MetaIncrement.empty] at hen⟩
  -- auto-increment failure: only the allocator ran
  · intro ranges hp hl hg hauto haok hok
    refine ⟨?_, ?_, ?_, ?_⟩
    · rw [tableIdAlloc_inc]; rfl
    · rw [tableIdAlloc_state]
    · rw [tableIdAlloc_state]
    · intro hf
      rw [hf] at hok
      simp at hok
  -- name-reservation conflict: only the allocator ran
  · intro ranges hp hl hg hput hok
    refine ⟨?_, ?_, ?_, ?_⟩
    · rw [tableIdAlloc_inc]; rfl
    · rw [tableIdAlloc_state]
    · rw [tableIdAlloc_state]
    · intro hf
      rw [hf] at hok
      simp at hok
  -- compensation: created regions dropped, reservation erased
  · intro ranges nm hp hl hg hput hlt hok
    obtain ⟨habs, hnm⟩ := aputIfAbsent_some _ _ _ _ hput
    obtain ⟨es, hR1, hR2, hR3⟩ := crfr_regions .INDEX_REGION
      (indexRegionName sid d.name) (if d.replica < 1 then 3 else d.replica)
      sid 0 (tableIdAlloc ntid s MetaIncrement.empty).1 rok ranges 0
      { (tableIdAlloc ntid s MetaIncrement.empty).2.1 with indexNameMap := nm }
      (tableIdAlloc ntid s MetaIncrement.empty).2.2
    -- notation
    set A := tableIdAlloc ntid s MetaIncrement.empty with hA
    set L := ciLoop sid d A.1 rok ranges { A.2.1 with indexNameMap := nm } A.2.2 with hL
    have hLregions : L.2.1.regions = A.2.2.regions ++ es := hR1
    have hLids : es.map RegionIncrement.id = L.2.2 := hR2
    have hAincEmpty : A.2.2.regions = ([] : List RegionIncrement) := by
      rw [hA, tableIdAlloc_inc]; rfl
    have hLState : L.1 = { { A.2.1 with indexNameMap := nm } with idEpochs := L.1.idEpochs } := by
      rw [hL]; exact crfr_state _ _ _ _ _ _ _ _ _ _ _
    have hLInc : L.2.1 = { A.2.2 with regions := L.2.1.regions, idEpochs := L.2.1.idEpochs } := by
      rw [hL]; exact crfr_inc _ _ _ _ _ _ _ _ _ _ _
    refine ⟨?_, ?_, ?_, ?_⟩
    · -- tables of the compensation increment
      show (dropRegionsList L.2.2 L.1 L.2.1).2.indexes = []
      rw [dropRegionsList_inc_indexes, hLInc]
      show A.2.2.indexes = []
      rw [hA, tableIdAlloc_inc]; rfl
    · -- table map untouched
      show (dropRegionsList L.2.2 L.1 L.2.1).1.indexMap = s.indexMap
      rw [dropRegionsList_state, hLState]
      show A.2.1.indexMap = s.indexMap
      rw [hA, tableIdAlloc_state]
    · -- the reservation made by this call is erased again
      show aerase (dropRegionsList L.2.2 L.1 L.2.1).1.indexNameMap (nameKey sid d.name) =
        s.indexNameMap
      rw [dropRegionsList_state, hLState]
      show aerase nm (nameKey sid d.name) = s.indexNameMap
      rw [hnm, aerase_aput, aerase_of_absent _ _ habs]
      show A.2.1.indexNameMap = s.indexNameMap
      rw [hA, tableIdAlloc_state]
    · -- every created region has a matching DELETE sub-increment
      intro _ en hen hcr
      show ({ id := en.id, opType := .DELETE, region := none } : RegionIncrement) ∈
        (dropRegionsList L.2.2 L.1 L.2.1).2.regions
      have hmem : en ∈ (dropRegionsList L.2.2 L.1 L.2.1).2.regions := hen
      rw [dropRegionsList_inc] at hmem ⊢
      simp only [List.mem_append] at hmem ⊢
      rcases hmem with hmem | hmem
      · -- en came from the loop
        rw [hLInc] at hmem
        simp only at hmem
        rw [hLregions, hAincEmpty] at hmem
        simp only [List.nil_append] at hmem
        right
        have : en.id ∈ L.2.2 := by
          rw [← hLids]
          exact List.mem_map_of_mem RegionIncrement.id hmem
        exact List.mem_map_of_mem _ this
      · -- en is itself one of the DELETE entries: contradiction with CREATE
        rcases List.mem_map.mp hmem with ⟨rid, _, hrid⟩
        rw [← hrid] at hcr
        simp at hcr
  -- success branch contradicts the error assumption
  · intro ranges nm hp hl hg hput hge hok
    simp [ciCommitResult] at hok

/-- C1 (amended).  `CreateTable` (and isomorphically `CreateIndex`) is atomic
on failure: whenever it returns an error, the proposed increment contains no
table (index) sub-increment, the table (index) store is untouched, and the
name-reservation map is exactly as before the call — in particular the
reservation the call itself made is erased again, while a reservation or
catalog entry that already existed (as on `EtableExists`) persists unchanged;
and when the error is `EtableRegionCreateFailed`
(`EindexRegionCreateFailed`), every region `CREATE` sub-increment it produced
has a matching region `DELETE` sub-increment (the compensation drop). -/
theorem create_failure_atomicity :
    (∀ (s : CState) (sid : Nat) (d : TableDefinition) (ntid : Nat) (aok : Bool)
        (rok : Nat → Bool) (e : Errno),
      (createTable sid d ntid aok rok s MetaIncrement.empty).1 = Except.error e →
      (createTable sid d ntid aok rok s MetaIncrement.empty).2.2.tables = [] ∧
      (createTable sid d ntid aok rok s MetaIncrement.empty).2.1.tableMap = s.tableMap ∧
      (createTable sid d ntid aok rok s MetaIncrement.empty).2.1.tableNameMap =
        s.tableNameMap ∧
      (e = .ETABLE_REGION_CREATE_FAILED →
        ∀ en ∈ (createTable sid d ntid aok rok s MetaIncrement.empty).2.2.regions,
          en.opType = .CREATE →
          ({ id := en.id, opType := .DELETE, region := none } : RegionIncrement) ∈
            (createTable sid d ntid aok rok s MetaIncrement.empty).2.2.regions)) ∧
    (∀ (s : CState) (sid : Nat) (d : IndexDefinition) (ntid : Nat) (aok : Bool)
        (rok : Nat → Bool) (e : Errno),
      (createIndex sid d ntid aok rok s MetaIncrement.empty).1 = Except.error e →
      (createIndex sid d ntid aok rok s MetaIncrement.empty).2.2.indexes = [] ∧
      (createIndex sid d ntid aok rok s MetaIncrement.empty).2.1.indexMap = s.indexMap ∧
      (createIndex sid d ntid aok rok s MetaIncrement.empty).2.1.indexNameMap =
        s.indexNameMap ∧
      (e = .EINDEX_REGION_CREATE_FAILED →
        ∀ en ∈ (createIndex sid d ntid aok rok s MetaIncrement.empty).2.2.regions,
          en.opType = .CREATE →
          ({ id := en.id, opType := .DELETE, region := none } : RegionIncrement) ∈
            (createIndex sid d ntid aok rok s MetaIncrement.empty).2.2.regions)) :=
  ⟨fun s sid d ntid aok rok e h =>
    createTable_failure_atomicity_aux s sid d ntid aok rok e h,
   fun s sid d ntid aok rok e h =>
    createIndex_failure_atomicity_aux s sid d ntid aok rok e h⟩

/-- Witness for C1 (amended): the compensation run (second region creation
fails) leaves no table sub-increment and restores the name map. -/
theorem create_failure_atomicity_witness :
    (createTable 1001 newOrdersDefinition 0 true (fun i => i == 0) state1
      MetaIncrement.empty).2.2.tables = [] ∧
    (createTable 1001 newOrdersDefinition 0 true (fun i => i == 0) state1
      MetaIncrement.empty).2.1.tableNameMap = state1.tableNameMap :=
  ⟨(create_failure_atomicity.1 state1 1001 newOrdersDefinition 0 true (fun i => i == 0)
    .ETABLE_REGION_CREATE_FAILED (by decide)).1,
   (create_failure_atomicity.1 state1 1001 newOrdersDefinition 0 true (fun i => i == 0)
    .ETABLE_REGION_CREATE_FAILED (by decide)).2.2.1⟩

/-- Helper for the leader-extraction fold. -/
theorem foldl_leader_const (rest : List Peer) (lsid : Nat) (loc : Location)
    (h : ∀ q ∈ rest, q.storeId = lsid → q.serverLocation = loc) :
    rest.foldl (fun acc q => if q.storeId = lsid then q.serverLocation else acc) loc = loc := by
  induction rest with
  | nil => rfl
  | cons q rest ih =>
    by_cases hq : q.storeId = lsid
    · simp only [List.foldl, hq, if_true]
      rw [h q (List.mem_cons_self q rest) hq]
      exact ih (fun r hr hq2 => h r (List.mem_cons_of_mem q hr) hq2)
    · simp only [List.foldl, hq, if_false]
      exact ih (fun r hr hq2 => h r (List.mem_cons_of_mem q hr) hq2)

theorem leaderOfPeers_unique (peers : List Peer) (lsid : Nat) (p : Peer)
    (hmem : p ∈ peers) (hp : p.storeId = lsid)
    (huniq : ∀ q ∈ peers, q.storeId = lsid → q = p) :
    leaderOfPeers peers lsid = p.serverLocation := by
  induction peers with
  | nil => cases hmem
  | cons q rest ih =>
    rcases List.mem_cons.mp hmem with hq | hq
    · subst hq
      unfold leaderOfPeers
      simp only [List.foldl, hp, if_true]
      exact foldl_leader_const rest lsid p.serverLocation
        (fun r hr hq2 => by rw [huniq r (List.mem_cons_of_mem p hr) hq2])
    · by_cases hql : q.storeId = lsid
      · have : q = p := huniq q (List.mem_cons_self q rest) hql
        subst this
        unfold leaderOfPeers
        simp only [List.foldl, hql, if_true]
        exact foldl_leader_const rest lsid q.serverLocation
          (fun r hr hq2 => by rw [huniq r (List.mem_cons_of_mem q hr) hq2])
      · unfold leaderOfPeers at ih ⊢
        simp only [List.foldl, hql, if_false]
        exact ih hq (fun r hr hq2 => huniq r (List.mem_cons_of_mem q hr) hq2)

/-- Range assembly for tables (claim C5). -/
theorem getTableRange_assembly_aux (s : CState) (sid tid : Nat) (t : TableInternal)
    (hs : validateSchema s sid = true) (ht : aget s.tableMap tid = some t) :
    ∃ rds, getTableRange sid tid s = Except.ok rds ∧
      rds.length = t.partitions.length ∧
      ∀ i, i < t.partitions.length →
        ∃ rid entry, t.partitions[i]? = some rid ∧ rds[i]? = some entry ∧
          entry.id = { entityType := .ENTITY_TYPE_PART, entityId := rid,
                       parentEntityId := tid } ∧
          (∀ r, aget s.regionMap rid = some r →
            entry.range = r.definition.range ∧
            entry.leader = leaderOfPeers r.definition.peers r.leaderStoreId ∧
            entry.voters = (r.definition.peers.filter
              (fun p => decide (p.role = PeerRole.VOTER))).map Peer.serverLocation ∧
            entry.learners = (r.definition.peers.filter
              (fun p => decide (p.role = PeerRole.LEARNER))).map Peer.serverLocation ∧
            entry.regionmapEpoch = getPresentId .EPOCH_REGION s ∧
            entry.storemapEpoch = getPresentId .EPOCH_STORE s) ∧
          (aget s.regionMap rid = none →
            entry.range = { startKey := [], endKey := [] } ∧
            entry.leader = { host := "", port := 0 } ∧
            entry.voters = [] ∧ entry.learners = [] ∧
            entry.regionmapEpoch = 0 ∧ entry.storemapEpoch = 0) := by
  refine ⟨t.partitions.map (rangeDistributionFor s tid), ?_, by simp, ?_⟩
  · simp [getTableRange, hs, ht]
  · intro i hi
    refine ⟨t.partitions[i], rangeDistributionFor s tid t.partitions[i],
      List.getElem?_eq_getElem hi, ?_, ?_, ?_, ?_⟩
    · rw [List.getElem?_map, List.getElem?_eq_getElem hi]
      rfl
    · unfold rangeDistributionFor
      cases aget s.regionMap t.partitions[i] <;> rfl
    · intro r hr
      simp [rangeDistributionFor, hr]
    · intro hr
      simp [rangeDistributionFor, hr]

/-- Range assembly for indexes (claim C5). -/
theorem getIndexRange_assembly_aux (s : CState) (sid tid : Nat) (t : IndexInternal)
    (hs : validateSchema s sid = true) (ht : aget s.indexMap tid = some t) :
    ∃ rds, getIndexRange sid tid s = Except.ok rds ∧
      rds.length = t.partitions.length ∧
      ∀ i, i < t.partitions.length →
        ∃ rid entry, t.partitions[i]? = some rid ∧ rds[i]? = some entry ∧
          entry.id = { entityType := .ENTITY_TYPE_PART, entityId := rid,
                       parentEntityId := tid } ∧
          (∀ r, aget s.regionMap rid = some r →
            entry.range = r.definition.range ∧
            entry.leader = leaderOfPeers r.definition.peers r.leaderStoreId ∧
            entry.voters = (r.definition.peers.filter
              (fun p => decide (p.role = PeerRole.VOTER))).map Peer.serverLocation ∧
            entry.learners = (r.definition.peers.filter
              (fun p => decide (p.role = PeerRole.LEARNER))).map Peer.serverLocation ∧
            entry.regionmapEpoch = getPresentId .EPOCH_REGION s ∧
            entry.storemapEpoch = getPresentId .EPOCH_STORE s) ∧
          (aget s.regionMap rid = none →
            entry.range = { startKey := [], endKey := [] } ∧
            entry.leader = { host := "", port := 0 } ∧
            entry.voters = [] ∧ entry.learners = [] ∧
            entry.regionmapEpoch = 0 ∧ entry.storemapEpoch = 0) := by
  refine ⟨t.partitions.map (rangeDistributionFor s tid), ?_, by simp, ?_⟩
  · simp [getIndexRange, hs, ht]
  · intro i hi
    refine ⟨t.partitions[i], rangeDistributionFor s tid t.partitions[i],
      List.getElem?_eq_getElem hi, ?_, ?_, ?_, ?_⟩
    · rw [List.getElem?_map, List.getElem?_eq_getElem hi]
      rfl
    · unfold rangeDistributionFor
      cases aget s.regionMap t.partitions[i] <;> rfl
    · intro r hr
      simp [rangeDistributionFor, hr]
    · intro hr
      simp [rangeDistributionFor, hr]

/-- C5 (amended).  `GetTableRange` / `GetIndexRange` return exactly one
`RangeDistribution` per partition of the table/index, in partition order;
each entry carries the region id as its entity id with the table/index id as
parent; when the partition's region is present in the region map, the entry's
range is copied from the region record (not the partition), its leader is the
`server_location` of the peer whose `store_id` equals the region's
`leader_store_id` (the last such peer when several match; the final conjunct
states the unique-match reading of the claim), its voters/learners are the
server locations of the peers with role `VOTER`/`LEARNER`, and it carries
the present `EPOCH_REGION` and `EPOCH_STORE` values; a partition whose
region is missing still contributes one entry, carrying only the id with
every other field left at its default. -/
theorem getRange_assembly :
    (∀ (s : CState) (sid tid : Nat) (t : TableInternal),
      validateSchema s sid = true → aget s.tableMap tid = some t →
      ∃ rds, getTableRange sid tid s = Except.ok rds ∧
        rds.length = t.partitions.length ∧
        ∀ i, i < t.partitions.length →
          ∃ rid entry, t.partitions[i]? = some rid ∧ rds[i]? = some entry ∧
            entry.id = { entityType := .ENTITY_TYPE_PART, entityId := rid,
                         parentEntityId := tid } ∧
            (∀ r, aget s.regionMap rid = some r →
              entry.range = r.definition.range ∧
              entry.leader = leaderOfPeers r.definition.peers r.leaderStoreId ∧
              entry.voters = (r.definition.peers.filter
                (fun p => decide (p.role = PeerRole.VOTER))).map Peer.serverLocation ∧
              entry.learners = (r.definition.peers.filter
                (fun p => decide (p.role = PeerRole.LEARNER))).map Peer.serverLocation ∧
              entry.regionmapEpoch = getPresentId .EPOCH_REGION s ∧
              entry.storemapEpoch = getPresentId .EPOCH_STORE s) ∧
            (aget s.regionMap rid = none →
              entry.range = { startKey := [], endKey := [] } ∧
              entry.leader = { host := "", port := 0 } ∧
              entry.voters = [] ∧ entry.learners = [] ∧
              entry.regionmapEpoch = 0 ∧ entry.storemapEpoch = 0)) ∧
    (∀ (s : CState) (sid tid : Nat) (t : IndexInternal),
      validateSchema s sid = true → aget s.indexMap tid = some t →
      ∃ rds, getIndexRange sid tid s = Except.ok rds ∧
        rds.length = t.partitions.length ∧
        ∀ i, i < t.partitions.length →
          ∃ rid entry, t.partitions[i]? = some rid ∧ rds[i]? = some entry ∧
            entry.id = { entityType := .ENTITY_TYPE_PART, entityId := rid,
                         parentEntityId := tid } ∧
            (∀ r, aget s.regionMap rid = some r →
              entry.range = r.definition.range ∧
              entry.leader = leaderOfPeers r.definition.peers r.leaderStoreId ∧
              entry.voters = (r.definition.peers.filter
                (fun p => decide (p.role = PeerRole.VOTER))).map Peer.serverLocation ∧
              entry.learners = (r.definition.peers.filter
                (fun p => decide (p.role = PeerRole.LEARNER))).map Peer.serverLocation ∧
              entry.regionmapEpoch = getPresentId .EPOCH_REGION s ∧
              entry.storemapEpoch = getPresentId .EPOCH_STORE s) ∧
            (aget s.regionMap rid = none →
              entry.range = { startKey := [], endKey := [] } ∧
              entry.leader = { host := "", port := 0 } ∧
              entry.voters = [] ∧ entry.learners = [] ∧
              entry.regionmapEpoch = 0 ∧ entry.storemapEpoch = 0)) ∧
    (∀ (peers : List Peer) (lsid : Nat) (p : Peer), p ∈ peers → p.storeId = lsid →
      (∀ q ∈ peers, q.storeId = lsid → q = p) →
      leaderOfPeers peers lsid = p.serverLocation) :=
  ⟨getTableRange_assembly_aux, getIndexRange_assembly_aux, leaderOfPeers_unique⟩

/-- Witness for C5 (amended): the sample table with its region missing still
yields a successful response, and a singleton peer list yields its own
location as leader. -/
theorem getRange_assembly_witness :
    getTableRange 1001 2001 state1 ≠ Except.error .ETABLE_NOT_FOUND ∧
    leaderOfPeers [samplePeer] 42 = samplePeer.serverLocation := by
  constructor
  · obtain ⟨rds, hr, _⟩ := getRange_assembly.1 state1 1001 2001 ordersTable
      (by decide) (by decide)
    rw [hr]
    simp
  · exact getRange_assembly.2.2 [samplePeer] 42 samplePeer (by decide) (by decide)
      (by decide)

/-- Branch analysis of `CreateSchema`. -/
theorem cs_branches (p : Nat) (n : String) (s : CState) (inc : MetaIncrement)
    (P : Except Errno Nat × CState × MetaIncrement → Prop)
    (hRoot : p ≠ ROOT_SCHEMA → P (Except.error .EILLEGAL_PARAMTETERS, s, inc))
    (hEmpty : n = "" → P (Except.error .EILLEGAL_PARAMTETERS, s, inc))
    (hTaken : ((aget s.schemaNameMap n).getD 0) ≠ 0 → P (Except.error .ESCHEMA_EXISTS, s, inc))
    (hPutConflict : ((aget s.schemaNameMap n).getD 0) = 0 →
      aputIfAbsent (getNextId .ID_NEXT_SCHEMA s inc).2.1.schemaNameMap n
        (getNextId .ID_NEXT_SCHEMA s inc).1 = none →
      P (Except.error .ESCHEMA_EXISTS, (getNextId .ID_NEXT_SCHEMA s inc).2.1,
        (getNextId .ID_NEXT_SCHEMA s inc).2.2))
    (hOk : ∀ nm, p = ROOT_SCHEMA → n ≠ "" → ((aget s.schemaNameMap n).getD 0) = 0 →
      aputIfAbsent (getNextId .ID_NEXT_SCHEMA s inc).2.1.schemaNameMap n
        (getNextId .ID_NEXT_SCHEMA s inc).1 = some nm →
      P (Except.ok (getNextId .ID_NEXT_SCHEMA s inc).1,
        (getNextId .EPOCH_SCHEMA
          { (getNextId .ID_NEXT_SCHEMA s inc).2.1 with schemaNameMap := nm }
          { (getNextId .ID_NEXT_SCHEMA s inc).2.2 with
            schemas := (getNextId .ID_NEXT_SCHEMA s inc).2.2.schemas ++
              [{ id := (getNextId .ID_NEXT_SCHEMA s inc).1, opType := .CREATE, schemaId := p,
                 schemaInternal := { id := (getNextId .ID_NEXT_SCHEMA s inc).1, name := n,
                                     tableIds := [], indexIds := [] } }] }).2.1,
        (getNextId .EPOCH_SCHEMA
          { (getNextId .ID_NEXT_SCHEMA s inc).2.1 with schemaNameMap := nm }
          { (getNextId .ID_NEXT_SCHEMA s inc).2.2 with
            schemas := (getNextId .ID_NEXT_SCHEMA s inc).2.2.schemas ++
              [{ id := (getNextId .ID_NEXT_SCHEMA s inc).1, opType := .CREATE, schemaId := p,
                 schemaInternal := { id := (getNextId .ID_NEXT_SCHEMA s inc).1, name := n,
                                     tableIds := [], indexIds := [] } }] }).2.2)) :
    P (createSchema p n s inc) := by
  by_cases h1 : p ≠ ROOT_SCHEMA
  · have e : createSchema p n s inc = (Except.error .EILLEGAL_PARAMTETERS, s, inc) := by
      simp [createSchema, h1]
    rw [e]; exact hRoot h1
  · by_cases h2 : n = ""
    · have e : createSchema p n s inc = (Except.error .EILLEGAL_PARAMTETERS, s, inc) := by
        simp [createSchema, h1, h2]
      rw [e]; exact hEmpty h2
    · by_cases h3 : ((aget s.schemaNameMap n).getD 0) = 0
      · rcases h4 : aputIfAbsent (getNextId .ID_NEXT_SCHEMA s inc).2.1.schemaNameMap n
            (getNextId .ID_NEXT_SCHEMA s inc).1 with _ | nm
        · have e : createSchema p n s inc =
              (Except.error .ESCHEMA_EXISTS, (getNextId .ID_NEXT_SCHEMA s inc).2.1,
                (getNextId .ID_NEXT_SCHEMA s inc).2.2) := by
            simp [createSchema, h1, h2, h3, h4]
          rw [e]; exact hPutConflict h3 h4
        · have e : createSchema p n s inc =
              (Except.ok (getNextId .ID_NEXT_SCHEMA s inc).1,
                (getNextId .EPOCH_SCHEMA
                  { (getNextId .ID_NEXT_SCHEMA s inc).2.1 with schemaNameMap := nm }
                  { (getNextId .ID_NEXT_SCHEMA s inc).2.2 with
                    schemas := (getNextId .ID_NEXT_SCHEMA s inc).2.2.schemas ++
                      [{ id := (getNextId .ID_NEXT_SCHEMA s inc).1, opType := .CREATE,
                         schemaId := p,
                         schemaInternal := { id := (getNextId .ID_NEXT_SCHEMA s inc).1,
                                             name := n, tableIds := [], indexIds := [] } }] }).2.1,
                (getNextId .EPOCH_SCHEMA
                  { (getNextId .ID_NEXT_SCHEMA s inc).2.1 with schemaNameMap := nm }
                  { (getNextId .ID_NEXT_SCHEMA s inc).2.2 with
                    schemas := (getNextId .ID_NEXT_SCHEMA s inc).2.2.schemas ++
                      [{ id := (getNextId .ID_NEXT_SCHEMA s inc).1, opType := .CREATE,
                         schemaId := p,
                         schemaInternal := { id := (getNextId .ID_NEXT_SCHEMA s inc).1,
                                             name := n, tableIds := [], indexIds := [] } }] }).2.2) := by
            simp [createSchema, h1, h2, h3, h4]
          rw [e]
          exact hOk nm (by simpa using h1) h2 h3 h4
      · have e : createSchema p n s inc = (Except.error .ESCHEMA_EXISTS, s, inc) := by
          simp [createSchema, h1, h2, h3]
        rw [e]; exact hTaken h3

theorem ds_branches (p i : Nat) (s : CState) (inc : MetaIncrement)
    (P : Except Errno Unit × CState × MetaIncrement → Prop)
    (hReserved : i ≤ COORDINATOR_ID_OF_MAP_MIN → P (Except.error .EILLEGAL_PARAMTETERS, s, inc))
    (hNotFound : aget s.schemaMap i = none → P (Except.error .ESCHEMA_NOT_FOUND, s, inc))
    (hNotEmpty : ∀ sch, aget s.schemaMap i = some sch → sch.tableIds.length > 0 →
      P (Except.error .ESCHEMA_NOT_EMPTY, s, inc))
    (hOk : ∀ sch, ¬ i ≤ COORDINATOR_ID_OF_MAP_MIN → aget s.schemaMap i = some sch →
      ¬ sch.tableIds.length > 0 →
      P (Except.ok (),
        { (getNextId .EPOCH_SCHEMA s inc).2.1 with
          schemaNameMap := aerase (getNextId .EPOCH_SCHEMA s inc).2.1.schemaNameMap sch.name },
        { (getNextId .EPOCH_SCHEMA s inc).2.2 with
          schemas := (getNextId .EPOCH_SCHEMA s inc).2.2.schemas ++
            [{ id := i, opType := .DELETE, schemaId := p, schemaInternal := sch }] })) :
    P (dropSchema p i s inc) := by
  by_cases h1 : i ≤ COORDINATOR_ID_OF_MAP_MIN
  · have e : dropSchema p i s inc = (Except.error .EILLEGAL_PARAMTETERS, s, inc) := by
      simp [dropSchema, h1]
    rw [e]; exact hReserved h1
  · rcases h2 : aget s.schemaMap i with _ | sch
    · have e : dropSchema p i s inc = (Except.error .ESCHEMA_NOT_FOUND, s, inc) := by
        simp [dropSchema, h1, h2]
      rw [e]; exact hNotFound h2
    · by_cases h3 : sch.tableIds.length > 0
      · have e : dropSchema p i s inc = (Except.error .ESCHEMA_NOT_EMPTY, s, inc) := by
          simp [dropSchema, h1, h2, h3]
        rw [e]; exact hNotEmpty sch h2 h3
      · have e : dropSchema p i s inc =
            (Except.ok (),
              { (getNextId .EPOCH_SCHEMA s inc).2.1 with
                schemaNameMap :=
                  aerase (getNextId .EPOCH_SCHEMA s inc).2.1.schemaNameMap sch.name },
              { (getNextId .EPOCH_SCHEMA s inc).2.2 with
                schemas := (getNextId .EPOCH_SCHEMA s inc).2.2.schemas ++
                  [{ id := i, opType := .DELETE, schemaId := p, schemaInternal := sch }] }) := by
          simp [dropSchema, h1, h2, h3]
        rw [e]; exact hOk sch h1 h2 h3

theorem dt_branches (sid tid : Nat) (s : CState) (inc : MetaIncrement)
    (P : Except Errno Unit × CState × MetaIncrement → Prop)
    (hBad : validateSchema s sid = false → P (Except.error .EILLEGAL_PARAMTETERS, s, inc))
    (hNotFound : aget s.tableMap tid = none → P (Except.error .ETABLE_NOT_FOUND, s, inc))
    (hOk : ∀ t, validateSchema s sid = true → aget s.tableMap tid = some t →
      P (Except.ok (),
        { (getNextId .EPOCH_TABLE (dropRegionsList t.partitions s inc).1
            { (dropRegionsList t.partitions s inc).2 with
              tables := (dropRegionsList t.partitions s inc).2.tables ++
                [{ id := tid, opType := .DELETE, table := t }] }).2.1 with
          tableNameMap := aerase
            (getNextId .EPOCH_TABLE (dropRegionsList t.partitions s inc).1
              { (dropRegionsList t.partitions s inc).2 with
                tables := (dropRegionsList t.partitions s inc).2.tables ++
                  [{ id := tid, opType := .DELETE, table := t }] }).2.1.tableNameMap
            (nameKey sid t.definition.name) },
        (getNextId .EPOCH_TABLE (dropRegionsList t.partitions s inc).1
          { (dropRegionsList t.partitions s inc).2 with
            tables := (dropRegionsList t.partitions s inc).2.tables ++
              [{ id := tid, opType := .DELETE, table := t }] }).2.2)) :
    P (dropTable sid tid s inc) := by
  by_cases h1 : validateSchema s sid
  · rcases h2 : aget s.tableMap tid with _ | t
    · have e : dropTable sid tid s inc = (Except.error .ETABLE_NOT_FOUND, s, inc) := by
        simp [dropTable, h1, h2]
      rw [e]; exact hNotFound h2
    · have e : dropTable sid tid s inc =
          (Except.ok (),
            { (getNextId .EPOCH_TABLE (dropRegionsList t.partitions s inc).1
                { (dropRegionsList t.partitions s inc).2 with
                  tables := (dropRegionsList t.partitions s inc).2.tables ++
                    [{ id := tid, opType := .DELETE, table := t }] }).2.1 with
              tableNameMap := aerase
                (getNextId .EPOCH_TABLE (dropRegionsList t.partitions s inc).1
                  { (dropRegionsList t.partitions s inc).2 with
                    tables := (dropRegionsList t.partitions s inc).2.tables ++
                      [{ id := tid, opType := .DELETE, table := t }] }).2.1.tableNameMap
                (nameKey sid t.definition.name) },
            (getNextId .EPOCH_TABLE (dropRegionsList t.partitions s inc).1
              { (dropRegionsList t.partitions s inc).2 with
                tables := (dropRegionsList t.partitions s inc).2.tables ++
                  [{ id := tid, opType := .DELETE, table := t }] }).2.2) := by
        simp [dropTable, h1, h2]
      rw [e]; exact hOk t h1 h2
  · have e : dropTable sid tid s inc = (Except.error .EILLEGAL_PARAMTETERS, s, inc) := by
      simp [dropTable, h1]
    rw [e]; exact hBad (by simpa using h1)

theorem di_branches (sid tid : Nat) (s : CState) (inc : MetaIncrement)
    (P : Except Errno Unit × CState × MetaIncrement → Prop)
    (hBad : validateSchema s sid = false → P (Except.error .EILLEGAL_PARAMTETERS, s, inc))
    (hNotFound : aget s.indexMap tid = none → P (Except.error .EINDEX_NOT_FOUND, s, inc))
    (hOk : ∀ t, validateSchema s sid = true → aget s.indexMap tid = some t →
      P (Except.ok (),
        { (getNextId .EPOCH_INDEX (dropRegionsList t.partitions s inc).1
            { (dropRegionsList t.partitions s inc).2 with
              indexes := (dropRegionsList t.partitions s inc).2.indexes ++
                [{ id := tid, opType := .DELETE, index := t }] }).2.1 with
          indexNameMap := aerase
            (getNextId .EPOCH_INDEX (dropRegionsList t.partitions s inc).1
              { (dropRegionsList t.partitions s inc).2 with
                indexes := (dropRegionsList t.partitions s inc).2.indexes ++
                  [{ id := tid, opType := .DELETE, index := t }] }).2.1.indexNameMap
            (nameKey sid t.definition.name) },
        (getNextId .EPOCH_INDEX (dropRegionsList t.partitions s inc).1
          { (dropRegionsList t.partitions s inc).2 with
            indexes := (dropRegionsList t.partitions s inc).2.indexes ++
              [{ id := tid, opType := .DELETE, index := t }] }).2.2)) :
    P (dropIndex sid tid s inc) := by
  by_cases h1 : validateSchema s sid
  · rcases h2 : aget s.indexMap tid with _ | t
    · have e : dropIndex sid tid s inc = (Except.error .EINDEX_NOT_FOUND, s, inc) := by
        simp [dropIndex, h1, h2]
      rw [e]; exact hNotFound h2
    · have e : dropIndex sid tid s inc =
          (Except.ok (),
            { (getNextId .EPOCH_INDEX (dropRegionsList t.partitions s inc).1
                { (dropRegionsList t.partitions s inc).2 with
                  indexes := (dropRegionsList t.partitions s inc).2.indexes ++
                    [{ id := tid, opType := .DELETE, index := t }] }).2.1 with
              indexNameMap := aerase
                (getNextId .EPOCH_INDEX (dropRegionsList t.partitions s inc).1
                  { (dropRegionsList t.partitions s inc).2 with
                    indexes := (dropRegionsList t.partitions s inc).2.indexes ++
                      [{ id := tid, opType := .DELETE, index := t }] }).2.1.indexNameMap
                (nameKey sid t.definition.name) },
            (getNextId .EPOCH_INDEX (dropRegionsList t.partitions s inc).1
              { (dropRegionsList t.partitions s inc).2 with
                indexes := (dropRegionsList t.partitions s inc).2.indexes ++
                  [{ id := tid, opType := .DELETE, index := t }] }).2.2) := by
        simp [dropIndex, h1, h2]
      rw [e]; exact hOk t h1 h2
  · have e : dropIndex sid tid s inc = (Except.error .EILLEGAL_PARAMTETERS, s, inc) := by
      simp [dropIndex, h1]
    rw [e]; exact hBad (by simpa using h1)

/-- A list of id-epoch entries none of which touches the kind contributes
zero to the epoch count. -/
theorem kindCount_zero (es : List IdEpochIncrement) (k : IdEpochType)
    (h : ∀ e ∈ es, e.kind ≠ k) :
    (es.filter (fun e => decide (e.kind = k))).length = 0 := by
  induction es with
  | nil => rfl
  | cons e es ih =>
    have hek := h e (List.mem_cons_self e es)
    simp [List.filter_cons, hek, ih (fun x hx => h x (List.mem_cons_of_mem e hx))]

end Dingo

namespace Dingo
theorem epoch_bumps_createSchema_aux (p : Nat) (n : String) (s : CState) (v : Nat)
    (hok : (createSchema p n s MetaIncrement.empty).1 = Except.ok v) :
    epochEntryCount (createSchema p n s MetaIncrement.empty).2.2 .EPOCH_SCHEMA = 1 := by
  revert hok
  refine cs_branches p n s MetaIncrement.empty
    (fun r => r.1 = Except.ok v → epochEntryCount r.2.2 .EPOCH_SCHEMA = 1) ?_ ?_ ?_ ?_ ?_
  · intro _ hok; simp at hok
  · intro _ hok; simp at hok
  · intro _ hok; simp at hok
  · intro _ _ hok; simp at hok
  · intro nm _ _ _ _ _
    simp [epochEntryCount, getNextId, MetaIncrement.empty]

theorem epoch_bumps_dropSchema_aux (p i : Nat) (s : CState) (v : Unit)
    (hok : (dropSchema p i s MetaIncrement.empty).1 = Except.ok v) :
    epochEntryCount (dropSchema p i s MetaIncrement.empty).2.2 .EPOCH_SCHEMA = 1 := by
  revert hok
  refine ds_branches p i s MetaIncrement.empty
    (fun r => r.1 = Except.ok v → epochEntryCount r.2.2 .EPOCH_SCHEMA = 1) ?_ ?_ ?_ ?_
  · intro _ hok; simp at hok
  · intro _ hok; simp at hok
  · intro _ _ _ hok; simp at hok
  · intro sch _ _ _ _
    simp [epochEntryCount, getNextId, MetaIncrement.empty]

theorem epoch_bumps_dropTable_aux (sid tid : Nat) (s : CState) (v : Unit)
    (hok : (dropTable sid tid s MetaIncrement.empty).1 = Except.ok v) :
    epochEntryCount (dropTable sid tid s MetaIncrement.empty).2.2 .EPOCH_TABLE = 1 ∧
    epochEntryCount (dropTable sid tid s MetaIncrement.empty).2.2 .EPOCH_REGION = 0 := by
  revert hok
  refine dt_branches sid tid s MetaIncrement.empty
    (fun r => r.1 = Except.ok v →
      epochEntryCount r.2.2 .EPOCH_TABLE = 1 ∧ epochEntryCount r.2.2 .EPOCH_REGION = 0)
    ?_ ?_ ?_
  · intro _ hok; simp at hok
  · intro _ hok; simp at hok
  · intro t _ _ _
    have hdz : (dropRegionsList t.partitions s MetaIncrement.empty).2.idEpochs = [] := by
      rw [dropRegionsList_inc]
      rfl
    constructor <;>
    · simp [epochEntryCount, getNextId, hdz]

theorem epoch_bumps_dropIndex_aux (sid iid : Nat) (s : CState) (v : Unit)
    (hok : (dropIndex sid iid s MetaIncrement.empty).1 = Except.ok v) :
    epochEntryCount (dropIndex sid iid s MetaIncrement.empty).2.2 .EPOCH_INDEX = 1 ∧
    epochEntryCount (dropIndex sid iid s MetaIncrement.empty).2.2 .EPOCH_REGION = 0 := by
  revert hok
  refine di_branches sid iid s MetaIncrement.empty
    (fun r => r.1 = Except.ok v →
      epochEntryCount r.2.2 .EPOCH_INDEX = 1 ∧ epochEntryCount r.2.2 .EPOCH_REGION = 0)
    ?_ ?_ ?_
  · intro _ hok; simp at hok
  · intro _ hok; simp at hok
  · intro t _ _ _
    have hdz : (dropRegionsList t.partitions s MetaIncrement.empty).2.idEpochs = [] := by
      rw [dropRegionsList_inc]
      rfl
    constructor <;>
    · simp [epochEntryCount, getNextId, hdz]

theorem epoch_bumps_createIndex_aux (sid : Nat) (d : IndexDefinition) (ntid : Nat)
    (aok : Bool) (rok : Nat → Bool) (s : CState) (v : Nat)
    (hok : (createIndex sid d ntid aok rok s MetaIncrement.empty).1 = Except.ok v) :
    epochEntryCount (createIndex sid d ntid aok rok s MetaIncrement.empty).2.2
      .EPOCH_REGION = 1 ∧
    epochEntryCount (createIndex sid d ntid aok rok s MetaIncrement.empty).2.2
      .EPOCH_INDEX = 1 := by
  revert hok
  refine ci_branches sid d ntid aok rok s MetaIncrement.empty
    (fun r => r.1 = Except.ok v →
      epochEntryCount r.2.2 .EPOCH_REGION = 1 ∧ epochEntryCount r.2.2 .EPOCH_INDEX = 1)
    ?_ ?_ ?_ ?_ ?_ ?_ ?_ ?_ ?_ ?_
  · intro _ hok; simp at hok
  · intro _ _ hok; simp at hok
  · intro _ _ _ _ hok; simp at hok
  · intro _ _ _ hok; simp at hok
  · intro _ _ _ hok; simp at hok
  · intro _ _ _ _ hok; simp at hok
  · intro _ _ _ _ _ _ hok; simp at hok
  · intro _ _ _ _ _ hok; simp at hok
  · intro ranges nm hp hl hg hput hlt hok; simp [ciCompResult] at hok
  · intro ranges nm hp hl hg hput hge hok
    obtain ⟨esA, hA1, hA2⟩ := tableIdAlloc_idEntries ntid s MetaIncrement.empty
    obtain ⟨esL, hL1, hL2⟩ := crfr_idEntries .INDEX_REGION
      (indexRegionName sid d.name) (if d.replica < 1 then 3 else d.replica)
      sid 0 (tableIdAlloc ntid s MetaIncrement.empty).1 rok ranges 0
      { (tableIdAlloc ntid s MetaIncrement.empty).2.1 with indexNameMap := nm }
      (tableIdAlloc ntid s MetaIncrement.empty).2.2
    have hAz1 : (List.filter (fun e => decide (e.kind = IdEpochType.EPOCH_REGION)) esA).length = 0 :=
      kindCount_zero _ _ (fun e he => by rw [hA2 e he]; simp)
    have hAz2 : (List.filter (fun e => decide (e.kind = IdEpochType.EPOCH_INDEX)) esA).length = 0 :=
      kindCount_zero _ _ (fun e he => by rw [hA2 e he]; simp)
    have hLz1 : (List.filter (fun e => decide (e.kind = IdEpochType.EPOCH_REGION)) esL).length = 0 :=
      kindCount_zero _ _ (fun e he => by rw [hL2 e he]; simp)
    have hLz2 : (List.filter (fun e => decide (e.kind = IdEpochType.EPOCH_INDEX)) esL).length = 0 :=
      kindCount_zero _ _ (fun e he => by rw [hL2 e he]; simp)
    have hAempty : (tableIdAlloc ntid s MetaIncrement.empty).2.2.idEpochs = [] ++ esA := by
      rw [hA1]; rfl
    constructor
    · simp only [epochEntryCount, ciCommitResult, ciLoop, getNextId]
      rw [hL1, hAempty]
      simp [List.filter_append, hAz1, hLz1]
    · simp only [epochEntryCount, ciCommitResult, ciLoop, getNextId]
      rw [hL1, hAempty]
      simp [List.filter_append, hAz2, hLz2]
theorem epoch_bumps_createTable_aux (sid : Nat) (d : TableDefinition) (ntid : Nat)
    (aok : Bool) (rok : Nat → Bool) (s : CState) (v : Nat)
    (hok : (createTable sid d ntid aok rok s MetaIncrement.empty).1 = Except.ok v) :
    epochEntryCount (createTable sid d ntid aok rok s MetaIncrement.empty).2.2
      .EPOCH_REGION = 1 ∧
    epochEntryCount (createTable sid d ntid aok rok s MetaIncrement.empty).2.2
      .EPOCH_TABLE = 1 := by
  revert hok
  refine ct_branches sid d ntid aok rok s MetaIncrement.empty
    (fun r => r.1 = Except.ok v →
      epochEntryCount r.2.2 .EPOCH_REGION = 1 ∧ epochEntryCount r.2.2 .EPOCH_TABLE = 1)
    ?_ ?_ ?_ ?_ ?_ ?_ ?_ ?_ ?_
  · intro _ hok; simp at hok
  · intro _ _ hok; simp at hok
  · intro _ _ _ hok; simp at hok
  · intro _ _ _ hok; simp at hok
  · intro _ _ _ _ hok; simp at hok
  · intro _ _ _ _ _ _ hok; simp at hok
  · intro _ _ _ _ _ hok; simp at hok
  · intro ranges nm hp hl hg hput hlt hok; simp [ctCompResult] at hok
  · intro ranges nm hp hl hg hput hge hok
    obtain ⟨esA, hA1, hA2⟩ := tableIdAlloc_idEntries ntid s MetaIncrement.empty
    obtain ⟨esL, hL1, hL2⟩ := crfr_idEntries .STORE_REGION
      (tableRegionName sid d.name) (if d.replica < 1 then 3 else d.replica)
      sid (tableIdAlloc ntid s MetaIncrement.empty).1 0 rok ranges 0
      { (tableIdAlloc ntid s MetaIncrement.empty).2.1 with tableNameMap := nm }
      (tableIdAlloc ntid s MetaIncrement.empty).2.2
    have hAz1 : (List.filter (fun e => decide (e.kind = IdEpochType.EPOCH_REGION)) esA).length = 0 :=
      kindCount_zero _ _ (fun e he => by rw [hA2 e he]; simp)
    have hAz2 : (List.filter (fun e => decide (e.kind = IdEpochType.EPOCH_TABLE)) esA).length = 0 :=
      kindCount_zero _ _ (fun e he => by rw [hA2 e he]; simp)
    have hLz1 : (List.filter (fun e => decide (e.kind = IdEpochType.EPOCH_REGION)) esL).length = 0 :=
      kindCount_zero _ _ (fun e he => by rw [hL2 e he]; simp)
    have hLz2 : (List.filter (fun e => decide (e.kind = IdEpochType.EPOCH_TABLE)) esL).length = 0 :=
      kindCount_zero _ _ (fun e he => by rw [hL2 e he]; simp)
    have hAempty : (tableIdAlloc ntid s MetaIncrement.empty).2.2.idEpochs = [] ++ esA := by
      rw [hA1]; rfl
    constructor
    · simp only [epochEntryCount, ctCommitResult, ctLoop, getNextId]
      rw [hL1, hAempty]
      simp [List.filter_append, hAz1, hLz1]
    · simp only [epochEntryCount, ctCommitResult, ctLoop, getNextId]
      rw [hL1, hAempty]
      simp [List.filter_append, hAz2, hLz2]

/-- C3.  Every successful mutation appends exactly the epoch bumps the code
issues to the increment: CreateSchema and DropSchema each bump EPOCH_SCHEMA
once; CreateTable bumps EPOCH_REGION once and EPOCH_TABLE once; CreateIndex
bumps EPOCH_REGION once and EPOCH_INDEX once; DropTable bumps EPOCH_TABLE
once and - contrary to the original claim - no EPOCH_REGION at all, and
DropIndex likewise bumps only EPOCH_INDEX, never EPOCH_REGION, even though
both drop paths delete regions. -/
theorem builder_epoch_bumps :
    (∀ p n s v, (createSchema p n s MetaIncrement.empty).1 = Except.ok v →
      epochEntryCount (createSchema p n s MetaIncrement.empty).2.2 .EPOCH_SCHEMA = 1) ∧
    (∀ p i s v, (dropSchema p i s MetaIncrement.empty).1 = Except.ok v →
      epochEntryCount (dropSchema p i s MetaIncrement.empty).2.2 .EPOCH_SCHEMA = 1) ∧
    (∀ sid d ntid aok rok s v,
      (createTable sid d ntid aok rok s MetaIncrement.empty).1 = Except.ok v →
      epochEntryCount (createTable sid d ntid aok rok s MetaIncrement.empty).2.2
        .EPOCH_REGION = 1 ∧
      epochEntryCount (createTable sid d ntid aok rok s MetaIncrement.empty).2.2
        .EPOCH_TABLE = 1) ∧
    (∀ sid tid s v, (dropTable sid tid s MetaIncrement.empty).1 = Except.ok v →
      epochEntryCount (dropTable sid tid s MetaIncrement.empty).2.2 .EPOCH_TABLE = 1 ∧
      epochEntryCount (dropTable sid tid s MetaIncrement.empty).2.2 .EPOCH_REGION = 0) ∧
    (∀ sid d ntid aok rok s v,
      (createIndex sid d ntid aok rok s MetaIncrement.empty).1 = Except.ok v →
      epochEntryCount (createIndex sid d ntid aok rok s MetaIncrement.empty).2.2
        .EPOCH_REGION = 1 ∧
      epochEntryCount (createIndex sid d ntid aok rok s MetaIncrement.empty).2.2
        .EPOCH_INDEX = 1) ∧
    (∀ sid iid s v, (dropIndex sid iid s MetaIncrement.empty).1 = Except.ok v →
      epochEntryCount (dropIndex sid iid s MetaIncrement.empty).2.2 .EPOCH_INDEX = 1 ∧
      epochEntryCount (dropIndex sid iid s MetaIncrement.empty).2.2 .EPOCH_REGION = 0) :=
  ⟨epoch_bumps_createSchema_aux, epoch_bumps_dropSchema_aux, epoch_bumps_createTable_aux,
   epoch_bumps_dropTable_aux, epoch_bumps_createIndex_aux, epoch_bumps_dropIndex_aux⟩

/-- Witness for C3: dropping table 2001 of schema 1001 from the sample state
succeeds and bumps exactly one EPOCH_TABLE and zero EPOCH_REGION. -/
theorem builder_epoch_bumps_witness :
    epochEntryCount (dropTable 1001 2001 state1 MetaIncrement.empty).2.2 .EPOCH_TABLE = 1 ∧
    epochEntryCount (dropTable 1001 2001 state1 MetaIncrement.empty).2.2 .EPOCH_REGION = 0 :=
  builder_epoch_bumps.2.2.2.1 1001 2001 state1 () (by decide)
end Dingo


namespace Dingo
theorem createSchema_counters_le (p : Nat) (n : String) (s : CState) (k : IdEpochType) :
    s.idEpochs.get k ≤ (createSchema p n s MetaIncrement.empty).2.1.idEpochs.get k := by
  refine cs_branches p n s MetaIncrement.empty
    (fun r => s.idEpochs.get k ≤ r.2.1.idEpochs.get k) ?_ ?_ ?_ ?_ ?_
  · intro _; exact Nat.le_refl _
  · intro _; exact Nat.le_refl _
  · intro _; exact Nat.le_refl _
  · intro _ _; exact idEpochs_get_set_le s.idEpochs .ID_NEXT_SCHEMA k
  · intro nm _ _ _ _
    exact Nat.le_trans (idEpochs_get_set_le s.idEpochs .ID_NEXT_SCHEMA k)
      (idEpochs_get_set_le _ .EPOCH_SCHEMA k)

theorem dropSchema_counters_le (p i : Nat) (s : CState) (k : IdEpochType) :
    s.idEpochs.get k ≤ (dropSchema p i s MetaIncrement.empty).2.1.idEpochs.get k := by
  refine ds_branches p i s MetaIncrement.empty
    (fun r => s.idEpochs.get k ≤ r.2.1.idEpochs.get k) ?_ ?_ ?_ ?_
  · intro _; exact Nat.le_refl _
  · intro _; exact Nat.le_refl _
  · intro _ _ _; exact Nat.le_refl _
  · intro sch _ _ _
    exact idEpochs_get_set_le s.idEpochs .EPOCH_SCHEMA k

theorem createTableId_counters_le (i : Nat) (s : CState) (k : IdEpochType) :
    s.idEpochs.get k ≤ (createTableId i s MetaIncrement.empty).2.1.idEpochs.get k := by
  unfold createTableId
  split
  · exact Nat.le_refl _
  · exact idEpochs_get_set_le s.idEpochs .ID_NEXT_TABLE k

theorem createIndexId_counters_le (i : Nat) (s : CState) (k : IdEpochType) :
    s.idEpochs.get k ≤ (createIndexId i s MetaIncrement.empty).2.1.idEpochs.get k := by
  unfold createIndexId
  split
  · exact Nat.le_refl _
  · exact idEpochs_get_set_le s.idEpochs .ID_NEXT_TABLE k

theorem dropTable_counters_le (sid tid : Nat) (s : CState) (k : IdEpochType) :
    s.idEpochs.get k ≤ (dropTable sid tid s MetaIncrement.empty).2.1.idEpochs.get k := by
  refine dt_branches sid tid s MetaIncrement.empty
    (fun r => s.idEpochs.get k ≤ r.2.1.idEpochs.get k) ?_ ?_ ?_
  · intro _; exact Nat.le_refl _
  · intro _; exact Nat.le_refl _
  · intro t _ _
    have h0 : (dropRegionsList t.partitions s MetaIncrement.empty).1 = s :=
      dropRegionsList_state _ _ _
    simp only [h0]
    exact idEpochs_get_set_le s.idEpochs .EPOCH_TABLE k

theorem dropIndex_counters_le (sid iid : Nat) (s : CState) (k : IdEpochType) :
    s.idEpochs.get k ≤ (dropIndex sid iid s MetaIncrement.empty).2.1.idEpochs.get k := by
  refine di_branches sid iid s MetaIncrement.empty
    (fun r => s.idEpochs.get k ≤ r.2.1.idEpochs.get k) ?_ ?_ ?_
  · intro _; exact Nat.le_refl _
  · intro _; exact Nat.le_refl _
  · intro t _ _
    have h0 : (dropRegionsList t.partitions s MetaIncrement.empty).1 = s :=
      dropRegionsList_state _ _ _
    simp only [h0]
    exact idEpochs_get_set_le s.idEpochs .EPOCH_INDEX k

theorem createTable_counters_le (sid : Nat) (d : TableDefinition) (ntid : Nat) (aok : Bool)
    (rok : Nat → Bool) (s : CState) (k : IdEpochType) :
    s.idEpochs.get k ≤
      (createTable sid d ntid aok rok s MetaIncrement.empty).2.1.idEpochs.get k := by
  refine ct_branches sid d ntid aok rok s MetaIncrement.empty
    (fun r => s.idEpochs.get k ≤ r.2.1.idEpochs.get k) ?_ ?_ ?_ ?_ ?_ ?_ ?_ ?_ ?_
  · intro _; exact Nat.le_refl _
  · intro _ _; exact Nat.le_refl _
  · intro _ _ _; exact Nat.le_refl _
  · intro _ _ _; exact Nat.le_refl _
  · intro _ _ _ _; exact Nat.le_refl _
  · intro _ _ _ _ _ _; exact tableIdAlloc_counters_le ntid s MetaIncrement.empty k
  · intro _ _ _ _ _; exact tableIdAlloc_counters_le ntid s MetaIncrement.empty k
  · intro ranges nm _ _ _ _ _
    have h1 := tableIdAlloc_counters_le ntid s MetaIncrement.empty k
    have h2 := crfr_counters_le .STORE_REGION (tableRegionName sid d.name)
      (if d.replica < 1 then 3 else d.replica) sid (tableIdAlloc ntid s MetaIncrement.empty).1 0
      rok ranges 0 { (tableIdAlloc ntid s MetaIncrement.empty).2.1 with tableNameMap := nm }
      (tableIdAlloc ntid s MetaIncrement.empty).2.2 k
    have h0 := dropRegionsList_state
      (ctLoop sid d (tableIdAlloc ntid s MetaIncrement.empty).1 rok ranges
        { (tableIdAlloc ntid s MetaIncrement.empty).2.1 with tableNameMap := nm }
        (tableIdAlloc ntid s MetaIncrement.empty).2.2).2.2
      (ctLoop sid d (tableIdAlloc ntid s MetaIncrement.empty).1 rok ranges
        { (tableIdAlloc ntid s MetaIncrement.empty).2.1 with tableNameMap := nm }
        (tableIdAlloc ntid s MetaIncrement.empty).2.2).1
      (ctLoop sid d (tableIdAlloc ntid s MetaIncrement.empty).1 rok ranges
        { (tableIdAlloc ntid s MetaIncrement.empty).2.1 with tableNameMap := nm }
        (tableIdAlloc ntid s MetaIncrement.empty).2.2).2.1
    simp only [ctCompResult, h0]
    exact Nat.le_trans h1 h2
  · intro ranges nm _ _ _ _ _
    have h1 := tableIdAlloc_counters_le ntid s MetaIncrement.empty k
    have h2 := crfr_counters_le .STORE_REGION (tableRegionName sid d.name)
      (if d.replica < 1 then 3 else d.replica) sid (tableIdAlloc ntid s MetaIncrement.empty).1 0
      rok ranges 0 { (tableIdAlloc ntid s MetaIncrement.empty).2.1 with tableNameMap := nm }
      (tableIdAlloc ntid s MetaIncrement.empty).2.2 k
    exact Nat.le_trans h1 (Nat.le_trans h2 (Nat.le_trans
      (idEpochs_get_set_le _ .EPOCH_REGION k) (idEpochs_get_set_le _ .EPOCH_TABLE k)))

theorem createIndex_counters_le (sid : Nat) (d : IndexDefinition) (ntid : Nat) (aok : Bool)
    (rok : Nat → Bool) (s : CState) (k : IdEpochType) :
    s.idEpochs.get k ≤
      (createIndex sid d ntid aok rok s MetaIncrement.empty).2.1.idEpochs.get k := by
  refine ci_branches sid d ntid aok rok s MetaIncrement.empty
    (fun r => s.idEpochs.get k ≤ r.2.1.idEpochs.get k) ?_ ?_ ?_ ?_ ?_ ?_ ?_ ?_ ?_ ?_
  · intro _; exact Nat.le_refl _
  · intro _ _; exact Nat.le_refl _
  · intro _ _ _ _; exact Nat.le_refl _
  · intro _ _ _; exact Nat.le_refl _
  · intro _ _ _; exact Nat.le_refl _
  · intro _ _ _ _; exact Nat.le_refl _
  · intro _ _ _ _ _ _; exact tableIdAlloc_counters_le ntid s MetaIncrement.empty k
  · intro _ _ _ _ _; exact tableIdAlloc_counters_le ntid s MetaIncrement.empty k
  · intro ranges nm _ _ _ _ _
    have h1 := tableIdAlloc_counters_le ntid s MetaIncrement.empty k
    have h2 := crfr_counters_le .INDEX_REGION (indexRegionName sid d.name)
      (if d.replica < 1 then 3 else d.replica) sid 0 (tableIdAlloc ntid s MetaIncrement.empty).1
      rok ranges 0 { (tableIdAlloc ntid s MetaIncrement.empty).2.1 with indexNameMap := nm }
      (tableIdAlloc ntid s MetaIncrement.empty).2.2 k
    have h0 := dropRegionsList_state
      (ciLoop sid d (tableIdAlloc ntid s MetaIncrement.empty).1 rok ranges
        { (tableIdAlloc ntid s MetaIncrement.empty).2.1 with indexNameMap := nm }
        (tableIdAlloc ntid s MetaIncrement.empty).2.2).2.2
      (ciLoop sid d (tableIdAlloc ntid s MetaIncrement.empty).1 rok ranges
        { (tableIdAlloc ntid s MetaIncrement.empty).2.1 with indexNameMap := nm }
        (tableIdAlloc ntid s MetaIncrement.empty).2.2).1
      (ciLoop sid d (tableIdAlloc ntid s MetaIncrement.empty).1 rok ranges
        { (tableIdAlloc ntid s MetaIncrement.empty).2.1 with indexNameMap := nm }
        (tableIdAlloc ntid s MetaIncrement.empty).2.2).2.1
    simp only [ciCompResult, h0]
    exact Nat.le_trans h1 h2
  · intro ranges nm _ _ _ _ _
    have h1 := tableIdAlloc_counters_le ntid s MetaIncrement.empty k
    have h2 := crfr_counters_le .INDEX_REGION (indexRegionName sid d.name)
      (if d.replica < 1 then 3 else d.replica) sid 0 (tableIdAlloc ntid s MetaIncrement.empty).1
      rok ranges 0 { (tableIdAlloc ntid s MetaIncrement.empty).2.1 with indexNameMap := nm }
      (tableIdAlloc ntid s MetaIncrement.empty).2.2 k
    exact Nat.le_trans h1 (Nat.le_trans h2 (Nat.le_trans
      (idEpochs_get_set_le _ .EPOCH_REGION k) (idEpochs_get_set_le _ .EPOCH_INDEX k)))

theorem execOp_counters_le (s : CState) (op : MetaOp) (k : IdEpochType) :
    s.idEpochs.get k ≤ (execOp s op).idEpochs.get k := by
  cases op with
  | opCreateSchema p n => exact createSchema_counters_le p n s k
  | opDropSchema p i => exact dropSchema_counters_le p i s k
  | opCreateTableId i => exact createTableId_counters_le i s k
  | opCreateTable i d n a r => exact createTable_counters_le i d n a r s k
  | opDropTable i t => exact dropTable_counters_le i t s k
  | opCreateIndexId i => exact createIndexId_counters_le i s k
  | opCreateIndex i d n a r => exact createIndex_counters_le i d n a r s k
  | opDropIndex i x => exact dropIndex_counters_le i x s k

theorem execOps_counters_le (s : CState) (ops : List MetaOp) (k : IdEpochType) :
    s.idEpochs.get k ≤ (execOps s ops).idEpochs.get k := by
  induction ops generalizing s with
  | nil => exact Nat.le_refl _
  | cons op rest ih =>
    exact Nat.le_trans (execOp_counters_le s op k) (ih (execOp s op))

theorem createTableId_ok_val (i : Nat) (s : CState) (v : Nat)
    (h : (createTableId i s MetaIncrement.empty).1 = Except.ok v) :
    v = s.idEpochs.get .ID_NEXT_TABLE + 1 ∧
    (createTableId i s MetaIncrement.empty).2.1.idEpochs.get .ID_NEXT_TABLE = v := by
  by_cases hx : ¬ aexists s.schemaMap i
  · simp [createTableId, hx] at h
  · have e : createTableId i s MetaIncrement.empty =
        (Except.ok (s.idEpochs.get .ID_NEXT_TABLE + 1),
         { s with idEpochs :=
             s.idEpochs.set .ID_NEXT_TABLE (s.idEpochs.get .ID_NEXT_TABLE + 1) },
         { MetaIncrement.empty with idEpochs := MetaIncrement.empty.idEpochs ++
             [{ kind := .ID_NEXT_TABLE, value := s.idEpochs.get .ID_NEXT_TABLE + 1 }] }) := by
      simp [createTableId, hx, getNextId]
    rw [e] at h ⊢
    simp only [Except.ok.injEq] at h
    exact ⟨h.symm, h⟩

theorem createIndexId_ok_val (i : Nat) (s : CState) (v : Nat)
    (h : (createIndexId i s MetaIncrement.empty).1 = Except.ok v) :
    v = s.idEpochs.get .ID_NEXT_TABLE + 1 ∧
    (createIndexId i s MetaIncrement.empty).2.1.idEpochs.get .ID_NEXT_TABLE = v := by
  by_cases hx : ¬ aexists s.schemaMap i
  · simp [createIndexId, hx] at h
  · have e : createIndexId i s MetaIncrement.empty =
        (Except.ok (s.idEpochs.get .ID_NEXT_TABLE + 1),
         { s with idEpochs :=
             s.idEpochs.set .ID_NEXT_TABLE (s.idEpochs.get .ID_NEXT_TABLE + 1) },
         { MetaIncrement.empty with idEpochs := MetaIncrement.empty.idEpochs ++
             [{ kind := .ID_NEXT_TABLE, value := s.idEpochs.get .ID_NEXT_TABLE + 1 }] }) := by
      simp [createIndexId, hx, getNextId]
    rw [e] at h ⊢
    simp only [Except.ok.injEq] at h
    exact ⟨h.symm, h⟩

theorem createTable_ok_val (sid : Nat) (d : TableDefinition) (aok : Bool) (rok : Nat → Bool)
    (s : CState) (v : Nat)
    (h : (createTable sid d 0 aok rok s MetaIncrement.empty).1 = Except.ok v) :
    v = s.idEpochs.get .ID_NEXT_TABLE + 1 := by
  revert h
  refine ct_branches sid d 0 aok rok s MetaIncrement.empty
    (fun r => r.1 = Except.ok v → v = s.idEpochs.get .ID_NEXT_TABLE + 1)
    ?_ ?_ ?_ ?_ ?_ ?_ ?_ ?_ ?_
  · intro _ h; simp at h
  · intro _ _ h; simp at h
  · intro _ _ _ h; simp at h
  · intro _ _ _ h; simp at h
  · intro _ _ _ _ h; simp at h
  · intro _ _ _ _ _ _ h; simp at h
  · intro _ _ _ _ _ h; simp at h
  · intro ranges nm _ _ _ _ _ h; simp [ctCompResult] at h
  · intro ranges nm _ _ _ _ _ h
    simp only [ctCommitResult, Except.ok.injEq] at h
    rw [← h, tableIdAlloc_val]
    simp

theorem createIndex_ok_val (sid : Nat) (d : IndexDefinition) (aok : Bool) (rok : Nat → Bool)
    (s : CState) (v : Nat)
    (h : (createIndex sid d 0 aok rok s MetaIncrement.empty).1 = Except.ok v) :
    v = s.idEpochs.get .ID_NEXT_TABLE + 1 := by
  revert h
  refine ci_branches sid d 0 aok rok s MetaIncrement.empty
    (fun r => r.1 = Except.ok v → v = s.idEpochs.get .ID_NEXT_TABLE + 1)
    ?_ ?_ ?_ ?_ ?_ ?_ ?_ ?_ ?_ ?_
  · intro _ h; simp at h
  · intro _ _ h; simp at h
  · intro _ _ _ _ h; simp at h
  · intro _ _ _ h; simp at h
  · intro _ _ _ h; simp at h
  · intro _ _ _ _ h; simp at h
  · intro _ _ _ _ _ _ h; simp at h
  · intro _ _ _ _ _ h; simp at h
  · intro ranges nm _ _ _ _ _ h; simp [ciCompResult] at h
  · intro ranges nm _ _ _ _ _ h
    simp only [ciCommitResult, Except.ok.injEq] at h
    rw [← h, tableIdAlloc_val]
    simp

/-- C8.  Tables and indexes share the counter kind `ID_NEXT_TABLE`:
`CreateTableId`, `CreateIndexId` and the in-line allocations of `CreateTable`
and `CreateIndex` (when no explicit id is supplied) all return exactly the old
`ID_NEXT_TABLE` counter plus one and advance the counter to the returned
value; every builder operation leaves every counter no smaller than before,
so across any interleaving of operations a later allocation of the shared
kind is strictly greater than an earlier one. -/
theorem id_next_table_shared_monotone :
    (∀ i s v, (createTableId i s MetaIncrement.empty).1 = Except.ok v →
      v = s.idEpochs.get .ID_NEXT_TABLE + 1 ∧
      (createTableId i s MetaIncrement.empty).2.1.idEpochs.get .ID_NEXT_TABLE = v) ∧
    (∀ i s v, (createIndexId i s MetaIncrement.empty).1 = Except.ok v →
      v = s.idEpochs.get .ID_NEXT_TABLE + 1 ∧
      (createIndexId i s MetaIncrement.empty).2.1.idEpochs.get .ID_NEXT_TABLE = v) ∧
    (∀ sid d aok rok s v, (createTable sid d 0 aok rok s MetaIncrement.empty).1 = Except.ok v →
      v = s.idEpochs.get .ID_NEXT_TABLE + 1) ∧
    (∀ sid d aok rok s v, (createIndex sid d 0 aok rok s MetaIncrement.empty).1 = Except.ok v →
      v = s.idEpochs.get .ID_NEXT_TABLE + 1) ∧
    (∀ s ops k, s.idEpochs.get k ≤ (execOps s ops).idEpochs.get k) ∧
    (∀ i j s ops v1 v2, (createTableId i s MetaIncrement.empty).1 = Except.ok v1 →
      (createIndexId j (execOps (createTableId i s MetaIncrement.empty).2.1 ops)
        MetaIncrement.empty).1 = Except.ok v2 →
      v1 < v2) := by
  refine ⟨createTableId_ok_val, createIndexId_ok_val, createTable_ok_val, createIndex_ok_val,
    execOps_counters_le, ?_⟩
  intro i j s ops v1 v2 h1 h2
  obtain ⟨hv1, hs1⟩ := createTableId_ok_val i s v1 h1
  obtain ⟨hv2, _⟩ := createIndexId_ok_val j _ v2 h2
  have hm := execOps_counters_le (createTableId i s MetaIncrement.empty).2.1 ops .ID_NEXT_TABLE
  rw [hs1] at hm
  omega

/-- Witness for C8: in the sample state the counter stands at 2000, a
`CreateTableId` hands out 2001 and a subsequent `CreateIndexId` hands out
2002 from the same counter. -/
theorem id_next_table_shared_monotone_witness :
    (createTableId 1001 state1 MetaIncrement.empty).1 = Except.ok 2001 ∧ (2001 : Nat) < 2002 :=
  ⟨by decide,
   id_next_table_shared_monotone.2.2.2.2.2 1001 1001 state1 [] 2001 2002
     (by decide) (by decide)⟩
end Dingo

namespace Dingo
theorem calcTM_eq_foldl (s : CState) :
    calculateTableMetrics s = s.tableMetricsMap.foldl tmSweepStep s := rfl

theorem aget_some_mem {κ α : Type} [DecidableEq κ] (m : List (κ × α)) (k : κ) (v : α)
    (h : aget m k = some v) : (k, v) ∈ m := by
  induction m with
  | nil => simp [aget] at h
  | cons p rest ih =>
    cases p with
    | mk k2 v2 =>
      by_cases h2 : k2 = k
      · subst h2
        simp [aget] at h
        simp [h]
      · simp [aget, h2] at h
        simp [ih h]

theorem aget_aerase_none {κ α : Type} [DecidableEq κ] (m : List (κ × α)) (k k2 : κ)
    (h : aget m k2 = none) : aget (aerase m k) k2 = none := by
  by_cases h2 : k2 = k
  · subst h2; exact aget_aerase_self m k2
  · rw [aget_aerase_ne m k k2 h2]; exact h

theorem aget_aputIfExists_none {κ α : Type} [DecidableEq κ] (m : List (κ × α)) (k k2 : κ)
    (v : α) (h : aget m k2 = none) : aget (aputIfExists m k v) k2 = none := by
  by_cases h2 : k2 = k
  · subst h2
    unfold aputIfExists
    rw [h]
    simp [h]
  · rw [aget_aputIfExists_ne m k k2 v h2]; exact h

theorem tmStep_tableMap (st : CState) (p : Nat × TableMetricsInternal) :
    (tmSweepStep st p).tableMap = st.tableMap := by
  unfold tmSweepStep
  rcases calculateTableMetricsSingle p.1 st with _ | tm <;> rfl

theorem tmStep_none (st : CState) (p : Nat × TableMetricsInternal) (tid : Nat)
    (h : aget st.tableMetricsMap tid = none) :
    aget (tmSweepStep st p).tableMetricsMap tid = none := by
  unfold tmSweepStep
  rcases calculateTableMetricsSingle p.1 st with _ | tm
  · exact aget_aerase_none _ _ _ h
  · exact aget_aputIfExists_none _ _ _ _ h

theorem tmFold_none (l : List (Nat × TableMetricsInternal)) (st : CState) (tid : Nat)
    (h : aget st.tableMetricsMap tid = none) :
    aget (l.foldl tmSweepStep st).tableMetricsMap tid = none := by
  induction l generalizing st with
  | nil => exact h
  | cons p rest ih => exact ih (tmSweepStep st p) (tmStep_none st p tid h)

theorem tmFold_dropped (l : List (Nat × TableMetricsInternal)) (st : CState) (tid : Nat)
    (hdrop : aget st.tableMap tid = none)
    (h : aget st.tableMetricsMap tid = none ∨ ∃ v, (tid, v) ∈ l) :
    aget (l.foldl tmSweepStep st).tableMetricsMap tid = none := by
  induction l generalizing st with
  | nil =>
    rcases h with h | ⟨v, hv⟩
    · exact h
    · simp at hv
  | cons p rest ih =>
    have hdrop2 : aget (tmSweepStep st p).tableMap tid = none := by
      rw [tmStep_tableMap]; exact hdrop
    rcases h with h | ⟨v, hv⟩
    · exact ih (tmSweepStep st p) hdrop2 (Or.inl (tmStep_none st p tid h))
    · rcases List.mem_cons.mp hv with hv | hv
      · have hp1 : p.1 = tid := by rw [← hv]
        have hnone : calculateTableMetricsSingle p.1 st = none := by
          rw [hp1]
          unfold calculateTableMetricsSingle
          rw [hdrop]
        have hstep : (tmSweepStep st p).tableMetricsMap =
            aerase st.tableMetricsMap p.1 := by
          unfold tmSweepStep
          rw [hnone]
        refine ih (tmSweepStep st p) hdrop2 (Or.inl ?_)
        rw [hstep, hp1]
        exact aget_aerase_self _ _
      · exact ih (tmSweepStep st p) hdrop2 (Or.inr ⟨v, hv⟩)

theorem getTableMetrics_hit (sid tid : Nat) (tin : TableMetricsWithId) (s : CState)
    (tmi : TableMetricsInternal) (h1 : tin.id.entityId = 0)
    (h2 : validateSchema s sid = true) (h3 : aexists s.tableMap tid = true)
    (h4 : aget s.tableMetricsMap tid = some tmi) :
    getTableMetrics sid tid tin s =
      (Except.ok { id := { entityType := .ENTITY_TYPE_TABLE, entityId := tid,
                           parentEntityId := sid },
                   tableMetrics := tmi.tableMetrics }, s) := by
  simp [getTableMetrics, h1, h2, h3, h4]

theorem getTableMetrics_miss (sid tid : Nat) (tin : TableMetricsWithId) (s : CState)
    (tm : TableMetrics) (h1 : tin.id.entityId = 0)
    (h2 : validateSchema s sid = true) (h3 : aexists s.tableMap tid = true)
    (h4 : aget s.tableMetricsMap tid = none)
    (h5 : calculateTableMetricsSingle tid s = some tm) :
    getTableMetrics sid tid tin s =
      (Except.ok { id := { entityType := .ENTITY_TYPE_TABLE, entityId := tid,
                           parentEntityId := sid },
                   tableMetrics := tm },
       { s with tableMetricsMap := aput s.tableMetricsMap tid { id := tid, tableMetrics := tm } }) := by
  simp [getTableMetrics, h1, h2, h3, h4, h5]

theorem getTableMetrics_roundtrip (sid tid : Nat) (tin : TableMetricsWithId) (s : CState)
    (m : TableMetricsWithId) (s1 : CState)
    (h : getTableMetrics sid tid tin s = (Except.ok m, s1)) :
    getTableMetrics sid tid tin s1 = (Except.ok m, s1) := by
  by_cases h1 : tin.id.entityId = 0
  · by_cases h2 : validateSchema s sid
    · by_cases h3 : aexists s.tableMap tid
      · rcases h4 : aget s.tableMetricsMap tid with _ | tmi
        · rcases h5 : calculateTableMetricsSingle tid s with _ | tm
          · simp [getTableMetrics, h1, h2, h3, h4, h5] at h
          · rw [getTableMetrics_miss sid tid tin s tm h1 (by simp [h2]) (by simp [h3])
              h4 h5] at h
            rw [Prod.mk.injEq] at h
            obtain ⟨hm, hs⟩ := h
            subst hs
            rw [getTableMetrics_hit sid tid tin
              { s with tableMetricsMap := aput s.tableMetricsMap tid { id := tid, tableMetrics := tm } }
              { id := tid, tableMetrics := tm } h1 (by simpa [validateSchema] using h2)
              (by simp [h3]) (aget_aput_self _ _ _)]
            rw [hm]
        · rw [getTableMetrics_hit sid tid tin s tmi h1 (by simp [h2]) (by simp [h3]) h4] at h
          rw [Prod.mk.injEq] at h
          obtain ⟨hm, hs⟩ := h
          subst hs
          rw [getTableMetrics_hit sid tid tin s tmi h1 (by simp [h2]) (by simp [h3]) h4]
          rw [hm]
      · simp [getTableMetrics, h1, h2, h3] at h
    · simp [getTableMetrics, h1, h2] at h
  · simp [getTableMetrics, h1] at h

/-- C9.  `GetTableMetrics` cache policy: a cached entry is returned as-is with
the state unchanged; on a miss the metrics are computed, inserted into the
cache and returned; a successful call followed by another call with no
intervening change returns the identical value and state (P5 round-trip);
the periodic sweep `CalculateTableMetrics` never admits a key absent from the
cache, and it erases every cached entry whose underlying table no longer
exists. -/
theorem table_metrics_cache_policy :
    (∀ sid tid tin s tmi, tin.id.entityId = 0 →
      validateSchema s sid = true → aexists s.tableMap tid = true →
      aget s.tableMetricsMap tid = some tmi →
      getTableMetrics sid tid tin s =
        (Except.ok { id := { entityType := .ENTITY_TYPE_TABLE, entityId := tid,
                             parentEntityId := sid },
                     tableMetrics := tmi.tableMetrics }, s)) ∧
    (∀ sid tid tin s tm, tin.id.entityId = 0 →
      validateSchema s sid = true → aexists s.tableMap tid = true →
      aget s.tableMetricsMap tid = none → calculateTableMetricsSingle tid s = some tm →
      getTableMetrics sid tid tin s =
        (Except.ok { id := { entityType := .ENTITY_TYPE_TABLE, entityId := tid,
                             parentEntityId := sid },
                     tableMetrics := tm },
         { s with tableMetricsMap := aput s.tableMetricsMap tid { id := tid, tableMetrics := tm } })) ∧
    (∀ sid tid tin s m s1, getTableMetrics sid tid tin s = (Except.ok m, s1) →
      getTableMetrics sid tid tin s1 = (Except.ok m, s1)) ∧
    (∀ s tid, aget s.tableMetricsMap tid = none →
      aget (calculateTableMetrics s).tableMetricsMap tid = none) ∧
    (∀ s tid, aget s.tableMap tid = none →
      aget (calculateTableMetrics s).tableMetricsMap tid = none) := by
  refine ⟨getTableMetrics_hit, getTableMetrics_miss, getTableMetrics_roundtrip, ?_, ?_⟩
  · intro s tid h
    rw [calcTM_eq_foldl]
    exact tmFold_none _ _ _ h
  · intro s tid h
    rw [calcTM_eq_foldl]
    rcases h4 : aget s.tableMetricsMap tid with _ | v
    · exact tmFold_dropped _ _ _ h (Or.inl h4)
    · exact tmFold_dropped _ _ _ h (Or.inr ⟨v, aget_some_mem _ _ _ h4⟩)

/-- Witness for C9: in the metrics scenario a first `GetTableMetrics` call
fills the cache and a second call returns the identical value and state. -/
theorem table_metrics_cache_policy_witness :
    getTableMetrics 1001 3001 emptyTableMetricsWithId
        { state3 with tableMetricsMap :=
            [(3001, { id := 3001, tableMetrics :=
                { rowsCount := 60, minKey := List.replicate 10 0,
                  maxKey := List.replicate 10 255, partCount := 3 } })] } =
      (Except.ok { id := { entityType := .ENTITY_TYPE_TABLE, entityId := 3001,
                           parentEntityId := 1001 },
                   tableMetrics := { rowsCount := 60, minKey := List.replicate 10 0,
                                     maxKey := List.replicate 10 255, partCount := 3 } },
       { state3 with tableMetricsMap :=
           [(3001, { id := 3001, tableMetrics :=
               { rowsCount := 60, minKey := List.replicate 10 0,
                 maxKey := List.replicate 10 255, partCount := 3 } })] }) :=
  table_metrics_cache_policy.2.2.1 1001 3001 emptyTableMetricsWithId state3 _ _ (by decide)
end Dingo
